import Mathlib

/-!
# RPC dispatcher, action handlers and payment observers of `rai/node/rpc.cpp`

A shallow embedding of the request dispatcher (`rai::rpc_handler::process_request`), of the
action handlers it routes to, and of the payment observer machinery
(`rai::rpc::observer_action`, `rai::payment_observer`).

Conventions of the embedding
* 256-bit identifiers (accounts, wallet ids, block hashes, keys) and 128-bit amounts are
  natural numbers; where the source computes in a fixed width the reduction is written
  explicitly (`% 2 ^ 128`, `% 2 ^ 256`).
* A handler is a function from the state to an outcome: either it returns normally or a C++
  exception escapes from it; in both cases the state reached is kept, since responses, log
  lines and collaborator calls made before a throw are not undone.
* Everything that is declared outside `rpc.cpp` (codecs, unit ratios, the ledger, the wallets,
  the block store, the work pool, the alarm) is a field of `environment`; every call of a
  collaborator is appended to the `calls` trace of the state, and may raise.
-/

namespace rai

/-! ## Property trees (`boost::property_tree::ptree`) -/

/-- A property tree node: its own data and the ordered list of its keyed children. -/
inductive ptree where
  | mk (data : String) (children : List (String × ptree))

namespace ptree

/-- The data of the node itself. -/
def data : ptree → String
  | mk d _ => d

/-- The direct children, in order. -/
def children : ptree → List (String × ptree)
  | mk _ c => c

/-- A default-constructed tree. -/
def nil : ptree := mk "" []

/-- A node that only carries data. -/
def leaf (value : String) : ptree := mk value []

/-- Child lookup `get_child (key)`: the first direct child with that key; the empty path is the
node itself. All keys used by the handlers are free of the path separator. -/
def get_child (t : ptree) (key : String) : Option ptree :=
  if key = "" then some t else (t.children.find? (fun kv => kv.1 == key)).map Prod.snd

/-- String lookup `get <std::string> (key)`: the data of the child found by `get_child`. -/
def get (t : ptree) (key : String) : Option String :=
  (t.get_child key).map data

/-- Store `value` in the first child named `key`, appending a new child when there is none. -/
def put_child : List (String × ptree) → String → String → List (String × ptree)
  | [], key, value => [(key, leaf value)]
  | (k, c) :: rest, key, value =>
    if k = key then (k, mk value c.children) :: rest else (k, c) :: put_child rest key value

/-- Member `put (key, value)`; the empty path sets the data of the node itself. -/
def put (t : ptree) (key value : String) : ptree :=
  if key = "" then mk value t.children else mk t.data (put_child t.children key value)

/-- Member `push_back (std::make_pair (key, child))`. -/
def push_back (t : ptree) (key : String) (child : ptree) : ptree :=
  mk t.data (t.children ++ [(key, child)])

/-- Member `add_child (key, child)`: always appends a new child. -/
def add_child (t : ptree) (key : String) (child : ptree) : ptree :=
  mk t.data (t.children ++ [(key, child)])

/-- Member `erase (key)`: removes every direct child with that key. -/
def erase (t : ptree) (key : String) : ptree :=
  mk t.data (t.children.filter (fun kv => kv.1 != key))

/-- Member `empty ()`: there is no direct child. -/
def empty (t : ptree) : Bool := t.children.isEmpty

/-- Member `size ()`: the number of direct children. -/
def size (t : ptree) : Nat := t.children.length

end ptree

/-! ## Values exchanged with the collaborators -/

/-- The variants of a block, with the hashables the history visitor reads. -/
inductive block_type where
  | send_block (destination : Nat)
  | receive_block (source : Nat)
  | open_block (source : Nat)
  | change_block

/-- A block as seen through the virtual interface used by the handlers. -/
structure block where
  hash : Nat
  previous : Nat
  representative : Nat
  contents : String
  type : block_type

/-- The fields of `rai::account_info` read by the handlers. -/
structure account_info where
  head : Nat
  rep_block : Nat

/-- Exceptions, by the catch clause of `process_request` that receives them.
`runtime_error` stands for `std::runtime_error` and the classes derived from it, among them
the property tree errors `ptree_bad_path`, `ptree_bad_data` and `json_parser_error`. -/
inductive failure where
  | runtime_error (what : String)
  | logic_error (what : String)
  | other (what : String)

/-- Completion status of a payment observer; `other` stands for the enumerators of
`rai::payment_status` that are neither `nothing` nor `success`. -/
inductive payment_status where
  | nothing
  | success
  | other (code : Nat)

/-- The members of `rai::rpc_config`. -/
structure rpc_config where
  address : Nat
  port : Nat
  enable_control : Bool
  frontier_request_limit : Nat
  chain_request_limit : Nat

/-- The immutable members of a `rai::payment_observer`; `id` is the identity of the object,
`response` the identity of the response callback it captured. -/
structure payment_observer where
  id : Nat
  account : Nat
  amount : Nat
  response : Nat

/-- Calls made to collaborators, in the order they are made. -/
inductive call where
  | transaction (write : Bool)
  | balance_pending (account : Nat)
  | balance (account : Nat)
  | weight (account : Nat)
  | keepalive (address : String) (port : Nat)
  | node_stop
  | acceptor_close
  | process_receive_republish (block : block)
  | store_version
  | peers_list
  | bootstrap (address port : Nat)
  | alarm_add (timeout observer : Nat)
  | wallets_find (wallet : Nat)
  | wallets_create (wallet : Nat)
  | wallets_destroy (wallet : Nat)
  | keypair
  | deterministic_insert (wallet : Nat)
  | change_async (wallet account representative response : Nat)
  | send_async (wallet source destination amount response : Nat)
  | enter_password (wallet : Nat) (password : String)
  | search_pending (wallet : Nat)
  | insert_adhoc (wallet key : Nat)
  | init_free_accounts (wallet : Nat)
  | wallet_store_begin (wallet : Nat)
  | wallet_store_find (wallet account : Nat)
  | wallet_store_move (wallet source : Nat) (accounts : List Nat)
  | rekey (wallet : Nat) (password : String)
  | valid_password (wallet : Nat)
  | wallet_serialize_json (wallet : Nat)
  | wallet_representative (wallet : Nat)
  | wallet_representative_set (wallet representative : Nat)
  | account_get (account : Nat)
  | block_get (hash : Nat)
  | block_exists (hash : Nat)
  | block_count
  | unchecked_count
  | latest_begin (start : Nat)
  | frontier_count
  | pending_begin (account hash : Nat)
  | ledger_account (hash : Nat)
  | ledger_amount (hash : Nat)
  | ledger_account_balance (account : Nat)
  | work_validate (block : block)
  | work_generate_maybe (hash : Nat)
  | work_cancel (hash : Nat)

/-- The account written in `available_supply` as "Active unavailable account". -/
def landing_account : Nat := 0x059F68AAB29DE0D3A27443625C7EA9CDDB6517A8B76FE37727EF6A4D76832AD5

/-- The account written in `available_supply` as "Faucet account". -/
def faucet_account : Nat := 0x8E319CE6F3025E5B2DF66DA7AB1467FE48F1679C13DD43BFDB29FA2E9FC40D3B

/-- Everything the handlers use that is declared outside `rpc.cpp`. -/
structure environment where
  config : rpc_config
  log_rpc : Bool
  rai_ratio : Nat
  krai_ratio : Nat
  Mrai_ratio : Nat
  genesis_account : Nat
  genesis_amount : Nat
  node_vendor : String
  status_code : payment_status → Nat
  read_json : String → Option ptree
  write_json : ptree → String
  decode_account : String → Option Nat
  decode_hex : String → Option Nat
  decode_dec : String → Option Nat
  to_account : Nat → String
  to_string : Nat → String
  to_string_hex : Nat → String
  stoull : String → Option (Nat × Nat)
  stoul : String → Option Nat
  parse_bool : String → Option Bool
  address_from_string : String → Option Nat
  parse_port : String → Option Nat
  deserialize_block_json : ptree → Option block
  raises : call → Option failure
  balance_pending : Nat → Nat × Nat
  balance : Nat → Nat
  weight : Nat → Nat
  store_version : Nat
  peers : List String
  wallets_items : Nat → Bool
  keypair_pub : Nat
  deterministic_insert : Nat → Nat
  enter_password : Nat → String → Bool
  search_pending : Nat → Bool
  insert_adhoc : Nat → Nat → Nat
  init_free_accounts : Nat → List Nat
  wallet_store_accounts : Nat → List Nat
  wallet_store_find : Nat → Nat → Bool
  wallet_store_move : Nat → Nat → List Nat → Bool
  rekey : Nat → String → Bool
  valid_password : Nat → Bool
  wallet_serialize_json : Nat → String
  wallet_representative : Nat → Nat
  account_get : Nat → Option account_info
  block_get : Nat → Option block
  block_exists : Nat → Bool
  block_count : Nat
  unchecked_count : Nat
  latest_range : Nat → List (Nat × account_info)
  frontier_count : Nat
  pending_range : Nat → Nat → List (Nat × Nat)
  ledger_account : Nat → Nat
  ledger_amount : Nat → Nat
  ledger_account_balance : Nat → Nat
  work_validate : block → Bool
  work_generate_maybe : Nat → Option Nat

/-! ## State and outcomes -/

/-- The mutable state the embedded code acts on. -/
structure rpc_state where
  /-- Member `rpc_handler::body`. -/
  body : String
  /-- Member `rpc_handler::request`. -/
  request : ptree
  /-- Identity of the callback `rpc_handler::response`. -/
  response : Nat
  /-- Member `rpc::payment_observers`, a map keyed by account. -/
  payment_observers : Nat → Option payment_observer
  /-- The flag `payment_observer::completed` of each observer object. -/
  completed : Nat → Bool
  /-- Identity given to the next observer object allocated. -/
  next_observer : Nat
  /-- Member `wallet::free_accounts` of each wallet, in iteration order. -/
  free_accounts : Nat → List Nat
  /-- Invocations of response callbacks: the callback and the tree passed to it. -/
  responses : List (Nat × ptree)
  /-- Collaborator calls made so far. -/
  calls : List call
  /-- Lines written to the node log by this file. -/
  log : List String
  /-- Handler methods entered by `process_request`. -/
  invoked : List String
  /-- Number of `assert` conditions that evaluated to false. -/
  assert_failures : Nat

/-- Outcome of running a piece of code: normal return or an escaping exception. -/
inductive result (α : Type) where
  | ok (value : α) (state : rpc_state)
  | error (e : failure) (state : rpc_state)

/-- The state in which the code stopped. -/
def result.state {α : Type} : result α → rpc_state
  | result.ok _ s => s
  | result.error _ s => s

/-- Code that acts on the state and may throw. -/
def handler (α : Type) : Type := rpc_state → result α

instance : Monad handler where
  pure a := fun s => result.ok a s
  bind x f := fun s =>
    match x s with
    | result.ok a s' => f a s'
    | result.error e s' => result.error e s'

namespace handler

/-- Throw an exception. -/
def raise {α : Type} (e : failure) : handler α := fun s => result.error e s

/-- Read the state. -/
def read : handler rpc_state := fun s => result.ok s s

/-- Change the state. -/
def update (f : rpc_state → rpc_state) : handler Unit := fun s => result.ok () (f s)

end handler

/-! ## Primitive actions -/

/-- Decimal text of a number (`convert_to <std::string>`, `std::to_string`). -/
def dec (n : Nat) : String := Nat.repr n

/-- A call to a collaborator: it is appended to the trace and the collaborator may throw. -/
def collaborator (env : environment) (c : call) : handler Unit := fun s =>
  match env.raises c with
  | some e => result.error e { s with calls := s.calls ++ [c] }
  | none => result.ok () { s with calls := s.calls ++ [c] }

/-- A call to a collaborator that returns `value`. -/
def query {α : Type} (env : environment) (c : call) (value : α) : handler α := do
  collaborator env c
  pure value

/-- Invocation of the response callback `response_a` with `tree`. -/
def respond (response_a : Nat) (tree : ptree) : handler Unit :=
  handler.update fun s => { s with responses := s.responses ++ [(response_a, tree)] }

/-- The tree built by `error_response`. -/
def error_tree (message_a : String) : ptree := ptree.nil.put "error" message_a

/-- The free function `error_response (response_a, message_a)`. -/
def error_response (response_a : Nat) (message_a : String) : handler Unit :=
  respond response_a (error_tree message_a)

/-- A line written with `BOOST_LOG (node.log)`. -/
def log_line (line : String) : handler Unit :=
  handler.update fun s => { s with log := s.log ++ [line] }

/-- An `assert`: a false condition is counted, execution goes on as in a release build. -/
def assertion (condition : Bool) : handler Unit :=
  handler.update fun s =>
    if condition then s else { s with assert_failures := s.assert_failures + 1 }

/-- Evaluation of `boost::str (boost::format (text) % a1 % ... % an)` for a format text that
names `placeholders` distinct arguments: feeding another number of arguments throws a
`boost::io::format_error`, which is not a `std::runtime_error`. The result keeps the format
text and the arguments fed to it. -/
def boost_format (placeholders : Nat) (text : String) (arguments : List String) :
    handler String :=
  if arguments.length = placeholders then
    pure (String.intercalate " % " (text :: arguments))
  else
    handler.raise (failure.other "boost::io::format_error")

/-- The free function `decode_unsigned`: `std::stoull` must accept the text (its exceptions
are caught here) and must have consumed all of it. -/
def decode_unsigned (env : environment) (text : String) : Option Nat :=
  match env.stoull text with
  | none => none
  | some (number, last) => if last ≠ text.utf8ByteSize then none else some number

/-! ## Configuration -/

namespace rpc_config

/-- The constructors of `rpc_config`, given the loopback address and the constant
`rai::rpc::rpc_port`; the constructor without argument is the one with `enable_control_a`
false. -/
def construct (loopback rpc_port : Nat) (enable_control_a : Bool) : rpc_config :=
  { address := loopback, port := rpc_port, enable_control := enable_control_a,
    frontier_request_limit := 16384, chain_request_limit := 16384 }

/-- The inner `try` block of `deserialize_json`, with `result` false on entry: the value of
`result` and the members afterwards. `port` is a 16-bit member (`uint16_t` in `rpc.hpp`): the
assignment keeps the low 16 bits of the value of `std::stoul`, and the comparison with
`std::numeric_limits <uint16_t>::max ()` reads the member. A `std::logic_error` thrown by
`std::stoul` or `std::stoull` (`none`) sets `result` and leaves the block. -/
def deserialize_numbers (env : environment)
    (port_l frontier_request_limit_l chain_request_limit_l : String) (this : rpc_config) :
    Bool × rpc_config :=
  match env.stoul port_l with
  | none => (true, this)
  | some port_v =>
    let this := { this with port := port_v % 2 ^ 16 }
    let result := decide (this.port > 65535)
    match env.stoull frontier_request_limit_l with
    | none => (true, this)
    | some (frontier_v, _) =>
      let this := { this with frontier_request_limit := frontier_v }
      match env.stoull chain_request_limit_l with
      | none => (true, this)
      | some (chain_v, _) => (result, { this with chain_request_limit := chain_v })

/-- Method `rpc_config::deserialize_json`: the value returned (true means error) and the
members afterwards. A missing key (`ptree_bad_path`) and an `enable_control` text that is
not a boolean (`ptree_bad_data`) are `std::runtime_error`s, caught by the outer `catch`. An
address that does not parse leaves the default-constructed address, zero here. -/
def deserialize_json (env : environment) (tree_a : ptree) (this : rpc_config) :
    Bool × rpc_config :=
  match tree_a.get "address" with
  | none => (true, this)
  | some address_l =>
    match tree_a.get "port" with
    | none => (true, this)
    | some port_l =>
      match (tree_a.get "enable_control").bind env.parse_bool with
      | none => (true, this)
      | some enable_control_l =>
        let this := { this with enable_control := enable_control_l }
        match tree_a.get "frontier_request_limit" with
        | none => (true, this)
        | some frontier_request_limit_l =>
          match tree_a.get "chain_request_limit" with
          | none => (true, this)
          | some chain_request_limit_l =>
            let inner := deserialize_numbers env port_l frontier_request_limit_l
              chain_request_limit_l this
            match env.address_from_string address_l with
            | some address_v => (inner.1, { inner.2 with address := address_v })
            | none => (true, { inner.2 with address := 0 })

end rpc_config

/-! ## Payment observers -/

namespace payment_observer

/-- The tree `status: text` answered by a completing observer. -/
def status_tree (text : String) : ptree := ptree.nil.put "status" text

/-- Allocation and construction of an observer (`std::make_shared`): a fresh object whose
`completed` flag is cleared by the constructor. -/
def make (response_a account_a amount_a : Nat) : handler payment_observer := fun s =>
  result.ok { id := s.next_observer, account := account_a, amount := amount_a,
              response := response_a }
    { s with next_observer := s.next_observer + 1,
             completed := fun i => if i = s.next_observer then false else s.completed i }

/-- Method `payment_observer::start`: schedules `complete (nothing)` on the alarm. -/
def start (env : environment) (this : payment_observer) (timeout : Nat) : handler Unit :=
  collaborator env (call.alarm_add timeout this.id)

/-- Method `payment_observer::complete`. -/
def complete (env : environment) (this : payment_observer) (status : payment_status) :
    handler Unit := do
  let s ← handler.read
  let already := s.completed this.id
  handler.update fun s =>
    { s with completed := fun i => if i = this.id then true else s.completed i }
  if !already then
    if env.log_rpc then
      let line ← boost_format 2 "Exiting payment_observer for account %1% status %2%"
        [env.to_account this.account, dec (env.status_code status)]
      log_line line
    match status with
    | payment_status.nothing => respond this.response (status_tree "nothing")
    | payment_status.success => respond this.response (status_tree "success")
    | payment_status.other _ => error_response this.response "Internal payment error"
    let s ← handler.read
    assertion (s.payment_observers this.account).isSome
    handler.update fun s =>
      { s with payment_observers :=
          fun a => if a = this.account then none else s.payment_observers a }

/-- Method `payment_observer::observe`. -/
def observe (env : environment) (this : payment_observer) : handler Unit := do
  let balance ← query env (call.balance this.account) (env.balance this.account)
  if balance ≥ this.amount then
    complete env this payment_status.success

end payment_observer

namespace rpc

/-- Method `rpc::stop`. -/
def stop (env : environment) : handler Unit :=
  collaborator env call.acceptor_close

/-- Method `rpc::observer_action`. -/
def observer_action (env : environment) (account_a : Nat) : handler Unit := do
  let s ← handler.read
  match s.payment_observers account_a with
  | some observer => payment_observer.observe env observer
  | none => pure ()

end rpc

/-! ## Action handlers -/

namespace rpc_handler

/-- The call `request.get <std::string> (key)`: a missing key throws `ptree_bad_path`. -/
def request_get (key : String) : handler String := fun s =>
  match s.request.get key with
  | some value => result.ok value s
  | none => result.error (failure.runtime_error "ptree_bad_path") s

/-- The call `request.get_child (key)`: a missing key throws `ptree_bad_path`. -/
def request_get_child (key : String) : handler ptree := fun s =>
  match s.request.get_child key with
  | some child => result.ok child s
  | none => result.error (failure.runtime_error "ptree_bad_path") s

/-- The call `response (tree)` of the member callback. -/
def response (tree : ptree) : handler Unit := fun s => respond s.response tree s

/-- The call `error_response (response, message)` with the member callback. -/
def response_error (message : String) : handler Unit := fun s =>
  error_response s.response message s

/-- The lambda given to `change_async` and to `send_async`, run when the block is known. -/
def block_callback (env : environment) (response_a : Nat) (block : Option rai.block) :
    handler Unit :=
  let hash : Nat :=
    match block with
    | some b => b.hash
    | none => 0
  respond response_a (ptree.nil.put "block" (env.to_string hash))

/-- Handler `rpc_handler::account_balance`. -/
def account_balance (env : environment) : handler Unit := do
  let account_text ← request_get "account"
  match env.decode_account account_text with
  | some account =>
    let balance ← query env (call.balance_pending account) (env.balance_pending account)
    let response_l := ptree.nil
    let response_l := response_l.put "balance" (dec balance.1)
    let response_l := response_l.put "pending" (dec balance.2)
    response response_l
  | none => response_error "Bad account number"

/-- Handler `rpc_handler::account_create`. -/
def account_create (env : environment) : handler Unit := do
  if env.config.enable_control then
    let wallet_text ← request_get "wallet"
    match env.decode_hex wallet_text with
    | some wallet =>
      let existing ← query env (call.wallets_find wallet) (env.wallets_items wallet)
      if existing then
        let new_key ← query env (call.deterministic_insert wallet)
          (env.deterministic_insert wallet)
        if new_key ≠ 0 then
          response (ptree.nil.put "account" (env.to_account new_key))
        else
          response_error "Wallet is locked"
      else
        response_error "Wallet not found"
    | none => response_error "Bad wallet number"
  else
    response_error "RPC control is disabled"

/-- Handler `rpc_handler::account_list`. -/
def account_list (env : environment) : handler Unit := do
  let wallet_text ← request_get "wallet"
  match env.decode_hex wallet_text with
  | some wallet =>
    let existing ← query env (call.wallets_find wallet) (env.wallets_items wallet)
    if existing then
      collaborator env (call.transaction false)
      let keys ← query env (call.wallet_store_begin wallet) (env.wallet_store_accounts wallet)
      let accounts := keys.foldl
        (fun accounts i => accounts.push_back "" (ptree.nil.put "" (env.to_account i)))
        ptree.nil
      response (ptree.nil.add_child "accounts" accounts)
    else
      response_error "Wallet not found"
  | none => response_error "Bad wallet number"

/-- Handler `rpc_handler::account_move`. A listed key that does not decode is pushed as it
stands in the source, with a value the source leaves indeterminate; it is zero here. -/
def account_move (env : environment) : handler Unit := do
  if env.config.enable_control then
    let wallet_text ← request_get "wallet"
    let source_text ← request_get "source"
    let accounts_text ← request_get_child "accounts"
    match env.decode_hex wallet_text with
    | some wallet =>
      let existing ← query env (call.wallets_find wallet) (env.wallets_items wallet)
      if existing then
        match env.decode_hex source_text with
        | some source =>
          let existing ← query env (call.wallets_find source) (env.wallets_items source)
          if existing then
            let accounts := accounts_text.children.map
              (fun i => ((i.2.get "").bind env.decode_hex).getD 0)
            collaborator env (call.transaction true)
            let error ← query env (call.wallet_store_move wallet source accounts)
              (env.wallet_store_move wallet source accounts)
            response (ptree.nil.put "moved" (if error then "0" else "1"))
          else
            response_error "Source not found"
        | none => response_error "Bad source number"
      else
        response_error "Wallet not found"
    | none => response_error "Bad wallet number"
  else
    response_error "RPC control is disabled"

/-- Handler `rpc_handler::account_representative`. When the representative block is missing
the `assert` fails and the null pointer cannot be read: nothing is answered. -/
def account_representative (env : environment) : handler Unit := do
  let account_text ← request_get "account"
  match env.decode_account account_text with
  | some account =>
    collaborator env (call.transaction false)
    let info ← query env (call.account_get account) (env.account_get account)
    match info with
    | some info =>
      let block ← query env (call.block_get info.rep_block) (env.block_get info.rep_block)
      assertion block.isSome
      match block with
      | some block =>
        response (ptree.nil.put "representative" (env.to_account block.representative))
      | none => pure ()
    | none => response_error "Account not found"
  | none => response_error "Bad account number"

/-- Handler `rpc_handler::account_representative_set`. -/
def account_representative_set (env : environment) : handler Unit := do
  if env.config.enable_control then
    let wallet_text ← request_get "wallet"
    match env.decode_hex wallet_text with
    | some wallet =>
      let existing ← query env (call.wallets_find wallet) (env.wallets_items wallet)
      if existing then
        let account_text ← request_get "account"
        match env.decode_account account_text with
        | some account =>
          let representative_text ← request_get "representative"
          match env.decode_account representative_text with
          | some representative =>
            let s ← handler.read
            let response_a := s.response
            collaborator env (call.change_async wallet account representative response_a)
          | none => pure ()
        | none => response_error "Bad account number"
      else
        pure ()
    | none => pure ()
  else
    response_error "RPC control is disabled"

/-- Handler `rpc_handler::account_weight`. -/
def account_weight (env : environment) : handler Unit := do
  let account_text ← request_get "account"
  match env.decode_account account_text with
  | some account =>
    let balance ← query env (call.weight account) (env.weight account)
    response (ptree.nil.put "weight" (dec balance))
  | none => response_error "Bad account number"

/-- Handler `rpc_handler::available_supply`; the subtractions are those of 128-bit unsigned
integers. -/
def available_supply (env : environment) : handler Unit := do
  let genesis_balance ← query env (call.balance env.genesis_account)
    (env.balance env.genesis_account)
  let landing_balance ← query env (call.balance landing_account) (env.balance landing_account)
  let faucet_balance ← query env (call.balance faucet_account) (env.balance faucet_account)
  let available : Int :=
    ((env.genesis_amount : Int) - genesis_balance - landing_balance - faucet_balance) % 2 ^ 128
  response (ptree.nil.put "available" (dec available.toNat))

/-- Handler `rpc_handler::block`. -/
def block (env : environment) : handler Unit := do
  let hash_text ← request_get "hash"
  match env.decode_hex hash_text with
  | some hash =>
    collaborator env (call.transaction false)
    let block ← query env (call.block_get hash) (env.block_get hash)
    match block with
    | some block => response (ptree.nil.put "contents" block.contents)
    | none => response_error "Block not found"
  | none => response_error "Bad hash number"

/-- Handler `rpc_handler::block_account`. -/
def block_account (env : environment) : handler Unit := do
  let hash_text ← request_get "hash"
  match env.decode_hex hash_text with
  | some hash =>
    collaborator env (call.transaction false)
    let exists_l ← query env (call.block_exists hash) (env.block_exists hash)
    if exists_l then
      let account ← query env (call.ledger_account hash) (env.ledger_account hash)
      response (ptree.nil.put "account" (env.to_account account))
    else
      response_error "Block not found"
  | none => response_error "Invalid block hash"

/-- Handler `rpc_handler::block_count`. -/
def block_count (env : environment) : handler Unit := do
  collaborator env (call.transaction false)
  let count ← query env call.block_count env.block_count
  let response_l := ptree.nil.put "count" (dec count)
  let unchecked ← query env call.unchecked_count env.unchecked_count
  let response_l := response_l.put "unchecked" (dec unchecked)
  response response_l

/-- Handler `rpc_handler::bootstrap`. -/
def bootstrap (env : environment) : handler Unit := do
  let address_text ← request_get "address"
  let port_text ← request_get "port"
  match env.address_from_string address_text with
  | some address =>
    match env.parse_port port_text with
    | some port =>
      collaborator env (call.bootstrap address port)
      response (ptree.nil.put "success" "")
    | none => response_error "Invalid port"
  | none => response_error "Invalid address"

/-- The loop of `chain`: `fuel` bounds the number of times the body runs; `count` is enough,
since every run of the body either adds a hash or clears `block`. -/
def chain_loop (env : environment) (count : Nat) : Nat → Nat → ptree → handler ptree
  | 0, _, blocks => pure blocks
  | fuel + 1, block, blocks =>
    if block ≠ 0 ∧ blocks.size < count then do
      let block_l ← query env (call.block_get block) (env.block_get block)
      match block_l with
      | some block_l =>
        chain_loop env count fuel block_l.previous
          (blocks.push_back "" (ptree.nil.put "" (env.to_string block)))
      | none => chain_loop env count fuel 0 blocks
    else
      pure blocks

/-- Handler `rpc_handler::chain`. -/
def chain (env : environment) : handler Unit := do
  let block_text ← request_get "block"
  let count_text ← request_get "count"
  match env.decode_hex block_text with
  | some block =>
    match decode_unsigned env count_text with
    | some count =>
      collaborator env (call.transaction false)
      let blocks ← chain_loop env count count block ptree.nil
      response (ptree.nil.add_child "blocks" blocks)
    | none => response_error "Invalid count limit"
  | none => response_error "Invalid block hash"

/-- The loop of `frontiers` over the entries from `latest_begin (start)` to `latest_end ()`. -/
def frontiers_loop (env : environment) (count : Nat) :
    List (Nat × account_info) → ptree → ptree
  | [], frontiers => frontiers
  | i :: rest, frontiers =>
    if frontiers.size < count then
      frontiers_loop env count rest
        (frontiers.put (env.to_account i.1) (env.to_string i.2.head))
    else
      frontiers

/-- Handler `rpc_handler::frontiers`. -/
def frontiers (env : environment) : handler Unit := do
  let account_text ← request_get "account"
  let count_text ← request_get "count"
  match env.decode_account account_text with
  | some start =>
    match decode_unsigned env count_text with
    | some count =>
      collaborator env (call.transaction false)
      let range ← query env (call.latest_begin start) (env.latest_range start)
      response (ptree.nil.add_child "frontiers" (frontiers_loop env count range ptree.nil))
    | none => response_error "Invalid count limit"
  | none => response_error "Invalid starting account"

/-- Handler `rpc_handler::frontier_count`. -/
def frontier_count (env : environment) : handler Unit := do
  collaborator env (call.transaction false)
  let size ← query env call.frontier_count env.frontier_count
  response (ptree.nil.put "count" (dec size))

/-- The class `history_visitor`: the entry written for the block `block_a` found at `hash`. -/
def history_visitor (env : environment) (hash : Nat) (block_a : rai.block) (tree : ptree) :
    handler ptree :=
  match block_a.type with
  | block_type.send_block destination => do
    let tree := tree.put "type" "send"
    let tree := tree.put "account" (env.to_account destination)
    let amount ← query env (call.ledger_amount hash) (env.ledger_amount hash)
    pure (tree.put "amount" (dec amount))
  | block_type.receive_block source => do
    let tree := tree.put "type" "receive"
    let account ← query env (call.ledger_account source) (env.ledger_account source)
    let tree := tree.put "account" (env.to_account account)
    let amount ← query env (call.ledger_amount hash) (env.ledger_amount hash)
    pure (tree.put "amount" (dec amount))
  | block_type.open_block source => do
    let tree := tree.put "type" "receive"
    if source ≠ env.genesis_account then
      let account ← query env (call.ledger_account source) (env.ledger_account source)
      let tree := tree.put "account" (env.to_account account)
      let amount ← query env (call.ledger_amount hash) (env.ledger_amount hash)
      pure (tree.put "amount" (dec amount))
    else
      let tree := tree.put "account" (env.to_account env.genesis_account)
      pure (tree.put "amount" (dec env.genesis_amount))
  | block_type.change_block => pure tree

/-- The loop of `history`, by recursion on `count`. -/
def history_loop (env : environment) :
    Nat → Nat → Option rai.block → ptree → handler ptree
  | 0, _, _, history => pure history
  | _ + 1, _, none, history => pure history
  | count + 1, hash, some block, history => do
    let entry ← history_visitor env hash block ptree.nil
    let history :=
      if !entry.empty then history.push_back "" (entry.put "hash" (env.to_string hash))
      else history
    let hash := block.previous
    let block ← query env (call.block_get hash) (env.block_get hash)
    history_loop env count hash block history

/-- Handler `rpc_handler::history`. -/
def history (env : environment) : handler Unit := do
  let hash_text ← request_get "hash"
  let count_text ← request_get "count"
  match env.decode_hex hash_text with
  | some hash =>
    match decode_unsigned env count_text with
    | some count =>
      collaborator env (call.transaction false)
      let block ← query env (call.block_get hash) (env.block_get hash)
      let history ← history_loop env count hash block ptree.nil
      response (ptree.nil.add_child "history" history)
    | none => response_error "Invalid count limit"
  | none => response_error "Invalid block hash"

/-- Handler `rpc_handler::keepalive`. -/
def keepalive (env : environment) : handler Unit := do
  if env.config.enable_control then
    let address_text ← request_get "address"
    let port_text ← request_get "port"
    match env.parse_port port_text with
    | some port =>
      collaborator env (call.keepalive address_text port)
      response ptree.nil
    | none => response_error "Invalid port"
  else
    response_error "RPC control is disabled"

/-- The body shared by `rai_from_raw`, `krai_from_raw` and `mrai_from_raw`, which differ in
the ratio only: a 128-bit division. -/
def from_raw (env : environment) (ratio : Nat) : handler Unit := do
  let amount_text ← request_get "amount"
  match env.decode_dec amount_text with
  | some amount =>
    let result := amount / ratio
    response (ptree.nil.put "amount" (dec result))
  | none => response_error "Bad amount number"

/-- The body shared by `rai_to_raw`, `krai_to_raw` and `mrai_to_raw`, which differ in the
ratio only: a 128-bit multiplication followed by the test `result > amount`. -/
def to_raw (env : environment) (ratio : Nat) : handler Unit := do
  let amount_text ← request_get "amount"
  match env.decode_dec amount_text with
  | some amount =>
    let result := (amount * ratio) % 2 ^ 128
    if result > amount then
      response (ptree.nil.put "amount" (dec result))
    else
      response_error "Amount too big"
  | none => response_error "Bad amount number"

/-- Handler `rpc_handler::mrai_from_raw`. -/
def mrai_from_raw (env : environment) : handler Unit := from_raw env env.Mrai_ratio

/-- Handler `rpc_handler::mrai_to_raw`. -/
def mrai_to_raw (env : environment) : handler Unit := to_raw env env.Mrai_ratio

/-- Handler `rpc_handler::krai_from_raw`. -/
def krai_from_raw (env : environment) : handler Unit := from_raw env env.krai_ratio

/-- Handler `rpc_handler::krai_to_raw`. -/
def krai_to_raw (env : environment) : handler Unit := to_raw env env.krai_ratio

/-- Handler `rpc_handler::rai_from_raw`. -/
def rai_from_raw (env : environment) : handler Unit := from_raw env env.rai_ratio

/-- Handler `rpc_handler::rai_to_raw`. -/
def rai_to_raw (env : environment) : handler Unit := to_raw env env.rai_ratio

/-- Handler `rpc_handler::password_change`. -/
def password_change (env : environment) : handler Unit := do
  if env.config.enable_control then
    let wallet_text ← request_get "wallet"
    match env.decode_hex wallet_text with
    | some wallet =>
      let existing ← query env (call.wallets_find wallet) (env.wallets_items wallet)
      if existing then
        collaborator env (call.transaction true)
        let password_text ← request_get "password"
        let error ← query env (call.rekey wallet password_text) (env.rekey wallet password_text)
        response (ptree.nil.put "changed" (if error then "0" else "1"))
      else
        response_error "Wallet not found"
    | none => response_error "Bad account number"
  else
    response_error "RPC control is disabled"

/-- Handler `rpc_handler::password_enter`. -/
def password_enter (env : environment) : handler Unit := do
  let wallet_text ← request_get "wallet"
  match env.decode_hex wallet_text with
  | some wallet =>
    let existing ← query env (call.wallets_find wallet) (env.wallets_items wallet)
    if existing then
      let password_text ← request_get "password"
      let error ← query env (call.enter_password wallet password_text)
        (env.enter_password wallet password_text)
      response (ptree.nil.put "valid" (if error then "0" else "1"))
    else
      response_error "Wallet not found"
  | none => response_error "Bad account number"

/-- Handler `rpc_handler::password_valid`. -/
def password_valid (env : environment) : handler Unit := do
  let wallet_text ← request_get "wallet"
  match env.decode_hex wallet_text with
  | some wallet =>
    let existing ← query env (call.wallets_find wallet) (env.wallets_items wallet)
    if existing then
      collaborator env (call.transaction false)
      let valid ← query env (call.valid_password wallet) (env.valid_password wallet)
      response (ptree.nil.put "valid" (if valid then "1" else "0"))
    else
      response_error "Wallet not found"
  | none => response_error "Bad account number"

/-- Handler `rpc_handler::peers`. -/
def peers (env : environment) : handler Unit := do
  let peers_list ← query env call.peers_list env.peers
  let peers_l := peers_list.foldl
    (fun peers_l text => peers_l.push_back "" (ptree.nil.put "" text)) ptree.nil
  response (ptree.nil.add_child "peers" peers_l)

/-- The loop of `pending` over the keys between the two `pending_begin` iterators. -/
def pending_loop (env : environment) (count : Nat) : List (Nat × Nat) → ptree → ptree
  | [], peers_l => peers_l
  | key :: rest, peers_l =>
    if peers_l.size < count then
      pending_loop env count rest (peers_l.push_back "" (ptree.nil.put "" (env.to_string key.2)))
    else
      peers_l

/-- Handler `rpc_handler::pending`; `account.number () + 1` is a 256-bit addition. -/
def pending (env : environment) : handler Unit := do
  let account_text ← request_get "account"
  match env.decode_account account_text with
  | some account =>
    let count_text ← request_get "count"
    match decode_unsigned env count_text with
    | some count =>
      collaborator env (call.transaction false)
      let end_l := (account + 1) % 2 ^ 256
      collaborator env (call.pending_begin account 0)
      let range ← query env (call.pending_begin end_l 0) (env.pending_range account end_l)
      response (ptree.nil.add_child "blocks" (pending_loop env count range ptree.nil))
    | none => pure ()
  | none => response_error "Bad account number"

/-- The do-while loop of `payment_begin`, by recursion on the pool `wallet->free_accounts`
as it stands when the body is entered; the answer is the value of `account` on exit. -/
def payment_begin_loop (env : environment) (id : Nat) : List Nat → handler Nat
  | [] => query env (call.deterministic_insert id) (env.deterministic_insert id)
  | existing :: rest => do
    handler.update fun s =>
      { s with free_accounts := fun w => if w = id then rest else s.free_accounts w }
    let found ← query env (call.wallet_store_find id existing)
      (env.wallet_store_find id existing)
    let account ←
      if !found then do
        let line ← boost_format 1
          "Transaction wallet %1% externally modified listing account %1% as free but no longer exists"
          [env.to_string id, env.to_account existing]
        log_line line
        pure 0
      else do
        let balance ← query env (call.ledger_account_balance existing)
          (env.ledger_account_balance existing)
        if balance ≠ 0 then do
          let line ← boost_format 1
            "Skipping account %1% for use as a transaction account since it's balance isn't zero"
            [env.to_account existing]
          log_line line
          pure 0
        else
          pure existing
    if account = 0 then payment_begin_loop env id rest else pure account

/-- The statements of the body of the do-while loop of `payment_begin` that run when the
pool is not empty, `existing` being the account at `free_accounts.begin ()` and `rest` the
other accounts of the pool: the value of `account` after them. -/
def payment_begin_examine (env : environment) (id existing : Nat) (rest : List Nat) :
    handler Nat := do
  handler.update fun s =>
    { s with free_accounts := fun w => if w = id then rest else s.free_accounts w }
  let found ← query env (call.wallet_store_find id existing)
    (env.wallet_store_find id existing)
  if !found then do
    let line ← boost_format 1
      "Transaction wallet %1% externally modified listing account %1% as free but no longer exists"
      [env.to_string id, env.to_account existing]
    log_line line
    pure 0
  else do
    let balance ← query env (call.ledger_account_balance existing)
      (env.ledger_account_balance existing)
    if balance ≠ 0 then do
      let line ← boost_format 1
        "Skipping account %1% for use as a transaction account since it's balance isn't zero"
        [env.to_account existing]
      log_line line
      pure 0
    else
      pure existing

/-- One run of the body of the do-while loop of `payment_begin`, on the pool as the state
holds it: the value of `account` after the body, and whether the body left the loop by
`break`. -/
def payment_begin_body (env : environment) (id : Nat) : handler (Nat × Bool) := do
  let s ← handler.read
  match s.free_accounts id with
  | existing :: rest => do
    let account ← payment_begin_examine env id existing rest
    pure (account, false)
  | [] => do
    let account ← query env (call.deterministic_insert id) (env.deterministic_insert id)
    pure (account, true)

/-- The do-while loop of `payment_begin` allowed at most `fuel` runs of its body: `none`
when the loop would run the body once more; otherwise the value of `account` on exit. -/
def payment_begin_do_while (env : environment) (id : Nat) : Nat → handler (Option Nat)
  | 0 => pure none
  | fuel + 1 => do
    let after ← payment_begin_body env id
    if after.2 = true ∨ after.1 ≠ 0 then pure (some after.1)
    else payment_begin_do_while env id fuel

/-- Handler `rpc_handler::payment_begin`. -/
def payment_begin (env : environment) : handler Unit := do
  let id_text ← request_get "wallet"
  match env.decode_hex id_text with
  | some id =>
    let existing ← query env (call.wallets_find id) (env.wallets_items id)
    if existing then
      collaborator env (call.transaction true)
      let valid ← query env (call.valid_password id) (env.valid_password id)
      if valid then
        let s ← handler.read
        let account ← payment_begin_loop env id (s.free_accounts id)
        if account ≠ 0 then
          response (ptree.nil.put "account" (env.to_account account))
        else
          response_error "Unable to create transaction account"
      else
        response_error "Wallet locked"
    else
      response_error "Unable to find wallets"
  | none => response_error "Bad wallet number"

/-- Handler `rpc_handler::payment_init`. -/
def payment_init (env : environment) : handler Unit := do
  let id_text ← request_get "wallet"
  match env.decode_hex id_text with
  | some id =>
    collaborator env (call.transaction true)
    let existing ← query env (call.wallets_find id) (env.wallets_items id)
    if existing then
      let valid ← query env (call.valid_password id) (env.valid_password id)
      if valid then
        let pool ← query env (call.init_free_accounts id) (env.init_free_accounts id)
        handler.update fun s =>
          { s with free_accounts := fun w => if w = id then pool else s.free_accounts w }
        response (ptree.nil.put "status" "Ready")
      else
        response (ptree.nil.put "status" "Transaction wallet locked")
    else
      response (ptree.nil.put "status" "Unable to find transaction wallet")
  | none => response_error "Bad transaction wallet number"

/-- Handler `rpc_handler::payment_end`. Insertion into the pool leaves a pool that already
holds the account as it is; the place of a new element in the iteration order is not fixed
by the container, it is the end here. -/
def payment_end (env : environment) : handler Unit := do
  let id_text ← request_get "wallet"
  let account_text ← request_get "account"
  match env.decode_hex id_text with
  | some id =>
    collaborator env (call.transaction false)
    let existing ← query env (call.wallets_find id) (env.wallets_items id)
    if existing then
      match env.decode_account account_text with
      | some account =>
        let existing ← query env (call.wallet_store_find id account)
          (env.wallet_store_find id account)
        if existing then
          let balance ← query env (call.ledger_account_balance account)
            (env.ledger_account_balance account)
          if balance = 0 then
            handler.update fun s =>
              { s with free_accounts := fun w =>
                  if w = id then
                    (if account ∈ s.free_accounts id then s.free_accounts id
                     else s.free_accounts id ++ [account])
                  else s.free_accounts w }
            response ptree.nil
          else
            response_error "Account has non-zero balance"
        else
          response_error "Account not in wallet"
      | none => response_error "Invalid account number"
    else
      response_error "Unable to find wallet"
  | none => response_error "Bad wallet number"

/-- Handler `rpc_handler::payment_wait`. -/
def payment_wait (env : environment) : handler Unit := do
  let account_text ← request_get "account"
  let amount_text ← request_get "amount"
  let timeout_text ← request_get "timeout"
  match env.decode_account account_text with
  | some account =>
    match env.decode_dec amount_text with
    | some amount =>
      match decode_unsigned env timeout_text with
      | some timeout =>
        let s ← handler.read
        let observer ← payment_observer.make s.response account amount
        payment_observer.start env observer timeout
        let s ← handler.read
        assertion (s.payment_observers account).isNone
        handler.update fun s =>
          { s with payment_observers :=
              fun a => if a = account then some observer else s.payment_observers a }
        rpc.observer_action env account
      | none => response_error "Bad timeout number"
    | none => response_error "Bad amount number"
  | none => response_error "Bad account number"

/-- Handler `rpc_handler::process`; a `block` text that is not JSON makes `read_json` throw
`json_parser_error`. -/
def process (env : environment) : handler Unit := do
  let block_text ← request_get "block"
  match env.read_json block_text with
  | none => handler.raise (failure.runtime_error "json_parser_error")
  | some block_l =>
    match env.deserialize_block_json block_l with
    | some block =>
      let invalid ← query env (call.work_validate block) (env.work_validate block)
      if !invalid then
        collaborator env (call.process_receive_republish block)
        response ptree.nil
      else
        response_error "Block work is invalid"
    | none => response_error "Block is invalid"

/-- Handler `rpc_handler::search_pending`. -/
def search_pending (env : environment) : handler Unit := do
  if env.config.enable_control then
    let wallet_text ← request_get "wallet"
    match env.decode_hex wallet_text with
    | some wallet =>
      let existing ← query env (call.wallets_find wallet) (env.wallets_items wallet)
      if existing then
        let error ← query env (call.search_pending wallet) (env.search_pending wallet)
        response (ptree.nil.put "started" (if !error then "true" else "false"))
      else
        response_error "Wallet not found"
    | none => pure ()
  else
    response_error "RPC control is disabled"

/-- Handler `rpc_handler::send`. -/
def send (env : environment) : handler Unit := do
  if env.config.enable_control then
    let wallet_text ← request_get "wallet"
    match env.decode_hex wallet_text with
    | some wallet =>
      let existing ← query env (call.wallets_find wallet) (env.wallets_items wallet)
      if existing then
        let source_text ← request_get "source"
        match env.decode_account source_text with
        | some source =>
          let destination_text ← request_get "destination"
          match env.decode_account destination_text with
          | some destination =>
            let amount_text ← request_get "amount"
            match env.decode_dec amount_text with
            | some amount =>
              let s ← handler.read
              let response_a := s.response
              collaborator env (call.send_async wallet source destination amount response_a)
            | none => response_error "Bad amount format"
          | none => response_error "Bad destination account"
        | none => response_error "Bad source account"
      else
        response_error "Wallet not found"
    | none => response_error "Bad wallet number"
  else
    response_error "RPC control is disabled"

/-- Handler `rpc_handler::stop`. -/
def stop (env : environment) : handler Unit := do
  if env.config.enable_control then
    rpc.stop env
    collaborator env call.node_stop
  else
    response_error "RPC control is disabled"

/-- Handler `rpc_handler::version`. -/
def version (env : environment) : handler Unit := do
  let response_l := ptree.nil.put "rpc_version" "1"
  let store_version ← query env call.store_version env.store_version
  let response_l := response_l.put "store_version" (dec store_version)
  let response_l := response_l.put "node_vendor" env.node_vendor
  response response_l

/-- Handler `rpc_handler::validate_account_number`. -/
def validate_account_number (env : environment) : handler Unit := do
  let account_text ← request_get "account"
  let error := (env.decode_account account_text).isNone
  response (ptree.nil.put "valid" (if error then "0" else "1"))

/-- Handler `rpc_handler::wallet_add`. -/
def wallet_add (env : environment) : handler Unit := do
  if env.config.enable_control then
    let key_text ← request_get "key"
    let wallet_text ← request_get "wallet"
    match env.decode_hex key_text with
    | some key =>
      match env.decode_hex wallet_text with
      | some wallet =>
        let existing ← query env (call.wallets_find wallet) (env.wallets_items wallet)
        if existing then
          let pub ← query env (call.insert_adhoc wallet key) (env.insert_adhoc wallet key)
          if pub ≠ 0 then
            response (ptree.nil.put "account" (env.to_account pub))
          else
            response_error "Wallet locked"
        else
          response_error "Wallet not found"
      | none => response_error "Bad wallet number"
    | none => response_error "Bad private key"
  else
    response_error "RPC control is disabled"

/-- Handler `rpc_handler::wallet_contains`. -/
def wallet_contains (env : environment) : handler Unit := do
  let account_text ← request_get "account"
  let wallet_text ← request_get "wallet"
  match env.decode_account account_text with
  | some account =>
    match env.decode_hex wallet_text with
    | some wallet =>
      let existing ← query env (call.wallets_find wallet) (env.wallets_items wallet)
      if existing then
        collaborator env (call.transaction false)
        let exists_l ← query env (call.wallet_store_find wallet account)
          (env.wallet_store_find wallet account)
        response (ptree.nil.put "exists" (if exists_l then "1" else "0"))
      else
        response_error "Wallet not found"
    | none => response_error "Bad wallet number"
  | none => response_error "Bad account number"

/-- Handler `rpc_handler::wallet_create`. -/
def wallet_create (env : environment) : handler Unit := do
  if env.config.enable_control then
    let wallet_id ← query env call.keypair env.keypair_pub
    collaborator env (call.wallets_create wallet_id)
    response (ptree.nil.put "wallet" (env.to_string wallet_id))
  else
    response_error "RPC control is disabled"

/-- Handler `rpc_handler::wallet_destroy`. -/
def wallet_destroy (env : environment) : handler Unit := do
  if env.config.enable_control then
    let wallet_text ← request_get "wallet"
    match env.decode_hex wallet_text with
    | some wallet =>
      let existing ← query env (call.wallets_find wallet) (env.wallets_items wallet)
      if existing then
        collaborator env (call.wallets_destroy wallet)
        response ptree.nil
      else
        response_error "Wallet not found"
    | none => response_error "Bad wallet number"
  else
    response_error "RPC control is disabled"

/-- Handler `rpc_handler::wallet_export`. -/
def wallet_export (env : environment) : handler Unit := do
  let wallet_text ← request_get "wallet"
  match env.decode_hex wallet_text with
  | some wallet =>
    let existing ← query env (call.wallets_find wallet) (env.wallets_items wallet)
    if existing then
      collaborator env (call.transaction false)
      let json ← query env (call.wallet_serialize_json wallet) (env.wallet_serialize_json wallet)
      response (ptree.nil.put "json" json)
    else
      response_error "Wallet not found"
  | none => response_error "Bad account number"

/-- Handler `rpc_handler::wallet_key_valid`. -/
def wallet_key_valid (env : environment) : handler Unit := do
  let wallet_text ← request_get "wallet"
  match env.decode_hex wallet_text with
  | some wallet =>
    let existing ← query env (call.wallets_find wallet) (env.wallets_items wallet)
    if existing then
      collaborator env (call.transaction false)
      let valid ← query env (call.valid_password wallet) (env.valid_password wallet)
      response (ptree.nil.put "valid" (if valid then "1" else "0"))
    else
      response_error "Wallet not found"
  | none => response_error "Bad wallet number"

/-- Handler `rpc_handler::wallet_representative`. -/
def wallet_representative (env : environment) : handler Unit := do
  let wallet_text ← request_get "wallet"
  match env.decode_hex wallet_text with
  | some wallet =>
    let existing ← query env (call.wallets_find wallet) (env.wallets_items wallet)
    if existing then
      collaborator env (call.transaction false)
      let representative ← query env (call.wallet_representative wallet)
        (env.wallet_representative wallet)
      response (ptree.nil.put "representative" (env.to_account representative))
    else
      response_error "Wallet not found"
  | none => response_error "Bad account number"

/-- Handler `rpc_handler::wallet_representative_set`. -/
def wallet_representative_set (env : environment) : handler Unit := do
  if env.config.enable_control then
    let wallet_text ← request_get "wallet"
    match env.decode_hex wallet_text with
    | some wallet =>
      let existing ← query env (call.wallets_find wallet) (env.wallets_items wallet)
      if existing then
        let representative_text ← request_get "representative"
        match env.decode_account representative_text with
        | some representative =>
          collaborator env (call.transaction true)
          collaborator env (call.wallet_representative_set wallet representative)
          response (ptree.nil.put "set" "1")
        | none => response_error "Invalid account number"
      else
        response_error "Wallet not found"
    | none => response_error "Bad account number"
  else
    response_error "RPC control is disabled"

/-- Handler `rpc_handler::work_generate`. -/
def work_generate (env : environment) : handler Unit := do
  if env.config.enable_control then
    let hash_text ← request_get "hash"
    match env.decode_hex hash_text with
    | some hash =>
      let work ← query env (call.work_generate_maybe hash) (env.work_generate_maybe hash)
      match work with
      | some work => response (ptree.nil.put "work" (env.to_string_hex work))
      | none => response_error "Cancelled"
    | none => response_error "Bad block hash"
  else
    response_error "RPC control is disabled"

/-- Handler `rpc_handler::work_cancel`. -/
def work_cancel (env : environment) : handler Unit := do
  if env.config.enable_control then
    let hash_text ← request_get "hash"
    match env.decode_hex hash_text with
    | some hash =>
      collaborator env (call.work_cancel hash)
      response ptree.nil
    | none => response_error "Bad block hash"
  else
    response_error "RPC control is disabled"

end rpc_handler

/-! ## The dispatcher -/

/-- The free function `reprocess_body`: the new value of `body`. -/
def reprocess_body (env : environment) (tree_a : ptree) : String := env.write_json tree_a

namespace rpc_handler

/-- A call of the handler method `name` from `process_request`; the call is recorded. -/
def invoke (name : String) (method : handler Unit) : handler Unit := fun s =>
  method { s with invoked := s.invoked ++ [name] }

/-- The statement `request.erase ("password")` followed by `reprocess_body (body, request)`. -/
def scrub_password (env : environment) : handler Unit :=
  handler.update fun s =>
    { s with request := s.request.erase "password",
             body := reprocess_body env (s.request.erase "password") }

/-- The routing chain of `process_request`, from the test for `account_balance` down to the
final `else`. -/
def route (env : environment) (action : String) : handler Unit :=
  if action = "account_balance" then invoke "account_balance" (account_balance env)
  else if action = "account_create" then invoke "account_create" (account_create env)
  else if action = "account_list" then invoke "account_list" (account_list env)
  else if action = "account_move" then invoke "account_move" (account_move env)
  else if action = "account_representative" then
    invoke "account_representative" (account_representative env)
  else if action = "account_representative_set" then
    invoke "account_representative_set" (account_representative_set env)
  else if action = "account_weight" then invoke "account_weight" (account_weight env)
  else if action = "available_supply" then invoke "available_supply" (available_supply env)
  else if action = "block" then invoke "block" (block env)
  else if action = "block_account" then invoke "block_account" (block_account env)
  else if action = "block_count" then invoke "block_count" (block_count env)
  else if action = "bootstrap" then invoke "bootstrap" (bootstrap env)
  else if action = "chain" then invoke "chain" (chain env)
  else if action = "frontiers" then invoke "frontiers" (frontiers env)
  else if action = "frontier_count" then invoke "frontier_count" (frontier_count env)
  else if action = "history" then invoke "history" (history env)
  else if action = "keepalive" then invoke "keepalive" (keepalive env)
  else if action = "krai_from_raw" then invoke "krai_from_raw" (krai_from_raw env)
  else if action = "krai_to_raw" then invoke "krai_to_raw" (krai_to_raw env)
  else if action = "mrai_from_raw" then invoke "mrai_from_raw" (mrai_from_raw env)
  else if action = "mrai_to_raw" then invoke "mrai_to_raw" (mrai_to_raw env)
  else if action = "password_change" then pure ()
  else if action = "password_enter" then pure ()
  else if action = "password_valid" then invoke "password_valid" (password_valid env)
  else if action = "payment_begin" then invoke "payment_begin" (payment_begin env)
  else if action = "payment_init" then invoke "payment_init" (payment_init env)
  else if action = "payment_end" then invoke "payment_end" (payment_end env)
  else if action = "payment_wait" then invoke "payment_wait" (payment_wait env)
  else if action = "peers" then invoke "peers" (peers env)
  else if action = "pending" then invoke "pending" (pending env)
  else if action = "process" then invoke "process" (process env)
  else if action = "rai_from_raw" then invoke "rai_from_raw" (rai_from_raw env)
  else if action = "rai_to_raw" then invoke "rai_to_raw" (rai_to_raw env)
  else if action = "search_pending" then invoke "search_pending" (search_pending env)
  else if action = "send" then invoke "send" (send env)
  else if action = "stop" then invoke "stop" (stop env)
  else if action = "validate_account_number" then
    invoke "validate_account_number" (validate_account_number env)
  else if action = "version" then invoke "version" (version env)
  else if action = "wallet_add" then invoke "wallet_add" (wallet_add env)
  else if action = "wallet_contains" then invoke "wallet_contains" (wallet_contains env)
  else if action = "wallet_create" then invoke "wallet_create" (wallet_create env)
  else if action = "wallet_destroy" then invoke "wallet_destroy" (wallet_destroy env)
  else if action = "wallet_export" then invoke "wallet_export" (wallet_export env)
  else if action = "wallet_key_valid" then invoke "wallet_key_valid" (wallet_key_valid env)
  else if action = "wallet_representative" then
    invoke "wallet_representative" (wallet_representative env)
  else if action = "wallet_representative_set" then
    invoke "wallet_representative_set" (wallet_representative_set env)
  else if action = "work_generate" then invoke "work_generate" (work_generate env)
  else if action = "work_cancel" then invoke "work_cancel" (work_cancel env)
  else response_error "Unknown command"

/-- The `try` block of `process_request`. -/
def process_request_try (env : environment) : handler Unit := do
  let s ← handler.read
  match env.read_json s.body with
  | none => handler.raise (failure.runtime_error "json_parser_error")
  | some tree =>
    handler.update fun s => { s with request := tree }
    let action ← request_get "action"
    if action = "password_enter" then
      invoke "password_enter" (password_enter env)
      scrub_password env
    else if action = "password_change" then
      invoke "password_change" (password_change env)
      scrub_password env
    if env.log_rpc then
      let s ← handler.read
      log_line s.body
    route env action

/-- Method `rpc_handler::process_request`: the `try` block and its two `catch` clauses. -/
def process_request (env : environment) : handler Unit := fun s =>
  match process_request_try env s with
  | result.ok _ s' => result.ok () s'
  | result.error (failure.runtime_error _) s' => response_error "Unable to parse JSON" s'
  | result.error _ s' => response_error "Internal server error in RPC" s'

/-- The action names tested by the routing chain of `process_request`. -/
def routed_actions : List String :=
  ["account_balance", "account_create", "account_list", "account_move",
   "account_representative", "account_representative_set", "account_weight",
   "available_supply", "block", "block_account", "block_count", "bootstrap", "chain",
   "frontiers", "frontier_count", "history", "keepalive", "krai_from_raw", "krai_to_raw",
   "mrai_from_raw", "mrai_to_raw", "password_change", "password_enter", "password_valid",
   "payment_begin", "payment_init", "payment_end", "payment_wait", "peers", "pending",
   "process", "rai_from_raw", "rai_to_raw", "search_pending", "send", "stop",
   "validate_account_number", "version", "wallet_add", "wallet_contains", "wallet_create",
   "wallet_destroy", "wallet_export", "wallet_key_valid", "wallet_representative",
   "wallet_representative_set", "work_generate", "work_cancel"]

end rpc_handler

/-! ## The payment subsystem as interleaved steps -/

namespace rpc_handler

/-- The part of `payment_wait` that constructs the observer and calls
`observer->start (timeout)`, answering on the callback `response_a`: the observer made. -/
def payment_wait_schedule (env : environment) (response_a account amount timeout : Nat) :
    handler payment_observer := do
  let observer ← payment_observer.make response_a account amount
  payment_observer.start env observer timeout
  pure observer

/-- The part of `payment_wait` that takes the lock and puts the observer in the registry. -/
def payment_wait_insert (observer : payment_observer) : handler Unit := do
  let s ← handler.read
  assertion (s.payment_observers observer.account).isNone
  handler.update fun s =>
    { s with payment_observers :=
        fun a => if a = observer.account then some observer else s.payment_observers a }

end rpc_handler

/-- The steps that the request threads, the alarm thread and the block-observer thread
interleave. An observer is named by its identity. -/
inductive payment_step where
  /-- A `payment_wait` call, answering on `response`, up to `observer->start (timeout)`. -/
  | schedule (response account amount timeout : Nat)
  /-- The `payment_wait` call of the observer puts it in the registry. -/
  | insert (observer : Nat)
  /-- The `payment_wait` call of the observer ends with `rpc.observer_action (account)`. -/
  | nudge (observer : Nat)
  /-- The alarm runs the function scheduled by `start`: `complete (nothing)`. -/
  | timer (observer : Nat)
  /-- The node announces a block for the account: `rpc.observer_action (account)`. -/
  | block_observed (account : Nat)

/-- The payment subsystem between two steps. -/
structure payment_system where
  /-- The registry, the flags and the responses, with the rest of the state. -/
  state : rpc_state
  /-- The observers whose `start` has returned, in the order of their construction. -/
  observers : List payment_observer
  /-- The observers whose `payment_wait` call has yet to put them in the registry. -/
  to_insert : List Nat
  /-- The observers whose `payment_wait` call has yet to call `observer_action`. -/
  to_nudge : List Nat
  /-- The observers whose scheduled function the alarm has yet to run. -/
  timers : List Nat

namespace payment_system

/-- No `payment_wait` call yet: an empty registry, no response, no flag set. -/
def empty : payment_system where
  state :=
    { body := "", request := ptree.nil, response := 0, payment_observers := fun _ => none,
      completed := fun _ => false, next_observer := 0, free_accounts := fun _ => [],
      responses := [], calls := [], log := [], invoked := [], assert_failures := 0 }
  observers := []
  to_insert := []
  to_nudge := []
  timers := []

/-- The observer with the given identity. -/
def find (system : payment_system) (id : Nat) : Option payment_observer :=
  system.observers.find? fun observer => observer.id == id

/-- One step, when it can be taken: a `payment_wait` call starts only on an account and a
callback that no earlier call has used, the later parts of a call follow its earlier parts,
and a timer runs once, after `start` has scheduled it. A `payment_wait` call whose `start`
throws ends there. -/
def step (env : environment) (system : payment_system) : payment_step → Option payment_system
  | payment_step.schedule response account amount timeout =>
    if system.observers.any (fun o => o.account == account || o.response == response) then
      none
    else
      match rpc_handler.payment_wait_schedule env response account amount timeout
          system.state with
      | result.ok observer s =>
        some { state := s, observers := system.observers ++ [observer],
               to_insert := system.to_insert ++ [observer.id], to_nudge := system.to_nudge,
               timers := system.timers ++ [observer.id] }
      | result.error _ s => some { system with state := s }
  | payment_step.insert id =>
    if id ∈ system.to_insert then
      (system.find id).map fun observer =>
        { system with
          state := (rpc_handler.payment_wait_insert observer system.state).state
          to_insert := system.to_insert.erase id
          to_nudge := system.to_nudge ++ [id] }
    else none
  | payment_step.nudge id =>
    if id ∈ system.to_nudge then
      (system.find id).map fun observer =>
        { system with
          state := (rpc.observer_action env observer.account system.state).state
          to_nudge := system.to_nudge.erase id }
    else none
  | payment_step.timer id =>
    if id ∈ system.timers then
      (system.find id).map fun observer =>
        { system with
          state := (payment_observer.complete env observer payment_status.nothing
            system.state).state
          timers := system.timers.erase id }
    else none
  | payment_step.block_observed account =>
    some { system with state := (rpc.observer_action env account system.state).state }

/-- A run: the steps taken one after the other, when each can be taken. -/
def run (env : environment) : payment_system → List payment_step → Option payment_system
  | system, [] => some system
  | system, first :: rest => (system.step env first).bind fun next => run env next rest

end payment_system


/-! ## A concrete environment and concrete requests -/

namespace demo

/-- Value of a text made of decimal digits only. -/
def digits : List Char → Nat → Option Nat
  | [], value => some value
  | c :: rest, value =>
    if c.isDigit then digits rest (value * 10 + (c.toNat - 48)) else none

/-- Value of a non-empty text of decimal digits. -/
def number (text : String) : Option Nat :=
  if text.data = [] then none else digits text.data 0

/-- A text with every double quote preceded by a backslash, as inside a JSON string. -/
def escape (text : String) : String :=
  String.mk (text.data.flatMap fun c =>
    if c = Char.ofNat 34 then [Char.ofNat 92, Char.ofNat 34] else [c])

/-- The JSON text of an object whose members are all strings. -/
def render (members : List (String × String)) : String :=
  "\x7b" ++ String.intercalate ","
    (members.map fun kv => "\"" ++ kv.1 ++ "\":\"" ++ escape kv.2 ++ "\"") ++ "\x7d"

/-- The tree of a JSON object whose members are all strings. -/
def object (members : List (String × String)) : ptree :=
  ptree.mk "" (members.map fun kv => (kv.1, ptree.leaf kv.2))

/-- Text form of the first example account. -/
def account_1_text : String :=
  "xrb_3t6k35gi95xu6tergt6p69ck76ogmitsa8mnijtpxm9fkcm736xtoncuohr3"

/-- The first example account. -/
def account_1 : Nat := 0xE89208DD038FBB269987689621D52292AE9C35941A7484756ECCED92A65093BA

/-- Text form of the second example account. -/
def account_2_text : String :=
  "xrb_13ezf4od79h1tgj9aiu4djzcmmguendtjfuhwfukhuucboua8cpoihmh8byo"

/-- The second example account. -/
def account_2 : Nat := landing_account

/-- Text form of the example wallet id. -/
def wallet_text : String := "0000000000000000000000000000000000000000000000000000000000000001"

/-- Text form of the hash of the example block. -/
def block_hash_text : String := "991CF190094C00F0B68E2E5F75F6BEE95A2E0BD93CEAA4A6734DB9F19B728948"

/-- Hash of the example block. -/
def block_hash : Nat := 0x991CF190094C00F0B68E2E5F75F6BEE95A2E0BD93CEAA4A6734DB9F19B728948

/-- A send block used by the examples. -/
def send_block : block :=
  { hash := block_hash, previous := 0x4C, representative := 0,
    contents := "", type := block_type.send_block account_2 }

/-- The block before the example block: the open block of the first account. -/
def open_block : block :=
  { hash := 0x4C, previous := 0, representative := account_1,
    contents := "", type := block_type.open_block account_1 }

/-- Members of the JSON text of the example block. -/
def block_members : List (String × String) :=
  [("type", "send"),
   ("previous", "000000000000000000000000000000000000000000000000000000000000004C"),
   ("destination", account_2_text),
   ("balance", "00000000000000000000000000000000"),
   ("work", "0000000000000000"),
   ("signature", "00000000000000000000000000000000000000000000000000000000000000000000000000000000000000000000000000000000000000000000000000000000")]

/-- Members of an example request: an action that is not routed. -/
def request_unknown : List (String × String) := [("action", "nope")]

/-- Members of an example request: `bootstrap`. -/
def request_bootstrap : List (String × String) :=
  [("action", "bootstrap"), ("address", "::1"), ("port", "7075")]

/-- Members of an example request: `process` with the example block. -/
def request_process : List (String × String) :=
  [("action", "process"), ("block", render block_members)]

/-- Members of an example request: `process` with a block text that is not JSON. -/
def request_process_malformed : List (String × String) :=
  [("action", "process"), ("block", "not json")]

/-- Members of an example request: `pending` with a count that is not a number. -/
def request_pending_bad_count : List (String × String) :=
  [("action", "pending"), ("account", account_1_text), ("count", "abc")]

/-- Members of an example request: `account_representative_set` with a wallet that is not
hexadecimal. -/
def request_representative_set_bad_wallet : List (String × String) :=
  [("action", "account_representative_set"), ("wallet", "zz"), ("account", account_1_text),
   ("representative", account_2_text)]

/-- Members of an example request: `mrai_to_raw` of 340282368. -/
def request_mrai_to_raw : List (String × String) :=
  [("action", "mrai_to_raw"), ("amount", "340282368")]

/-- Members of an example request: `mrai_to_raw` of 0. -/
def request_mrai_to_raw_zero : List (String × String) :=
  [("action", "mrai_to_raw"), ("amount", "0")]

/-- Members of an example request: `payment_wait` on the first account. -/
def request_payment_wait_1 : List (String × String) :=
  [("action", "payment_wait"), ("account", account_1_text), ("amount", "1000"),
   ("timeout", "50")]

/-- Members of an example request: `payment_wait` on the second account. -/
def request_payment_wait_2 : List (String × String) :=
  [("action", "payment_wait"), ("account", account_2_text), ("amount", "1000"),
   ("timeout", "50")]

/-- Members of an example request: `password_change` with the password `s3cret`. -/
def request_password_change : List (String × String) :=
  [("action", "password_change"), ("wallet", wallet_text), ("password", "s3cret")]

/-- Members of an example request: `password_change` with the password `hunter2`. -/
def request_password_change_other : List (String × String) :=
  [("action", "password_change"), ("wallet", wallet_text), ("password", "hunter2")]

/-- Members of an example request: `password_enter`. -/
def request_password_enter : List (String × String) :=
  [("action", "password_enter"), ("wallet", wallet_text), ("password", "s3cret")]

/-- Members of an example request: `account_balance` without `account`. -/
def request_account_balance_no_account : List (String × String) :=
  [("action", "account_balance")]

/-- Members of an example request: `account_balance`. -/
def request_account_balance : List (String × String) :=
  [("action", "account_balance"), ("account", account_1_text)]

/-- Members of an example request: `stop`. -/
def request_stop : List (String × String) := [("action", "stop")]

/-- Members of an example request: `mrai_to_raw` of `2 ^ 128 - 1`. -/
def request_mrai_to_raw_max : List (String × String) :=
  [("action", "mrai_to_raw"), ("amount", "340282366920938463463374607431768211455")]

/-- Members of an example request: `mrai_from_raw` of one and a half times the ratio. -/
def request_mrai_from_raw : List (String × String) :=
  [("action", "mrai_from_raw"), ("amount", "1500000000000000000000000000000")]

/-- Members of an example request: `mrai_to_raw` of 1. -/
def request_mrai_to_raw_one : List (String × String) :=
  [("action", "mrai_to_raw"), ("amount", "1")]

/-- Members of an example request: `mrai_from_raw` of three times the ratio. -/
def request_mrai_from_raw_three : List (String × String) :=
  [("action", "mrai_from_raw"), ("amount", "3000000000000000000000000000000")]

/-- Members of an example request: `mrai_to_raw` of 3. -/
def request_mrai_to_raw_three : List (String × String) :=
  [("action", "mrai_to_raw"), ("amount", "3")]

/-- Members of an example request: `chain` from the example block, two hashes asked. -/
def request_chain : List (String × String) :=
  [("action", "chain"), ("block", block_hash_text), ("count", "2")]

/-- Members of an example request: `frontiers` from the first account, two pairs asked. -/
def request_frontiers : List (String × String) :=
  [("action", "frontiers"), ("account", account_1_text), ("count", "2")]

/-- Members of an example request with count 0, carrying the starting points of `chain`,
`frontiers`, `history` and `pending`. -/
def request_count_zero : List (String × String) :=
  [("action", "chain"), ("block", block_hash_text), ("hash", block_hash_text),
   ("account", account_1_text), ("count", "0")]

/-- Members of an example request: `payment_begin` on the example wallet. -/
def request_payment_begin : List (String × String) :=
  [("action", "payment_begin"), ("wallet", wallet_text)]

/-- Members of an example request: `payment_end` of the second account. -/
def request_payment_end : List (String × String) :=
  [("action", "payment_end"), ("wallet", wallet_text), ("account", account_2_text)]

/-- Members of an example request: the `send` request of the disabled-control scenario. -/
def request_send : List (String × String) :=
  [("action", "send"), ("wallet", wallet_text), ("source", account_1_text),
   ("destination", account_2_text), ("amount", "1")]

/-- Members of an example request: `history` from the example block, two entries asked. -/
def request_history : List (String × String) :=
  [("action", "history"), ("hash", block_hash_text), ("count", "2")]

/-- The JSON objects the example reader knows. -/
def known_objects : List (List (String × String)) :=
  [request_unknown, request_bootstrap, request_process, request_process_malformed,
   request_pending_bad_count, request_representative_set_bad_wallet, request_mrai_to_raw,
   request_mrai_to_raw_zero, request_payment_wait_1, request_payment_wait_2,
   request_password_change, request_password_change_other, request_password_enter,
   request_account_balance_no_account, request_account_balance, request_stop,
   request_mrai_to_raw_max, request_mrai_from_raw, request_mrai_to_raw_one,
   request_mrai_from_raw_three, request_mrai_to_raw_three, request_chain,
   request_frontiers, request_count_zero, request_payment_begin, request_payment_end,
   request_send, request_history, block_members]

/-- Reading of a JSON text: the tree of the known object it is the text of. -/
def read_json (text : String) : Option ptree :=
  (known_objects.find? fun members => render members == text).map object

/-- A one-line rendering of the direct children of a tree. -/
def write_json (tree : ptree) : String :=
  render (tree.children.map fun kv => (kv.1, kv.2.data))

/-- An environment with control disabled: two accounts (the first with balance 1500, the
second with balance 0), one wallet, the upstream unit ratios, and collaborators that never
throw. -/
def env : environment where
  config := { address := 1, port := 7076, enable_control := false,
              frontier_request_limit := 16384, chain_request_limit := 16384 }
  log_rpc := true
  rai_ratio := 10 ^ 24
  krai_ratio := 10 ^ 27
  Mrai_ratio := 10 ^ 30
  genesis_account := account_1
  genesis_amount := 2 ^ 128 - 1
  node_vendor := "RaiBlocks"
  status_code := fun status =>
    match status with
    | payment_status.nothing => 2
    | payment_status.success => 3
    | payment_status.other code => code
  read_json := read_json
  write_json := write_json
  decode_account := fun text =>
    if text = account_1_text then some account_1
    else if text = account_2_text then some account_2 else none
  decode_hex := fun text =>
    if text = wallet_text then some 1
    else if text = block_hash_text then some block_hash else none
  decode_dec := fun text => (number text).bind fun n => if n < 2 ^ 128 then some n else none
  to_account := fun account =>
    if account = account_1 then account_1_text
    else if account = account_2 then account_2_text else "xrb_" ++ dec account
  to_string := fun value => if value = block_hash then block_hash_text else dec value
  to_string_hex := fun value => dec value
  stoull := fun text =>
    (number text).bind fun n => if n < 2 ^ 64 then some (n, text.utf8ByteSize) else none
  stoul := fun text => (number text).bind fun n => if n < 2 ^ 64 then some n else none
  parse_bool := fun text =>
    if text = "true" ∨ text = "1" then some true
    else if text = "false" ∨ text = "0" then some false else none
  address_from_string := fun text => if text = "::1" then some 1 else none
  parse_port := fun text => (number text).bind fun n => if n < 2 ^ 16 then some n else none
  deserialize_block_json := fun tree =>
    if tree.get "type" = some "send" then some send_block else none
  raises := fun _ => none
  balance_pending := fun account => if account = account_1 then (1500, 0) else (0, 0)
  balance := fun account => if account = account_1 then 1500 else 0
  weight := fun _ => 0
  store_version := 1
  peers := []
  wallets_items := fun wallet => wallet == 1
  keypair_pub := 5
  deterministic_insert := fun _ => 3
  enter_password := fun _ password => password != "s3cret"
  search_pending := fun _ => false
  insert_adhoc := fun _ key => key
  init_free_accounts := fun _ => [account_1, account_2]
  wallet_store_accounts := fun _ => [account_1, account_2]
  wallet_store_find := fun _ account => account == account_1 || account == account_2
  wallet_store_move := fun _ _ _ => false
  rekey := fun _ _ => false
  valid_password := fun _ => true
  wallet_serialize_json := fun _ => ""
  wallet_representative := fun _ => account_1
  account_get := fun _ => none
  block_get := fun hash => if hash = block_hash then some send_block else none
  block_exists := fun hash => hash == block_hash
  block_count := 1
  unchecked_count := 0
  latest_range := fun _ => []
  frontier_count := 0
  pending_range := fun _ _ => []
  ledger_account := fun _ => account_1
  ledger_amount := fun _ => 0
  ledger_account_balance := fun account => if account = account_1 then 1500 else 0
  work_validate := fun _ => false
  work_generate_maybe := fun _ => none

/-- The same environment with control enabled. -/
def env_control : environment :=
  { env with config := { env.config with enable_control := true } }

/-- The same environment with both request limits set to 1, a store that holds the example
block and the block before it, and two accounts in the table of latest blocks. -/
def env_capped : environment :=
  { env with
    config := { env.config with frontier_request_limit := 1, chain_request_limit := 1 }
    block_get := fun hash =>
      if hash = block_hash then some send_block
      else if hash = 0x4C then some open_block else none
    latest_range := fun _ =>
      [(account_1, { head := block_hash, rep_block := 0x4C }),
       (account_2, { head := 0x4D, rep_block := 0x4D })] }

/-- The same environment with a wallet store that holds the zero account as well. -/
def env_zero_key : environment :=
  { env with
    wallet_store_find := fun _ account =>
      account == 0 || account == account_1 || account == account_2 }

/-- The same environment with collaborators that all throw an exception which is not a
`std::runtime_error`. -/
def env_failing : environment :=
  { env with raises := fun _ => some (failure.other "std::bad_alloc") }

/-- Members of a configuration tree with the given port text. -/
def config_members (port_text : String) : List (String × String) :=
  [("address", "::1"), ("port", port_text), ("enable_control", "true"),
   ("frontier_request_limit", "16384"), ("chain_request_limit", "16384")]

/-- A default-constructed configuration. -/
def default_config : rpc_config := rpc_config.construct 1 7076 false

/-- The handler object for the request with the given members once the request is parsed,
as a handler method finds it. -/
def parsed (members : List (String × String)) : rpc_state where
  body := render members
  request := object members
  response := 0
  payment_observers := fun _ => none
  completed := fun _ => false
  next_observer := 0
  free_accounts := fun _ => []
  responses := []
  calls := []
  log := []
  invoked := []
  assert_failures := 0

/-- A handler object just constructed for the request with the given members, answering on
callback 0, with no payment observer registered. -/
def start (members : List (String × String)) : rpc_state where
  body := render members
  request := ptree.nil
  response := 0
  payment_observers := fun _ => none
  completed := fun _ => false
  next_observer := 0
  free_accounts := fun _ => []
  responses := []
  calls := []
  log := []
  invoked := []
  assert_failures := 0

/-- A state in which the free pool of the example wallet is `pool`. -/
def with_pool (s : rpc_state) (pool : List Nat) : rpc_state :=
  { s with free_accounts := fun wallet => if wallet = 1 then pool else [] }

/-- The observer that a `payment_wait` request on the second account creates first. -/
def observer_2 : payment_observer :=
  { id := 0, account := account_2, amount := 1000, response := 0 }

/-- A run in which the timer of a `payment_wait` call on the second account, scheduled with
timeout 0, fires before the call has put its observer in the registry. -/
def early_timer : List payment_step :=
  [payment_step.schedule 0 account_2 1000 0, payment_step.timer 0, payment_step.insert 0,
   payment_step.nudge 0]

end demo

/-! ## Notions used in the statements -/

/-- The actions whose handlers test `config.enable_control` before anything else. -/
def control_gated_actions : List String :=
  ["account_create", "account_move", "account_representative_set", "keepalive",
   "password_change", "search_pending", "send", "stop", "wallet_add", "wallet_create",
   "wallet_destroy", "wallet_representative_set", "work_generate", "work_cancel"]

/-- The handlers of the control-gated actions. -/
def control_gated_handlers (env : environment) : List (handler Unit) :=
  [rpc_handler.account_create env, rpc_handler.account_move env,
   rpc_handler.account_representative_set env, rpc_handler.keepalive env,
   rpc_handler.password_change env, rpc_handler.search_pending env, rpc_handler.send env,
   rpc_handler.stop env, rpc_handler.wallet_add env, rpc_handler.wallet_create env,
   rpc_handler.wallet_destroy env, rpc_handler.wallet_representative_set env,
   rpc_handler.work_generate env, rpc_handler.work_cancel env]

/-- The tree a completing observer answers for each status. -/
def completion_tree : payment_status → ptree
  | payment_status.nothing => payment_observer.status_tree "nothing"
  | payment_status.success => payment_observer.status_tree "success"
  | payment_status.other _ => error_tree "Internal payment error"

/-- What a run of a password handler from `s` may look like: either it returns having
answered once on the callback of the handler, with a tree other than the unknown-command
error, or it throws having answered nothing; the log, the request, the callback and the
record of invoked handlers are as they were. -/
def password_outcome (s : rpc_state) : result Unit → Prop
  | result.ok _ s1 =>
    s1.log = s.log ∧ s1.request = s.request ∧ s1.invoked = s.invoked
      ∧ s1.response = s.response
      ∧ ∃ t, s1.responses = s.responses ++ [(s.response, t)]
          ∧ t ≠ error_tree "Unknown command"
  | result.error _ s1 =>
    s1.responses = s.responses ∧ s1.invoked = s.invoked ∧ s1.response = s.response

/-- The message of the catch clause of `process_request` that receives a failure. -/
def catch_message : failure → String
  | failure.runtime_error _ => "Unable to parse JSON"
  | _ => "Internal server error in RPC"

/-- The three prefixed units of the converter actions. -/
inductive denomination where
  | rai
  | krai
  | Mrai

/-- The ratio of a unit to the raw unit. -/
def denomination.ratio (env : environment) : denomination → Nat
  | denomination.rai => env.rai_ratio
  | denomination.krai => env.krai_ratio
  | denomination.Mrai => env.Mrai_ratio

/-- The handler that converts from a unit to raw. -/
def denomination.to_raw (env : environment) : denomination → handler Unit
  | denomination.rai => rpc_handler.rai_to_raw env
  | denomination.krai => rpc_handler.krai_to_raw env
  | denomination.Mrai => rpc_handler.mrai_to_raw env

/-- The handler that converts from raw to a unit. -/
def denomination.from_raw (env : environment) : denomination → handler Unit
  | denomination.rai => rpc_handler.rai_from_raw env
  | denomination.krai => rpc_handler.krai_from_raw env
  | denomination.Mrai => rpc_handler.mrai_from_raw env

/-- A state with one more response on the callback of the handler. -/
def answered (s : rpc_state) (tree : ptree) : rpc_state :=
  { s with responses := s.responses ++ [(s.response, tree)] }

/-- No collaborator call throws. -/
def quiet (env : environment) : Prop := ∀ c : call, env.raises c = none

/-- A state with more collaborator calls recorded. -/
def called (s : rpc_state) (calls : List call) : rpc_state :=
  { s with calls := s.calls ++ calls }

/-- A tree whose children are unnamed and carry the given texts, in order. -/
def text_list (texts : List String) : ptree :=
  ptree.mk "" (texts.map fun text => ("", ptree.leaf text))

/-- A tree whose children carry the given texts under the given keys, in order. -/
def fields (members : List (String × String)) : ptree :=
  ptree.mk "" (members.map fun kv => (kv.1, ptree.leaf kv.2))

/-- The walk the spec describes for `chain`: follow `previous` from `hash`, collecting
hashes, until the hash is zero, is not in the store, or `count` hashes are collected. -/
def chain_walk (store : Nat → Option block) : Nat → Nat → List Nat
  | 0, _ => []
  | count + 1, hash =>
    if hash = 0 then []
    else
      match store hash with
      | none => []
      | some found => hash :: chain_walk store count found.previous

/-- The hash a walk that collected `walked` from `hash` would look at next. -/
def next_hash (store : Nat → Option block) (hash : Nat) (walked : List Nat) : Nat :=
  match walked.getLast? with
  | none => hash
  | some last =>
    match store last with
    | some found => found.previous
    | none => 0

/-- The entry the spec gives for a block found at `hash`, by the variant of the block. -/
def history_entry (env : environment) (hash : Nat) : block_type → ptree
  | block_type.send_block destination =>
    fields [("type", "send"), ("account", env.to_account destination),
      ("amount", dec (env.ledger_amount hash))]
  | block_type.receive_block source =>
    fields [("type", "receive"), ("account", env.to_account (env.ledger_account source)),
      ("amount", dec (env.ledger_amount hash))]
  | block_type.open_block source =>
    if source = env.genesis_account then
      fields [("type", "receive"), ("account", env.to_account env.genesis_account),
        ("amount", dec env.genesis_amount)]
    else
      fields [("type", "receive"), ("account", env.to_account (env.ledger_account source)),
        ("amount", dec (env.ledger_amount hash))]
  | block_type.change_block => fields []

/-- The calls made when the loop of `payment_begin` examines a pool account that is in the
wallet store. -/
def examination (id account : Nat) : List call :=
  [call.wallet_store_find id account, call.ledger_account_balance account]

/-- A pool account the loop of `payment_begin` looks up and passes over: it is in the wallet
store, and it has a balance or is the zero account. -/
def passed_over (env : environment) (id account : Nat) : Prop :=
  env.wallet_store_find id account = true
    ∧ (env.ledger_account_balance account ≠ 0 ∨ account = 0)

/-- A pool account the loop of `payment_begin` settles on: it is not the zero account, it is
in the wallet store and its balance is zero. -/
def eligible (env : environment) (id account : Nat) : Prop :=
  account ≠ 0 ∧ env.wallet_store_find id account = true
    ∧ env.ledger_account_balance account = 0

/-- The pool accounts looked up in the store of wallet `id` by the given calls, in order. -/
def examined_accounts (id : Nat) (calls : List call) : List Nat :=
  calls.filterMap fun c =>
    match c with
    | call.wallet_store_find wallet account => if wallet = id then some account else none
    | _ => none

/-- The outcome of a loop that answers `account`, as the outcome of a bounded loop that did
not reach its bound. -/
def within_bound : result Nat → result (Option Nat)
  | result.ok account s => result.ok (some account) s
  | result.error e s => result.error e s

/-- A tree whose children are unnamed and are the given trees, in order. -/
def tree_list (trees : List ptree) : ptree :=
  ptree.mk "" (trees.map fun tree => ("", tree))

/-- The blocks the spec has `history` visit from `hash`, each with the hash it is stored
under: the blocks found by following `previous`, until a hash is not in the store or `count`
blocks are visited. -/
def history_walk (store : Nat → Option block) : Nat → Nat → List (Nat × block)
  | 0, _ => []
  | count + 1, hash =>
    match store hash with
    | none => []
    | some found => (hash, found) :: history_walk store count found.previous

/-- Whether the spec has `history` report a block of this variant: every variant but the
change block. -/
def reported : block_type → Bool
  | block_type.change_block => false
  | _ => true

/-- The entries the spec gives for the visited blocks, in their order: none for a change
block, and for any other block the entry of its variant with its own hash. -/
def history_entries (env : environment) (visited : List (Nat × block)) : List ptree :=
  visited.filterMap fun visit =>
    if reported visit.2.type then
      some ((history_entry env visit.1 visit.2.type).put "hash" (env.to_string visit.1))
    else none

/-- The state `s'` differs from `s` at most outside the registry, the flags, the allocation
of observers and the responses. -/
def same_payment (s s' : rpc_state) : Prop :=
  s'.payment_observers = s.payment_observers ∧ s'.completed = s.completed
    ∧ s'.next_observer = s.next_observer ∧ s'.responses = s.responses

/-- The state `s'` is `s` after the first completion of `observer`: its flag was clear and
is set, it has answered once, and its account is no longer registered. -/
def completed_by (observer : payment_observer) (s s' : rpc_state) : Prop :=
  s.completed observer.id = false
    ∧ s'.completed = (fun i => if i = observer.id then true else s.completed i)
    ∧ (∃ tree, s'.responses = s.responses ++ [(observer.response, tree)])
    ∧ s'.payment_observers
        = (fun a => if a = observer.account then none else s.payment_observers a)
    ∧ s'.next_observer = s.next_observer

/-- The state `s'` is `s` after the construction of the observer with the next identity. -/
def allocated (s s' : rpc_state) : Prop :=
  s'.next_observer = s.next_observer + 1
    ∧ s'.completed = (fun i => if i = s.next_observer then false else s.completed i)
    ∧ s'.payment_observers = s.payment_observers ∧ s'.responses = s.responses

/-- The state `s'` is `s` after `observer` is put in the registry. -/
def inserted (observer : payment_observer) (s s' : rpc_state) : Prop :=
  s'.payment_observers
      = (fun a => if a = observer.account then some observer else s.payment_observers a)
    ∧ s'.completed = s.completed ∧ s'.next_observer = s.next_observer
    ∧ s'.responses = s.responses

/-- What holds of the state and the observers after every run: identities, callbacks and
accounts tell the observers apart, the registry holds observers under their own account,
every response is the response of an observer whose flag is set, and no callback has been
invoked twice. -/
def payment_sound (s : rpc_state) (observers : List payment_observer) : Prop :=
  (∀ o ∈ observers, o.id < s.next_observer)
    ∧ (∀ a ∈ observers, ∀ b ∈ observers,
        a.id = b.id ∨ a.response = b.response ∨ a.account = b.account → a = b)
    ∧ (∀ a o, s.payment_observers a = some o → o ∈ observers ∧ o.account = a)
    ∧ (∀ r ∈ s.responses, ∃ o ∈ observers, o.response = r.1 ∧ s.completed o.id = true)
    ∧ (s.responses.map Prod.fst).Nodup

/-- What holds besides after every run in which no timer fires before its observer is in the
registry: a registered observer has been inserted by its call and its flag is clear, and an
observer yet to be inserted has a clear flag and an account that is not registered. -/
def payment_orderly (s : rpc_state) (observers : List payment_observer)
    (to_insert : List Nat) : Prop :=
  (∀ id ∈ to_insert, id < s.next_observer)
    ∧ to_insert.Nodup
    ∧ (∀ a o, s.payment_observers a = some o →
        o.id ∉ to_insert ∧ s.completed o.id = false)
    ∧ (∀ o ∈ observers, o.id ∈ to_insert →
        s.completed o.id = false ∧ s.payment_observers o.account = none)

namespace payment_system

/-- Whether the step leaves alone the timers of the observers that are yet to be put in the
registry. -/
def orderly (system : payment_system) : payment_step → Bool
  | payment_step.timer id => decide (id ∉ system.to_insert)
  | _ => true

/-- A run in which no timer fires before its observer is in the registry. -/
def orderly_run (env : environment) :
    payment_system → List payment_step → Option payment_system
  | system, [] => some system
  | system, first :: rest =>
    if system.orderly first then
      (system.step env first).bind fun next => orderly_run env next rest
    else none

end payment_system

/-! ## Reasoning about handlers -/

@[simp] theorem handler_pure_apply {α : Type} (a : α) (s : rpc_state) :
    (pure a : handler α) s = result.ok a s := rfl

@[simp] theorem handler_bind_apply {α β : Type} (x : handler α) (f : α → handler β)
    (s : rpc_state) :
    (x >>= f) s =
      match x s with
      | result.ok a s' => f a s'
      | result.error e s' => result.error e s' := rfl

@[simp] theorem handler_ite_apply {α : Type} (c : Prop) [Decidable c] (x y : handler α)
    (s : rpc_state) : (if c then x else y) s = if c then x s else y s := by
  split <;> rfl

theorem complete_again (env : environment) (this : payment_observer) (status : payment_status)
    (s : rpc_state) (hdone : s.completed this.id = true) :
    payment_observer.complete env this status s = result.ok () s := by
  have hsame : (fun i => if i = this.id then true else s.completed i) = s.completed := by
    funext i
    by_cases hi : i = this.id
    · rw [if_pos hi, hi, hdone]
    · rw [if_neg hi]
  have hstate : { s with completed := fun i => if i = this.id then true else s.completed i }
      = s := by
    rw [hsame]
  simp only [payment_observer.complete, handler.read, handler.update, handler_bind_apply,
    hdone, hstate]
  simp

theorem complete_first (env : environment) (this : payment_observer) (status : payment_status)
    (s : rpc_state) (hfresh : s.completed this.id = false) :
    payment_observer.complete env this status s = result.ok ()
      { s with
        completed := fun i => if i = this.id then true else s.completed i
        log := if env.log_rpc then
            s.log ++ [String.intercalate " % "
              ["Exiting payment_observer for account %1% status %2%",
               env.to_account this.account, dec (env.status_code status)]]
          else s.log
        responses := s.responses ++ [(this.response, completion_tree status)]
        assert_failures :=
          if (s.payment_observers this.account).isSome then s.assert_failures
          else s.assert_failures + 1
        payment_observers := fun a => if a = this.account then none else s.payment_observers a } := by
  cases hlog : env.log_rpc <;> cases status <;>
    cases hreg : (s.payment_observers this.account).isSome <;>
    simp [payment_observer.complete, handler.read, handler.update, hfresh, hlog, boost_format,
      log_line, respond, error_response, assertion, completion_tree, hreg]

theorem error_tree_ne (a b : String) (h : a ≠ b) : error_tree a ≠ error_tree b := by
  simp [error_tree, ptree.put, ptree.nil, ptree.put_child, ptree.children, ptree.data,
    ptree.leaf, h]

theorem put_ne_error_tree (key value message : String) (h : key ≠ "error") (h0 : key ≠ "") :
    ptree.nil.put key value ≠ error_tree message := by
  simp [error_tree, ptree.put, ptree.nil, ptree.put_child, ptree.children, ptree.data,
    ptree.leaf, h, h0]

theorem password_enter_outcome (env : environment) (s : rpc_state) :
    password_outcome s (rpc_handler.password_enter env s) := by
  cases hwallet_text : s.request.get "wallet" with
  | none => simp [rpc_handler.password_enter, rpc_handler.request_get, hwallet_text,
      password_outcome]
  | some wallet_text =>
  cases hwallet : env.decode_hex wallet_text with
  | none => simp [rpc_handler.password_enter, rpc_handler.request_get, hwallet_text, hwallet,
      password_outcome, rpc_handler.response_error, error_response, respond, handler.update,
      error_tree_ne]
  | some wallet =>
  cases hfind : env.raises (call.wallets_find wallet) with
  | some e => simp [rpc_handler.password_enter, rpc_handler.request_get, hwallet_text, hwallet,
      password_outcome, query, collaborator, hfind]
  | none =>
  cases hexisting : env.wallets_items wallet with
  | false => simp [rpc_handler.password_enter, rpc_handler.request_get, hwallet_text, hwallet,
      password_outcome, query, collaborator, hfind, hexisting, rpc_handler.response_error,
      error_response, respond, handler.update, error_tree_ne]
  | true =>
  cases hpassword : s.request.get "password" with
  | none => simp [rpc_handler.password_enter, rpc_handler.request_get, hwallet_text, hwallet,
      password_outcome, query, collaborator, hfind, hexisting, hpassword]
  | some password_text =>
  cases henter : env.raises (call.enter_password wallet password_text) with
  | some e => simp [rpc_handler.password_enter, rpc_handler.request_get, hwallet_text, hwallet,
      password_outcome, query, collaborator, hfind, hexisting, hpassword, henter]
  | none => simp [rpc_handler.password_enter, rpc_handler.request_get, hwallet_text, hwallet,
      password_outcome, query, collaborator, hfind, hexisting, hpassword, henter,
      rpc_handler.response, respond, handler.update, put_ne_error_tree]

theorem password_change_outcome (env : environment) (s : rpc_state) :
    password_outcome s (rpc_handler.password_change env s) := by
  cases hcontrol : env.config.enable_control with
  | false => simp [rpc_handler.password_change, hcontrol, password_outcome,
      rpc_handler.response_error, error_response, respond, handler.update, error_tree_ne]
  | true =>
  cases hwallet_text : s.request.get "wallet" with
  | none => simp [rpc_handler.password_change, hcontrol, rpc_handler.request_get, hwallet_text,
      password_outcome]
  | some wallet_text =>
  cases hwallet : env.decode_hex wallet_text with
  | none => simp [rpc_handler.password_change, hcontrol, rpc_handler.request_get, hwallet_text,
      hwallet, password_outcome, rpc_handler.response_error, error_response, respond,
      handler.update, error_tree_ne]
  | some wallet =>
  cases hfind : env.raises (call.wallets_find wallet) with
  | some e => simp [rpc_handler.password_change, hcontrol, rpc_handler.request_get,
      hwallet_text, hwallet, password_outcome, query, collaborator, hfind]
  | none =>
  cases hexisting : env.wallets_items wallet with
  | false => simp [rpc_handler.password_change, hcontrol, rpc_handler.request_get,
      hwallet_text, hwallet, password_outcome, query, collaborator, hfind, hexisting,
      rpc_handler.response_error, error_response, respond, handler.update, error_tree_ne]
  | true =>
  cases htransaction : env.raises (call.transaction true) with
  | some e => simp [rpc_handler.password_change, hcontrol, rpc_handler.request_get,
      hwallet_text, hwallet, password_outcome, query, collaborator, hfind, hexisting,
      htransaction]
  | none =>
  cases hpassword : s.request.get "password" with
  | none => simp [rpc_handler.password_change, hcontrol, rpc_handler.request_get,
      hwallet_text, hwallet, password_outcome, query, collaborator, hfind, hexisting,
      htransaction, hpassword]
  | some password_text =>
  cases hrekey : env.raises (call.rekey wallet password_text) with
  | some e => simp [rpc_handler.password_change, hcontrol, rpc_handler.request_get,
      hwallet_text, hwallet, password_outcome, query, collaborator, hfind, hexisting,
      htransaction, hpassword, hrekey]
  | none => simp [rpc_handler.password_change, hcontrol, rpc_handler.request_get,
      hwallet_text, hwallet, password_outcome, query, collaborator, hfind, hexisting,
      htransaction, hpassword, hrekey, rpc_handler.response, respond, handler.update,
      put_ne_error_tree]
theorem process_request_try_password (env : environment) (s : rpc_state) (tree : ptree)
    (action : String) (method : handler Unit)
    (hbody : env.read_json s.body = some tree)
    (haction : tree.get "action" = some action)
    (hmethod : (action = "password_enter" ∧ method = rpc_handler.password_enter env)
      ∨ (action = "password_change" ∧ method = rpc_handler.password_change env)) :
    rpc_handler.process_request_try env s =
      match method { s with request := tree, invoked := s.invoked ++ [action] } with
      | result.ok _ s1 =>
        result.ok ()
          { s1 with
            request := s1.request.erase "password"
            body := env.write_json (s1.request.erase "password")
            log := if env.log_rpc then s1.log ++ [env.write_json (s1.request.erase "password")]
              else s1.log }
      | result.error e s1 => result.error e s1 := by
  rcases hmethod with ⟨ha, hm⟩ | ⟨ha, hm⟩ <;> subst ha <;> subst hm
  · cases hrun : rpc_handler.password_enter env
        { s with request := tree, invoked := s.invoked ++ ["password_enter"] } <;>
      cases hlog : env.log_rpc <;>
      simp [rpc_handler.process_request_try, handler.read, handler.update, hbody,
        rpc_handler.request_get, haction, rpc_handler.invoke, hrun,
        rpc_handler.scrub_password, reprocess_body, hlog, log_line, rpc_handler.route]
  · cases hrun : rpc_handler.password_change env
        { s with request := tree, invoked := s.invoked ++ ["password_change"] } <;>
      cases hlog : env.log_rpc <;>
      simp [rpc_handler.process_request_try, handler.read, handler.update, hbody,
        rpc_handler.request_get, haction, rpc_handler.invoke, hrun,
        rpc_handler.scrub_password, reprocess_body, hlog, log_line, rpc_handler.route]

theorem password_method_outcome (env : environment) (s : rpc_state) (action : String)
    (hpassword : action = "password_enter" ∨ action = "password_change") :
    ∃ method : handler Unit,
      ((action = "password_enter" ∧ method = rpc_handler.password_enter env)
        ∨ (action = "password_change" ∧ method = rpc_handler.password_change env))
      ∧ password_outcome s (method s) := by
  rcases hpassword with h | h
  · exact ⟨_, Or.inl ⟨h, rfl⟩, password_enter_outcome env s⟩
  · exact ⟨_, Or.inr ⟨h, rfl⟩, password_change_outcome env s⟩

theorem erase_removes (tree : ptree) (key : String) :
    ∀ kv ∈ (tree.erase key).children, kv.1 ≠ key := by
  intro kv hkv
  simpa [ptree.erase, ptree.children] using (List.mem_filter.mp hkv).2

theorem password_log_line (env : environment) (s s' : rpc_state) (tree : ptree)
    (action : String)
    (hlog : env.log_rpc = true)
    (hbody : env.read_json s.body = some tree)
    (haction : tree.get "action" = some action)
    (hpassword : action = "password_enter" ∨ action = "password_change")
    (hreturns : rpc_handler.process_request_try env s = result.ok () s') :
    s'.log = s.log ++ [env.write_json (tree.erase "password")] := by
  obtain ⟨method, hmethod, hout⟩ := password_method_outcome env
    { s with request := tree, invoked := s.invoked ++ [action] } action hpassword
  rw [process_request_try_password env s tree action method hbody haction hmethod] at hreturns
  cases hrun : method { s with request := tree, invoked := s.invoked ++ [action] } with
  | error e s1 => rw [hrun] at hreturns; simp at hreturns
  | ok u s1 =>
    rw [hrun] at hreturns hout
    simp only [result.ok.injEq, true_and] at hreturns
    obtain ⟨h1, h2, _⟩ := hout
    subst hreturns
    simp [hlog, h1, h2]

/-! ## Reasoning about the converters, the walks and the pool -/

theorem to_raw_run (env : environment) (ratio : Nat) (s : rpc_state) (amount_text : String)
    (a : Nat)
    (htext : s.request.get "amount" = some amount_text)
    (hamount : env.decode_dec amount_text = some a) :
    rpc_handler.to_raw env ratio s = result.ok ()
      (answered s (if (a * ratio) % 2 ^ 128 > a then
          ptree.nil.put "amount" (dec ((a * ratio) % 2 ^ 128))
        else error_tree "Amount too big")) := by
  by_cases h : (a * ratio) % 2 ^ 128 > a <;>
    simp [rpc_handler.to_raw, rpc_handler.request_get, htext, hamount, h,
      rpc_handler.response, rpc_handler.response_error, error_response, respond,
      handler.update, answered, -Nat.reducePow]

theorem from_raw_run (env : environment) (ratio : Nat) (s : rpc_state) (amount_text : String)
    (a : Nat)
    (htext : s.request.get "amount" = some amount_text)
    (hamount : env.decode_dec amount_text = some a) :
    rpc_handler.from_raw env ratio s = result.ok ()
      (answered s (ptree.nil.put "amount" (dec (a / ratio)))) := by
  simp [rpc_handler.from_raw, rpc_handler.request_get, htext, hamount,
    rpc_handler.response, respond, handler.update, answered]

theorem denomination_to_raw (env : environment) (unit : denomination) :
    unit.to_raw env = rpc_handler.to_raw env (unit.ratio env) := by
  cases unit <;> rfl

theorem denomination_from_raw (env : environment) (unit : denomination) :
    unit.from_raw env = rpc_handler.from_raw env (unit.ratio env) := by
  cases unit <;> rfl

theorem query_quiet {α : Type} (env : environment) (hquiet : quiet env) (c : call) (value : α)
    (s : rpc_state) : query env c value s = result.ok value (called s [c]) := by
  simp [query, collaborator, hquiet c, called]

theorem collaborator_quiet (env : environment) (hquiet : quiet env) (c : call)
    (s : rpc_state) : collaborator env c s = result.ok () (called s [c]) := by
  simp [collaborator, hquiet c, called]

theorem called_called (s : rpc_state) (a b : List call) :
    called (called s a) b = called s (a ++ b) := by
  simp [called]

theorem called_nil (s : rpc_state) : called s [] = s := by
  simp [called]

theorem called_free_accounts (s : rpc_state) (a : List call) :
    (called s a).free_accounts = s.free_accounts := rfl

theorem called_responses (s : rpc_state) (a : List call) :
    (called s a).responses = s.responses := rfl

theorem called_response (s : rpc_state) (a : List call) :
    (called s a).response = s.response := rfl

theorem called_calls (s : rpc_state) (a : List call) :
    (called s a).calls = s.calls ++ a := rfl

theorem chain_walk_zero (store : Nat → Option block) (count : Nat) :
    chain_walk store count 0 = [] := by
  cases count <;> simp [chain_walk]

theorem chain_loop_walk (env : environment) (hquiet : quiet env) (count : Nat) :
    ∀ (fuel block : Nat) (blocks : ptree) (s : rpc_state),
      block = 0 ∨ count ≤ fuel + blocks.size →
      ∃ calls, rpc_handler.chain_loop env count fuel block blocks s
        = result.ok
            (ptree.mk blocks.data
              (blocks.children
                ++ (chain_walk env.block_get (count - blocks.size) block).map
                    fun a => ("", ptree.leaf (env.to_string a))))
            (called s calls) := by
  intro fuel
  induction fuel with
  | zero =>
    intro block blocks s hfuel
    have hwalk : chain_walk env.block_get (count - blocks.size) block = [] := by
      rcases hfuel with hb | hfuel
      · rw [hb, chain_walk_zero]
      · have hzero : count - blocks.size = 0 := by omega
        rw [hzero]
        simp [chain_walk]
    refine ⟨[], ?_⟩
    cases blocks
    simp [rpc_handler.chain_loop, hwalk, called_nil, ptree.data, ptree.children]
  | succ fuel ih =>
    intro block blocks s hfuel
    by_cases hcond : block ≠ 0 ∧ blocks.size < count
    · have hbound : count ≤ fuel + 1 + blocks.size := by
        rcases hfuel with hb | hfuel
        · exact absurd hb hcond.1
        · exact hfuel
      obtain ⟨m, hm⟩ : ∃ m, count - blocks.size = m + 1 :=
        ⟨count - blocks.size - 1, by omega⟩
      cases hget : env.block_get block with
      | none =>
        obtain ⟨calls, hrun⟩ := ih 0 blocks (called s [call.block_get block]) (Or.inl rfl)
        refine ⟨[call.block_get block] ++ calls, ?_⟩
        simp only [rpc_handler.chain_loop, if_pos hcond, handler_bind_apply,
          query_quiet env hquiet, hget, hrun, chain_walk_zero, hm, chain_walk, if_neg hcond.1,
          called_called, List.map_nil]
      | some found =>
        have hpushed :
            (blocks.push_back "" (ptree.nil.put "" (env.to_string block))).size
              = blocks.size + 1 := by
          simp [ptree.push_back, ptree.size, ptree.children]
        obtain ⟨calls, hrun⟩ := ih found.previous
          (blocks.push_back "" (ptree.nil.put "" (env.to_string block)))
          (called s [call.block_get block]) (Or.inr (by omega))
        refine ⟨[call.block_get block] ++ calls, ?_⟩
        have hsize : count - (blocks.push_back "" (ptree.nil.put "" (env.to_string block))).size
            = m := by
          omega
        simp only [rpc_handler.chain_loop, if_pos hcond, handler_bind_apply,
          query_quiet env hquiet, hget, hrun, hm, chain_walk, if_neg hcond.1,
          called_called, hsize]
        simp [ptree.push_back, ptree.children, ptree.data, ptree.put, ptree.nil, ptree.leaf]
    · have hwalk : chain_walk env.block_get (count - blocks.size) block = [] := by
        by_cases hb : block = 0
        · rw [hb, chain_walk_zero]
        · have : count - blocks.size = 0 := by
            have := not_and.mp hcond hb
            omega
          rw [this]
          simp [chain_walk]
      refine ⟨[], ?_⟩
      cases blocks
      simp [rpc_handler.chain_loop, hcond, hwalk, called_nil, ptree.data, ptree.children]

theorem chain_walk_length (store : Nat → Option block) :
    ∀ (count hash : Nat), (chain_walk store count hash).length ≤ count := by
  intro count
  induction count with
  | zero => intro hash; simp [chain_walk]
  | succ count ih =>
    intro hash
    by_cases hzero : hash = 0
    · simp [chain_walk, hzero]
    · cases hget : store hash with
      | none => simp [chain_walk, hzero, hget]
      | some found =>
        have := ih found.previous
        simp [chain_walk, hzero, hget]
        omega

theorem chain_walk_head (store : Nat → Option block) (count hash a : Nat)
    (hhead : (chain_walk store count hash).head? = some a) : a = hash := by
  cases count with
  | zero => simp [chain_walk] at hhead
  | succ count =>
    by_cases hzero : hash = 0
    · simp [chain_walk, hzero] at hhead
    · cases hget : store hash with
      | none => simp [chain_walk, hzero, hget] at hhead
      | some found =>
        simp [chain_walk, hzero, hget] at hhead
        exact hhead.symm

theorem chain_walk_linked (store : Nat → Option block) :
    ∀ (count hash : Nat),
      (chain_walk store count hash).Chain'
        (fun a b => ∃ found, store a = some found ∧ found.previous = b) := by
  intro count
  induction count with
  | zero => intro hash; simp [chain_walk]
  | succ count ih =>
    intro hash
    by_cases hzero : hash = 0
    · simp [chain_walk, hzero]
    · cases hget : store hash with
      | none => simp [chain_walk, hzero, hget]
      | some found =>
        simp only [chain_walk, hzero, hget, if_false]
        rw [List.chain'_cons']
        refine ⟨?_, ih found.previous⟩
        intro b hb
        exact ⟨found, hget, (chain_walk_head store count found.previous b hb).symm⟩

theorem chain_walk_present (store : Nat → Option block) :
    ∀ (count hash a : Nat), a ∈ chain_walk store count hash →
      a ≠ 0 ∧ (store a).isSome = true := by
  intro count
  induction count with
  | zero => intro hash a ha; simp [chain_walk] at ha
  | succ count ih =>
    intro hash a ha
    by_cases hzero : hash = 0
    · simp [chain_walk, hzero] at ha
    · cases hget : store hash with
      | none => simp [chain_walk, hzero, hget] at ha
      | some found =>
        simp only [chain_walk, hzero, hget, if_false, List.mem_cons] at ha
        rcases ha with ha | ha
        · subst ha
          exact ⟨hzero, by simp [hget]⟩
        · exact ih found.previous a ha

theorem chain_walk_maximal (store : Nat → Option block) :
    ∀ (count hash : Nat),
      (chain_walk store count hash).length = count
        ∨ next_hash store hash (chain_walk store count hash) = 0
        ∨ store (next_hash store hash (chain_walk store count hash)) = none := by
  intro count
  induction count with
  | zero => intro hash; simp [chain_walk]
  | succ count ih =>
    intro hash
    by_cases hzero : hash = 0
    · simp [chain_walk, hzero, next_hash]
    · cases hget : store hash with
      | none => simp [chain_walk, hzero, hget, next_hash]
      | some found =>
        have hnext : next_hash store hash (hash :: chain_walk store count found.previous)
            = next_hash store found.previous (chain_walk store count found.previous) := by
          cases hrest : chain_walk store count found.previous with
          | nil => simp [next_hash, hget]
          | cons b rest =>
            have hlast : (b :: rest).getLast? = some ((b :: rest).getLast (by simp)) :=
              List.getLast?_eq_getLast _ _
            simp [next_hash, List.getLast?_cons_cons, hlast]
        simp only [chain_walk, hzero, hget, if_false, hnext, List.length_cons]
        rcases ih found.previous with h | h | h
        · exact Or.inl (by omega)
        · exact Or.inr (Or.inl h)
        · exact Or.inr (Or.inr h)

theorem chain_run (env : environment) (hquiet : quiet env) (s : rpc_state)
    (block_text count_text : String) (hash count : Nat)
    (hblock_text : s.request.get "block" = some block_text)
    (hcount_text : s.request.get "count" = some count_text)
    (hblock : env.decode_hex block_text = some hash)
    (hcount : decode_unsigned env count_text = some count) :
    ∃ calls, rpc_handler.chain env s
      = result.ok ()
          (answered (called s calls)
            (ptree.nil.add_child "blocks"
              (text_list ((chain_walk env.block_get count hash).map env.to_string)))) := by
  obtain ⟨calls, hrun⟩ := chain_loop_walk env hquiet count count hash ptree.nil
    (called s [call.transaction false]) (Or.inr (by omega))
  refine ⟨[call.transaction false] ++ calls, ?_⟩
  simp only [rpc_handler.chain, handler_bind_apply, rpc_handler.request_get, hblock_text,
    hcount_text, hblock, hcount, collaborator_quiet env hquiet, hrun, called_called]
  simp [rpc_handler.response, respond, handler.update, answered, called, text_list,
    ptree.nil, ptree.size, ptree.children, ptree.data, List.map_map, Function.comp_def]

theorem put_child_length (children : List (String × ptree)) (key value : String) :
    (ptree.put_child children key value).length ≤ children.length + 1 := by
  induction children with
  | nil => simp [ptree.put_child]
  | cons head rest ih =>
    obtain ⟨k, c⟩ := head
    by_cases hk : k = key
    · simp [ptree.put_child, hk]
    · simp [ptree.put_child, hk]
      omega

theorem put_size (tree : ptree) (key value : String) :
    (tree.put key value).size ≤ tree.size + 1 := by
  by_cases hkey : key = ""
  · simp [ptree.put, hkey, ptree.size, ptree.children]
  · simpa [ptree.put, hkey, ptree.size, ptree.children] using
      put_child_length tree.children key value

theorem frontiers_loop_size (env : environment) (count : Nat) :
    ∀ (range : List (Nat × account_info)) (frontiers : ptree), frontiers.size ≤ count →
      (rpc_handler.frontiers_loop env count range frontiers).size ≤ count := by
  intro range
  induction range with
  | nil => intro frontiers h; simpa [rpc_handler.frontiers_loop] using h
  | cons i rest ih =>
    intro frontiers h
    by_cases hroom : frontiers.size < count
    · simp only [rpc_handler.frontiers_loop, if_pos hroom]
      apply ih
      have := put_size frontiers (env.to_account i.1) (env.to_string i.2.head)
      omega
    · simpa [rpc_handler.frontiers_loop, hroom] using h

theorem frontiers_run (env : environment) (hquiet : quiet env) (s : rpc_state)
    (account_text count_text : String) (start count : Nat)
    (haccount_text : s.request.get "account" = some account_text)
    (hcount_text : s.request.get "count" = some count_text)
    (hstart : env.decode_account account_text = some start)
    (hcount : decode_unsigned env count_text = some count) :
    rpc_handler.frontiers env s
      = result.ok ()
          (answered (called s [call.transaction false, call.latest_begin start])
            (ptree.nil.add_child "frontiers"
              (rpc_handler.frontiers_loop env count (env.latest_range start) ptree.nil))) := by
  simp only [rpc_handler.frontiers, handler_bind_apply, rpc_handler.request_get,
    haccount_text, hcount_text, hstart, hcount, collaborator_quiet env hquiet,
    query_quiet env hquiet, called_called]
  simp [rpc_handler.response, respond, handler.update, answered, called]

theorem payment_begin_loop_found (env : environment) (hquiet : quiet env) (id a : Nat)
    (rest : List Nat) (ha : eligible env id a) :
    ∀ (skipped : List Nat) (s : rpc_state), (∀ x ∈ skipped, passed_over env id x) →
      ∃ s', rpc_handler.payment_begin_loop env id (skipped ++ a :: rest) s = result.ok a s'
        ∧ s'.free_accounts id = rest
        ∧ s'.calls = s.calls ++ skipped.flatMap (examination id) ++ examination id a
        ∧ s'.responses = s.responses ∧ s'.response = s.response := by
  obtain ⟨hnonzero, hfind, hbalance⟩ := ha
  intro skipped
  induction skipped with
  | nil =>
    intro s _
    simp [rpc_handler.payment_begin_loop, handler.update, query_quiet env hquiet, called,
      hfind, hbalance, hnonzero, examination]
  | cons x xs ih =>
    intro s hpassed
    obtain ⟨hxfind, hx⟩ := hpassed x (List.mem_cons_self _ _)
    have hrest : ∀ y ∈ xs, passed_over env id y :=
      fun y hy => hpassed y (List.mem_cons_of_mem _ hy)
    by_cases hxbalance : env.ledger_account_balance x = 0
    · have hxzero : x = 0 := by
        rcases hx with h | h
        · exact absurd hxbalance h
        · exact h
      obtain ⟨s', hrun, h1, h2, h3, h4⟩ := ih
        { s with
          free_accounts := fun w => if w = id then xs ++ a :: rest else s.free_accounts w
          calls := s.calls ++ examination id x } hrest
      refine ⟨s', ?_, h1, ?_, h3, h4⟩
      · subst hxzero
        simpa [rpc_handler.payment_begin_loop, handler.update, query_quiet env hquiet,
          called, hxfind, hxbalance, examination] using hrun
      · simpa [List.flatMap_cons, List.append_assoc] using h2
    · obtain ⟨s', hrun, h1, h2, h3, h4⟩ := ih
        { s with
          free_accounts := fun w => if w = id then xs ++ a :: rest else s.free_accounts w
          calls := s.calls ++ examination id x
          log := s.log ++ [String.intercalate " % "
            ["Skipping account %1% for use as a transaction account since it's balance isn't zero",
             env.to_account x]] } hrest
      refine ⟨s', ?_, h1, ?_, h3, h4⟩
      · simpa [rpc_handler.payment_begin_loop, handler.update, query_quiet env hquiet,
          called, hxfind, hxbalance, examination, boost_format, log_line] using hrun
      · simpa [List.flatMap_cons, List.append_assoc] using h2

theorem payment_begin_loop_derived (env : environment) (hquiet : quiet env) (id : Nat) :
    ∀ (pool : List Nat) (s : rpc_state), (∀ x ∈ pool, passed_over env id x) →
      ∃ s', rpc_handler.payment_begin_loop env id pool s
          = result.ok (env.deterministic_insert id) s'
        ∧ (pool ≠ [] → s'.free_accounts id = [])
        ∧ (pool = [] → s'.free_accounts = s.free_accounts)
        ∧ s'.calls = s.calls ++ pool.flatMap (examination id) ++ [call.deterministic_insert id]
        ∧ s'.responses = s.responses ∧ s'.response = s.response := by
  intro pool
  induction pool with
  | nil =>
    intro s _
    simp [rpc_handler.payment_begin_loop, query_quiet env hquiet, called]
  | cons x xs ih =>
    intro s hpassed
    obtain ⟨hxfind, hx⟩ := hpassed x (List.mem_cons_self _ _)
    have hrest : ∀ y ∈ xs, passed_over env id y :=
      fun y hy => hpassed y (List.mem_cons_of_mem _ hy)
    have hpool : ∀ s1 s' : rpc_state, s1.free_accounts id = xs →
        (xs ≠ [] → s'.free_accounts id = []) → (xs = [] → s'.free_accounts = s1.free_accounts) →
        s'.free_accounts id = [] := by
      intro s1 s' h1 hne hnil
      by_cases hxs : xs = []
      · rw [hnil hxs, h1, hxs]
      · exact hne hxs
    by_cases hxbalance : env.ledger_account_balance x = 0
    · have hxzero : x = 0 := by
        rcases hx with h | h
        · exact absurd hxbalance h
        · exact h
      obtain ⟨s', hrun, h1, h1', h2, h3, h4⟩ := ih
        { s with
          free_accounts := fun w => if w = id then xs else s.free_accounts w
          calls := s.calls ++ examination id x } hrest
      refine ⟨s', ?_, fun _ => hpool _ s' (by simp) h1 h1', by simp, ?_, h3, h4⟩
      · subst hxzero
        simpa [rpc_handler.payment_begin_loop, handler.update, query_quiet env hquiet,
          called, hxfind, hxbalance, examination] using hrun
      · simpa [List.flatMap_cons, List.append_assoc] using h2
    · obtain ⟨s', hrun, h1, h1', h2, h3, h4⟩ := ih
        { s with
          free_accounts := fun w => if w = id then xs else s.free_accounts w
          calls := s.calls ++ examination id x
          log := s.log ++ [String.intercalate " % "
            ["Skipping account %1% for use as a transaction account since it's balance isn't zero",
             env.to_account x]] } hrest
      refine ⟨s', ?_, fun _ => hpool _ s' (by simp) h1 h1', by simp, ?_, h3, h4⟩
      · simpa [rpc_handler.payment_begin_loop, handler.update, query_quiet env hquiet,
          called, hxfind, hxbalance, examination, boost_format, log_line] using hrun
      · simpa [List.flatMap_cons, List.append_assoc] using h2

/-! ## Reasoning about the observers, the loops and the interleaving -/

theorem observer_action_run (env : environment) (s : rpc_state) (this : payment_observer)
    (account_a : Nat)
    (hregistered : s.payment_observers account_a = some this)
    (hbalance : env.raises (call.balance this.account) = none) :
    rpc.observer_action env account_a s
      = if env.balance this.account ≥ this.amount then
          payment_observer.complete env this payment_status.success
            (called s [call.balance this.account])
        else result.ok () (called s [call.balance this.account]) := by
  by_cases hreached : env.balance this.account ≥ this.amount <;>
    simp [rpc.observer_action, handler.read, hregistered, payment_observer.observe, query,
      collaborator, hbalance, hreached, called]

theorem observer_action_idle (env : environment) (s : rpc_state) (account_a : Nat)
    (hfree : s.payment_observers account_a = none) :
    rpc.observer_action env account_a s = result.ok () s := by
  simp [rpc.observer_action, handler.read, hfree]

theorem history_visitor_run (env : environment) (hquiet : quiet env) (hash : Nat)
    (block_a : block) (s : rpc_state) :
    ∃ calls, rpc_handler.history_visitor env hash block_a ptree.nil s
      = result.ok (history_entry env hash block_a.type) (called s calls) := by
  cases htype : block_a.type with
  | send_block destination =>
    refine ⟨[call.ledger_amount hash], ?_⟩
    simp [rpc_handler.history_visitor, htype, query_quiet env hquiet, history_entry, fields,
      ptree.put, ptree.nil, ptree.put_child, ptree.children, ptree.data, ptree.leaf]
  | receive_block source =>
    refine ⟨[call.ledger_account source, call.ledger_amount hash], ?_⟩
    simp [rpc_handler.history_visitor, htype, query_quiet env hquiet, history_entry, fields,
      ptree.put, ptree.nil, ptree.put_child, ptree.children, ptree.data, ptree.leaf,
      called_called]
  | open_block source =>
    by_cases hgenesis : source = env.genesis_account
    · refine ⟨[], ?_⟩
      simp [rpc_handler.history_visitor, htype, hgenesis, history_entry, fields,
        ptree.put, ptree.nil, ptree.put_child, ptree.children, ptree.data, ptree.leaf,
        called_nil]
    · refine ⟨[call.ledger_account source, call.ledger_amount hash], ?_⟩
      simp [rpc_handler.history_visitor, htype, hgenesis, query_quiet env hquiet,
        history_entry, fields, ptree.put, ptree.nil, ptree.put_child, ptree.children,
        ptree.data, ptree.leaf, called_called]
  | change_block =>
    refine ⟨[], ?_⟩
    simp [rpc_handler.history_visitor, htype, history_entry, fields, ptree.nil, called_nil]

theorem history_entry_empty (env : environment) (hash : Nat) (type : block_type) :
    (history_entry env hash type).empty = !reported type := by
  cases type with
  | send_block destination => simp [history_entry, fields, ptree.empty, ptree.children, reported]
  | receive_block source => simp [history_entry, fields, ptree.empty, ptree.children, reported]
  | open_block source =>
    by_cases hgenesis : source = env.genesis_account <;>
      simp [history_entry, hgenesis, fields, ptree.empty, ptree.children, reported]
  | change_block => simp [history_entry, fields, ptree.empty, ptree.children, reported]

theorem find_put_child (key value : String) :
    ∀ children : List (String × ptree),
      ((ptree.put_child children key value).find? (fun kv => kv.1 == key)).map
          (fun kv => kv.2.data) = some value := by
  intro children
  induction children with
  | nil => simp [ptree.put_child, ptree.leaf, ptree.data]
  | cons kv rest ih =>
    obtain ⟨k, c⟩ := kv
    by_cases hk : k = key
    · simp [ptree.put_child, hk, ptree.data]
    · simp [ptree.put_child, hk, List.find?_cons]
      simpa using ih

theorem get_put (tree : ptree) (key value : String) (hkey : key ≠ "") :
    (tree.put key value).get key = some value := by
  have h := find_put_child key value tree.children
  simp only [ptree.get, ptree.get_child, ptree.put, if_neg hkey, ptree.children,
    Option.map_map]
  simpa [Function.comp] using h

theorem history_loop_walk (env : environment) (hquiet : quiet env) :
    ∀ (count hash : Nat) (history : ptree) (s : rpc_state),
      ∃ calls, rpc_handler.history_loop env count hash (env.block_get hash) history s
        = result.ok
            (ptree.mk history.data
              (history.children
                ++ (history_entries env (history_walk env.block_get count hash)).map
                    fun tree => ("", tree)))
            (called s calls) := by
  intro count
  induction count with
  | zero =>
    intro hash history s
    refine ⟨[], ?_⟩
    cases history
    cases hget : env.block_get hash <;>
      simp [rpc_handler.history_loop, history_walk, history_entries, called_nil, ptree.data,
        ptree.children]
  | succ count ih =>
    intro hash history s
    cases hget : env.block_get hash with
    | none =>
      refine ⟨[], ?_⟩
      cases history
      simp [rpc_handler.history_loop, history_walk, hget, history_entries, called_nil,
        ptree.data, ptree.children]
    | some found =>
      obtain ⟨visit_calls, hvisit⟩ := history_visitor_run env hquiet hash found s
      by_cases hreported : reported found.type = true
      · obtain ⟨calls, hrun⟩ := ih found.previous
          (history.push_back ""
            ((history_entry env hash found.type).put "hash" (env.to_string hash)))
          (called s (visit_calls ++ [call.block_get found.previous]))
        have hstep : rpc_handler.history_loop env (count + 1) hash (some found) history s
            = rpc_handler.history_loop env count found.previous
                (env.block_get found.previous)
                (history.push_back ""
                  ((history_entry env hash found.type).put "hash" (env.to_string hash)))
                (called s (visit_calls ++ [call.block_get found.previous])) := by
          simp only [rpc_handler.history_loop, handler_bind_apply, hvisit,
            history_entry_empty, hreported, query_quiet env hquiet, called_called]
          simp
        refine ⟨visit_calls ++ [call.block_get found.previous] ++ calls, ?_⟩
        rw [hstep, hrun]
        simp [ptree.push_back, ptree.children, ptree.data, history_entries, history_walk,
          hget, hreported, called_called]
      · obtain ⟨calls, hrun⟩ := ih found.previous history
          (called s (visit_calls ++ [call.block_get found.previous]))
        have hstep : rpc_handler.history_loop env (count + 1) hash (some found) history s
            = rpc_handler.history_loop env count found.previous
                (env.block_get found.previous) history
                (called s (visit_calls ++ [call.block_get found.previous])) := by
          simp only [rpc_handler.history_loop, handler_bind_apply, hvisit,
            history_entry_empty, hreported, query_quiet env hquiet, called_called]
          simp
        refine ⟨visit_calls ++ [call.block_get found.previous] ++ calls, ?_⟩
        rw [hstep, hrun]
        simp [history_entries, history_walk, hget, hreported, called_called]

theorem history_run (env : environment) (hquiet : quiet env) (s : rpc_state)
    (hash_text count_text : String) (hash count : Nat)
    (hhash_text : s.request.get "hash" = some hash_text)
    (hcount_text : s.request.get "count" = some count_text)
    (hhash : env.decode_hex hash_text = some hash)
    (hcount : decode_unsigned env count_text = some count) :
    ∃ calls, rpc_handler.history env s
      = result.ok ()
          (answered (called s calls)
            (ptree.nil.add_child "history"
              (tree_list (history_entries env (history_walk env.block_get count hash))))) := by
  obtain ⟨calls, hrun⟩ := history_loop_walk env hquiet count hash ptree.nil
    (called s ([call.transaction false] ++ [call.block_get hash]))
  refine ⟨[call.transaction false] ++ [call.block_get hash] ++ calls, ?_⟩
  simp only [rpc_handler.history, handler_bind_apply, rpc_handler.request_get, hhash_text,
    hcount_text, hhash, hcount, collaborator_quiet env hquiet, query_quiet env hquiet,
    called_called, hrun]
  simp [rpc_handler.response, respond, handler.update, answered, called, tree_list,
    ptree.nil, ptree.children, ptree.data]

theorem history_walk_length (store : Nat → Option block) :
    ∀ (count hash : Nat), (history_walk store count hash).length ≤ count := by
  intro count
  induction count with
  | zero => intro hash; simp [history_walk]
  | succ count ih =>
    intro hash
    cases hget : store hash with
    | none => simp [history_walk, hget]
    | some found =>
      have := ih found.previous
      simp [history_walk, hget]
      omega

theorem history_walk_head (store : Nat → Option block) (count hash : Nat) (v : Nat × block)
    (hhead : (history_walk store count hash).head? = some v) : v.1 = hash := by
  cases count with
  | zero => simp [history_walk] at hhead
  | succ count =>
    cases hget : store hash with
    | none => simp [history_walk, hget] at hhead
    | some found =>
      simp [history_walk, hget] at hhead
      rw [← hhead]

theorem history_walk_present (store : Nat → Option block) :
    ∀ (count hash : Nat) (v : Nat × block), v ∈ history_walk store count hash →
      store v.1 = some v.2 := by
  intro count
  induction count with
  | zero => intro hash v hv; simp [history_walk] at hv
  | succ count ih =>
    intro hash v hv
    cases hget : store hash with
    | none => simp [history_walk, hget] at hv
    | some found =>
      simp only [history_walk, hget, List.mem_cons] at hv
      rcases hv with hv | hv
      · subst hv
        exact hget
      · exact ih found.previous v hv

theorem history_walk_linked (store : Nat → Option block) :
    ∀ (count hash : Nat),
      (history_walk store count hash).Chain' (fun a b => a.2.previous = b.1) := by
  intro count
  induction count with
  | zero => intro hash; simp [history_walk]
  | succ count ih =>
    intro hash
    cases hget : store hash with
    | none => simp [history_walk, hget]
    | some found =>
      simp only [history_walk, hget]
      rw [List.chain'_cons']
      refine ⟨?_, ih found.previous⟩
      intro b hb
      exact (history_walk_head store count found.previous b hb).symm

theorem history_walk_maximal (store : Nat → Option block) :
    ∀ (count hash : Nat),
      (history_walk store count hash).length = count
        ∨ store (next_hash store hash ((history_walk store count hash).map Prod.fst)) = none := by
  intro count
  induction count with
  | zero => intro hash; simp [history_walk]
  | succ count ih =>
    intro hash
    cases hget : store hash with
    | none => simp [history_walk, hget, next_hash]
    | some found =>
      have hnext : next_hash store hash
            (hash :: (history_walk store count found.previous).map Prod.fst)
          = next_hash store found.previous
              ((history_walk store count found.previous).map Prod.fst) := by
        cases hrest : (history_walk store count found.previous).map Prod.fst with
        | nil => simp [next_hash, hget]
        | cons b rest =>
          have hlast : (b :: rest).getLast? = some ((b :: rest).getLast (by simp)) :=
            List.getLast?_eq_getLast _ _
          simp [next_hash, List.getLast?_cons_cons, hlast]
      simp only [history_walk, hget, List.length_cons, List.map_cons, hnext]
      rcases ih found.previous with h | h
      · exact Or.inl (by omega)
      · exact Or.inr h

theorem payment_begin_examine_run (env : environment) (id existing : Nat) (rest : List Nat)
    (s : rpc_state) :
    ∃ added,
      (added = [call.wallet_store_find id existing] ∨ added = examination id existing)
        ∧ (rpc_handler.payment_begin_examine env id existing rest s).state.calls
            = s.calls ++ added
        ∧ (rpc_handler.payment_begin_examine env id existing rest s).state.free_accounts
            = (fun w => if w = id then rest else s.free_accounts w)
        ∧ ∀ account s', rpc_handler.payment_begin_examine env id existing rest s
            = result.ok account s' → account = 0 ∨ account = existing := by
  cases hfind : env.raises (call.wallet_store_find id existing) with
  | some e =>
    refine ⟨[call.wallet_store_find id existing], Or.inl rfl, ?_, ?_, ?_⟩ <;>
      simp [rpc_handler.payment_begin_examine, handler.update, query, collaborator, hfind,
        result.state]
  | none =>
    cases hfound : env.wallet_store_find id existing with
    | false =>
      refine ⟨[call.wallet_store_find id existing], Or.inl rfl, ?_, ?_, ?_⟩ <;>
        simp [rpc_handler.payment_begin_examine, handler.update, query, collaborator, hfind,
          hfound, boost_format, handler.raise, result.state]
    | true =>
      cases hbalance : env.raises (call.ledger_account_balance existing) with
      | some e =>
        refine ⟨examination id existing, Or.inr rfl, ?_, ?_, ?_⟩ <;>
          simp [rpc_handler.payment_begin_examine, handler.update, query, collaborator,
            hfind, hfound, hbalance, result.state, examination]
      | none =>
        by_cases hzero : env.ledger_account_balance existing = 0
        · refine ⟨examination id existing, Or.inr rfl, ?_, ?_, ?_⟩ <;>
            simp [rpc_handler.payment_begin_examine, handler.update, query, collaborator,
              hfind, hfound, hbalance, hzero, result.state, examination]
        · refine ⟨examination id existing, Or.inr rfl, ?_, ?_, ?_⟩ <;>
            simp [rpc_handler.payment_begin_examine, handler.update, query, collaborator,
              hfind, hfound, hbalance, hzero, result.state, examination, boost_format,
              log_line]

theorem payment_begin_loop_cons (env : environment) (id existing : Nat) (rest : List Nat)
    (s : rpc_state) :
    rpc_handler.payment_begin_loop env id (existing :: rest) s
      = match rpc_handler.payment_begin_examine env id existing rest s with
        | result.ok account s' =>
          if account = 0 then rpc_handler.payment_begin_loop env id rest s'
          else result.ok account s'
        | result.error e s' => result.error e s' := by
  cases hfind : env.raises (call.wallet_store_find id existing) with
  | some e =>
    simp [rpc_handler.payment_begin_loop, rpc_handler.payment_begin_examine, handler.update,
      query, collaborator, hfind]
  | none =>
    cases hfound : env.wallet_store_find id existing with
    | false =>
      simp [rpc_handler.payment_begin_loop, rpc_handler.payment_begin_examine,
        handler.update, query, collaborator, hfind, hfound, boost_format, handler.raise]
    | true =>
      cases hbalance : env.raises (call.ledger_account_balance existing) with
      | some e =>
        simp [rpc_handler.payment_begin_loop, rpc_handler.payment_begin_examine,
          handler.update, query, collaborator, hfind, hfound, hbalance]
      | none =>
        by_cases hzero : env.ledger_account_balance existing = 0
        · simp [rpc_handler.payment_begin_loop, rpc_handler.payment_begin_examine,
            handler.update, query, collaborator, hfind, hfound, hbalance, hzero]
        · simp [rpc_handler.payment_begin_loop, rpc_handler.payment_begin_examine,
            handler.update, query, collaborator, hfind, hfound, hbalance, hzero,
            boost_format, log_line]

theorem payment_begin_body_empty (env : environment) (id : Nat) (s : rpc_state)
    (hpool : s.free_accounts id = []) :
    rpc_handler.payment_begin_body env id s
      = match env.raises (call.deterministic_insert id) with
        | some e => result.error e (called s [call.deterministic_insert id])
        | none =>
          result.ok (env.deterministic_insert id, true)
            (called s [call.deterministic_insert id]) := by
  cases hraise : env.raises (call.deterministic_insert id) <;>
    simp [rpc_handler.payment_begin_body, handler.read, hpool, query, collaborator, hraise,
      called]

theorem payment_begin_body_cons (env : environment) (id existing : Nat) (rest : List Nat)
    (s : rpc_state) (hpool : s.free_accounts id = existing :: rest) :
    rpc_handler.payment_begin_body env id s
      = match rpc_handler.payment_begin_examine env id existing rest s with
        | result.ok account s' => result.ok (account, false) s'
        | result.error e s' => result.error e s' := by
  cases hexamine : rpc_handler.payment_begin_examine env id existing rest s <;>
    simp [rpc_handler.payment_begin_body, handler.read, hpool, hexamine]

theorem payment_begin_do_while_run (env : environment) (id : Nat) :
    ∀ (pool : List Nat) (s : rpc_state) (fuel : Nat), s.free_accounts id = pool →
      pool.length + 1 ≤ fuel →
      rpc_handler.payment_begin_do_while env id fuel s
          = within_bound (rpc_handler.payment_begin_loop env id pool s)
        ∧ ∃ added,
            (rpc_handler.payment_begin_do_while env id fuel s).state.calls = s.calls ++ added
              ∧ examined_accounts id added <+: pool := by
  intro pool
  induction pool with
  | nil =>
    intro s fuel hpool hfuel
    obtain ⟨fuel, rfl⟩ : ∃ f, fuel = f + 1 := ⟨fuel - 1, by omega⟩
    have hrun : rpc_handler.payment_begin_do_while env id (fuel + 1) s
        = within_bound (rpc_handler.payment_begin_loop env id [] s) := by
      cases hraise : env.raises (call.deterministic_insert id) <;>
        simp [rpc_handler.payment_begin_do_while, payment_begin_body_empty env id s hpool,
          rpc_handler.payment_begin_loop, query, collaborator, hraise, within_bound, called]
    refine ⟨hrun, [call.deterministic_insert id], ?_, ?_⟩
    · rw [hrun]
      cases hraise : env.raises (call.deterministic_insert id) <;>
        simp [rpc_handler.payment_begin_loop, query, collaborator, hraise, within_bound,
          result.state]
    · simp [examined_accounts]
  | cons existing rest ih =>
    intro s fuel hpool hfuel
    obtain ⟨fuel, rfl⟩ : ∃ f, fuel = f + 1 := ⟨fuel - 1, by omega⟩
    have hfuel' : rest.length + 1 ≤ fuel := by
      simp only [List.length_cons] at hfuel
      omega
    obtain ⟨added, hadded, hcalls, hfree, haccount⟩ :=
      payment_begin_examine_run env id existing rest s
    have hexamined : examined_accounts id added = [existing] := by
      rcases hadded with h | h <;> simp [h, examined_accounts, examination]
    cases hexamine : rpc_handler.payment_begin_examine env id existing rest s with
    | error e s1 =>
      have hrun : rpc_handler.payment_begin_do_while env id (fuel + 1) s
          = result.error e s1 := by
        simp [rpc_handler.payment_begin_do_while, payment_begin_body_cons env id existing rest
          s hpool, hexamine]
      refine ⟨?_, added, ?_, ?_⟩
      · rw [hrun, payment_begin_loop_cons, hexamine]
        rfl
      · rw [hrun]
        simpa [hexamine, result.state] using hcalls
      · rw [hexamined]
        simp
    | ok account s1 =>
      have hpool1 : s1.free_accounts id = rest := by
        have := congrFun hfree id
        simpa [hexamine, result.state] using this
      have hcalls1 : s1.calls = s.calls ++ added := by
        simpa [hexamine, result.state] using hcalls
      by_cases hzero : account = 0
      · obtain ⟨hrun1, added1, hcalls', hprefix⟩ := ih s1 fuel hpool1 hfuel'
        have hrun : rpc_handler.payment_begin_do_while env id (fuel + 1) s
            = rpc_handler.payment_begin_do_while env id fuel s1 := by
          simp [rpc_handler.payment_begin_do_while, payment_begin_body_cons env id existing
            rest s hpool, hexamine, hzero]
        refine ⟨?_, added ++ added1, ?_, ?_⟩
        · rw [hrun, hrun1, payment_begin_loop_cons, hexamine]
          simp [hzero]
        · rw [hrun, hcalls', hcalls1, List.append_assoc]
        · have hsplit : examined_accounts id (added ++ added1)
              = existing :: examined_accounts id added1 := by
            simp only [examined_accounts, List.filterMap_append] at hexamined ⊢
            rw [hexamined]
            rfl
          rw [hsplit]
          exact List.prefix_cons_inj existing |>.mpr hprefix
      · have hrun : rpc_handler.payment_begin_do_while env id (fuel + 1) s
            = result.ok (some account) s1 := by
          simp [rpc_handler.payment_begin_do_while, payment_begin_body_cons env id existing
            rest s hpool, hexamine, hzero]
        refine ⟨?_, added, ?_, ?_⟩
        · rw [hrun, payment_begin_loop_cons, hexamine]
          simp [hzero, within_bound]
        · rw [hrun]
          exact hcalls1
        · rw [hexamined]
          simp

theorem same_payment_refl (s : rpc_state) : same_payment s s :=
  ⟨rfl, rfl, rfl, rfl⟩

theorem complete_effect (env : environment) (this : payment_observer)
    (status : payment_status) (s : rpc_state) :
    (payment_observer.complete env this status s).state = s
      ∨ completed_by this s (payment_observer.complete env this status s).state := by
  cases hdone : s.completed this.id with
  | true =>
    left
    rw [complete_again env this status s hdone]
    rfl
  | false =>
    right
    rw [complete_first env this status s hdone]
    exact ⟨hdone, rfl, ⟨_, rfl⟩, rfl, rfl⟩

theorem observer_action_effect (env : environment) (account_a : Nat) (s : rpc_state) :
    same_payment s (rpc.observer_action env account_a s).state
      ∨ ∃ o, s.payment_observers account_a = some o
          ∧ completed_by o s (rpc.observer_action env account_a s).state := by
  cases hregistered : s.payment_observers account_a with
  | none =>
    left
    rw [observer_action_idle env s account_a hregistered]
    exact same_payment_refl s
  | some o =>
    cases hbalance : env.raises (call.balance o.account) with
    | some e =>
      left
      simp [rpc.observer_action, handler.read, hregistered, payment_observer.observe, query,
        collaborator, hbalance, result.state, same_payment]
    | none =>
      rw [observer_action_run env s o account_a hregistered hbalance]
      by_cases hreached : env.balance o.account ≥ o.amount
      · rw [if_pos hreached]
        rcases complete_effect env o payment_status.success
            (called s [call.balance o.account]) with h | h
        · left
          rw [h]
          exact ⟨rfl, rfl, rfl, rfl⟩
        · right
          exact ⟨o, rfl, h⟩
      · left
        rw [if_neg hreached]
        exact ⟨rfl, rfl, rfl, rfl⟩

theorem payment_wait_schedule_effect (env : environment)
    (response_a account amount timeout : Nat) (s : rpc_state) :
    allocated s
        (rpc_handler.payment_wait_schedule env response_a account amount timeout s).state
      ∧ ∀ observer s',
          rpc_handler.payment_wait_schedule env response_a account amount timeout s
            = result.ok observer s' →
          observer = { id := s.next_observer, account := account, amount := amount,
                       response := response_a } := by
  cases hraise : env.raises (call.alarm_add timeout s.next_observer) <;>
    simp [rpc_handler.payment_wait_schedule, payment_observer.make, payment_observer.start,
      collaborator, hraise, result.state, allocated]

theorem payment_wait_insert_effect (observer : payment_observer) (s : rpc_state) :
    inserted observer s (rpc_handler.payment_wait_insert observer s).state := by
  cases hfree : (s.payment_observers observer.account).isNone <;>
    simp [rpc_handler.payment_wait_insert, handler.read, handler.update, assertion, hfree,
      result.state, inserted]

theorem payment_wait_steps (env : environment) (s : rpc_state)
    (account_text amount_text timeout_text : String) (account amount timeout : Nat)
    (haccount_text : s.request.get "account" = some account_text)
    (hamount_text : s.request.get "amount" = some amount_text)
    (htimeout_text : s.request.get "timeout" = some timeout_text)
    (haccount : env.decode_account account_text = some account)
    (hamount : env.decode_dec amount_text = some amount)
    (htimeout : decode_unsigned env timeout_text = some timeout) :
    rpc_handler.payment_wait env s
      = match rpc_handler.payment_wait_schedule env s.response account amount timeout s with
        | result.ok observer s1 =>
          rpc.observer_action env account
            (rpc_handler.payment_wait_insert observer s1).state
        | result.error e s1 => result.error e s1 := by
  cases hraise : env.raises (call.alarm_add timeout s.next_observer) <;>
    cases hfree : (s.payment_observers account).isNone <;>
    simp [rpc_handler.payment_wait, rpc_handler.request_get, haccount_text, hamount_text,
      htimeout_text, haccount, hamount, htimeout, handler.read, handler.update,
      rpc_handler.payment_wait_schedule, rpc_handler.payment_wait_insert,
      payment_observer.make, payment_observer.start, collaborator, hraise, assertion, hfree,
      result.state]

theorem payment_sound_same (s s' : rpc_state) (observers : List payment_observer)
    (hsame : same_payment s s') (h : payment_sound s observers) :
    payment_sound s' observers := by
  obtain ⟨h1, h2, h3, h4⟩ := hsame
  unfold payment_sound at *
  rw [h1, h2, h3, h4]
  exact h

theorem payment_sound_completed (s s' : rpc_state) (observers : List payment_observer)
    (o : payment_observer) (ho : o ∈ observers) (hc : completed_by o s s')
    (h : payment_sound s observers) : payment_sound s' observers := by
  obtain ⟨hfresh, hflags, ⟨tree, hresponses⟩, hregistry, hnext⟩ := hc
  obtain ⟨hA, hB, hC, hD, hE⟩ := h
  refine ⟨?_, hB, ?_, ?_, ?_⟩
  · intro x hx
    rw [hnext]
    exact hA x hx
  · intro a x hx
    rw [hregistry] at hx
    by_cases ha : a = o.account
    · simp [ha] at hx
    · simp only [if_neg ha] at hx
      exact hC a x hx
  · intro r hr
    rw [hresponses, List.mem_append, List.mem_singleton] at hr
    rcases hr with hr | hr
    · obtain ⟨x, hx, hxr, hxc⟩ := hD r hr
      refine ⟨x, hx, hxr, ?_⟩
      rw [hflags]
      by_cases hi : x.id = o.id <;> simp [hi, hxc]
    · refine ⟨o, ho, by rw [hr], ?_⟩
      rw [hflags]
      simp
  · rw [hresponses, List.map_append, List.nodup_append]
    refine ⟨hE, by simp, ?_⟩
    intro r hr1 hr2
    simp only [List.map_cons, List.map_nil, List.mem_singleton] at hr2
    obtain ⟨p, hp, hpr⟩ := List.mem_map.mp hr1
    obtain ⟨x, hx, hxr, hxc⟩ := hD p hp
    have hsame : x = o := hB x hx o ho (Or.inr (Or.inl (hxr.trans (hpr.trans hr2))))
    rw [hsame, hfresh] at hxc
    cases hxc

theorem payment_sound_allocated (s s' : rpc_state) (observers : List payment_observer)
    (halloc : allocated s s') (h : payment_sound s observers) :
    payment_sound s' observers := by
  obtain ⟨hnext, hflags, hregistry, hresponses⟩ := halloc
  obtain ⟨hA, hB, hC, hD, hE⟩ := h
  refine ⟨?_, hB, ?_, ?_, ?_⟩
  · intro x hx
    have := hA x hx
    omega
  · intro a x hx
    rw [hregistry] at hx
    exact hC a x hx
  · intro r hr
    rw [hresponses] at hr
    obtain ⟨x, hx, hxr, hxc⟩ := hD r hr
    refine ⟨x, hx, hxr, ?_⟩
    have hne : x.id ≠ s.next_observer := by
      have := hA x hx
      omega
    rw [hflags]
    simp [hne, hxc]
  · rw [hresponses]
    exact hE

theorem payment_sound_scheduled (s s' : rpc_state) (observers : List payment_observer)
    (o : payment_observer) (halloc : allocated s s') (hid : o.id = s.next_observer)
    (hfresh : ∀ x ∈ observers, x.account ≠ o.account ∧ x.response ≠ o.response)
    (h : payment_sound s observers) : payment_sound s' (observers ++ [o]) := by
  obtain ⟨hA', hB', hC', hD', hE'⟩ := payment_sound_allocated s s' observers halloc h
  obtain ⟨hA, -, -, -, -⟩ := h
  have hdistinct : ∀ x ∈ observers,
      ¬ (x.id = o.id ∨ x.response = o.response ∨ x.account = o.account) := by
    intro x hx hsame
    have hlt := hA x hx
    rcases hsame with h1 | h1 | h1
    · omega
    · exact (hfresh x hx).2 h1
    · exact (hfresh x hx).1 h1
  refine ⟨?_, ?_, ?_, ?_, hE'⟩
  · intro x hx
    rw [List.mem_append, List.mem_singleton] at hx
    rcases hx with hx | hx
    · exact hA' x hx
    · rw [hx, hid, halloc.1]
      omega
  · intro a ha b hb hsame
    rw [List.mem_append, List.mem_singleton] at ha hb
    rcases ha with ha | ha <;> rcases hb with hb | hb
    · exact hB' a ha b hb hsame
    · rw [hb] at hsame
      exact absurd hsame (hdistinct a ha)
    · rw [ha] at hsame
      refine absurd ?_ (hdistinct b hb)
      rcases hsame with h1 | h1 | h1
      · exact Or.inl h1.symm
      · exact Or.inr (Or.inl h1.symm)
      · exact Or.inr (Or.inr h1.symm)
    · rw [ha, hb]
  · intro a x hx
    obtain ⟨hmem, hacc⟩ := hC' a x hx
    exact ⟨List.mem_append_left _ hmem, hacc⟩
  · intro r hr
    obtain ⟨x, hx, hxr, hxc⟩ := hD' r hr
    exact ⟨x, List.mem_append_left _ hx, hxr, hxc⟩

theorem payment_sound_inserted (s s' : rpc_state) (observers : List payment_observer)
    (o : payment_observer) (ho : o ∈ observers) (hins : inserted o s s')
    (h : payment_sound s observers) : payment_sound s' observers := by
  obtain ⟨hregistry, hflags, hnext, hresponses⟩ := hins
  obtain ⟨hA, hB, hC, hD, hE⟩ := h
  refine ⟨?_, hB, ?_, ?_, ?_⟩
  · intro x hx
    rw [hnext]
    exact hA x hx
  · intro a x hx
    rw [hregistry] at hx
    by_cases ha : a = o.account
    · simp only [if_pos ha, Option.some.injEq] at hx
      rw [← hx]
      exact ⟨ho, ha.symm⟩
    · simp only [if_neg ha] at hx
      exact hC a x hx
  · intro r hr
    rw [hresponses] at hr
    rw [hflags]
    exact hD r hr
  · rw [hresponses]
    exact hE

theorem payment_orderly_same (s s' : rpc_state) (observers : List payment_observer)
    (to_insert : List Nat) (hsame : same_payment s s')
    (h : payment_orderly s observers to_insert) : payment_orderly s' observers to_insert := by
  obtain ⟨h1, h2, h3, h4⟩ := hsame
  unfold payment_orderly at *
  rw [h1, h2, h3]
  exact h

theorem payment_orderly_completed (s s' : rpc_state) (observers : List payment_observer)
    (to_insert : List Nat) (o : payment_observer) (ho : o ∈ observers)
    (hin : o.id ∉ to_insert) (hc : completed_by o s s') (hsound : payment_sound s observers)
    (h : payment_orderly s observers to_insert) :
    payment_orderly s' observers to_insert := by
  obtain ⟨hfresh, hflags, -, hregistry, hnext⟩ := hc
  obtain ⟨hA, hB, hC, -, -⟩ := hsound
  obtain ⟨hF, hG, hH, hI⟩ := h
  refine ⟨?_, hG, ?_, ?_⟩
  · intro id hid
    rw [hnext]
    exact hF id hid
  · intro a x hx
    rw [hregistry] at hx
    by_cases ha : a = o.account
    · simp [ha] at hx
    · simp only [if_neg ha] at hx
      obtain ⟨hxin, hxc⟩ := hH a x hx
      refine ⟨hxin, ?_⟩
      have hne : x.id ≠ o.id := by
        intro hsame
        have hxo : x = o := hB x (hC a x hx).1 o ho (Or.inl hsame)
        rw [hxo] at hx
        exact ha (hC a o hx).2.symm
      rw [hflags]
      simp [hne, hxc]
  · intro x hx hxin
    obtain ⟨hxc, hxr⟩ := hI x hx hxin
    have hne : x.id ≠ o.id := by
      intro hsame
      rw [hsame] at hxin
      exact hin hxin
    rw [hflags, hregistry]
    constructor
    · simp [hne, hxc]
    · by_cases ha : x.account = o.account
      · simp [ha]
      · simp [ha, hxr]

theorem payment_orderly_allocated (s s' : rpc_state) (observers : List payment_observer)
    (to_insert : List Nat) (halloc : allocated s s') (hsound : payment_sound s observers)
    (h : payment_orderly s observers to_insert) :
    payment_orderly s' observers to_insert := by
  obtain ⟨hnext, hflags, hregistry, -⟩ := halloc
  obtain ⟨hA, hB, hC, -, -⟩ := hsound
  obtain ⟨hF, hG, hH, hI⟩ := h
  refine ⟨?_, hG, ?_, ?_⟩
  · intro id hid
    have := hF id hid
    omega
  · intro a x hx
    rw [hregistry] at hx
    obtain ⟨hxin, hxc⟩ := hH a x hx
    have hne : x.id ≠ s.next_observer := by
      have := hA x (hC a x hx).1
      omega
    refine ⟨hxin, ?_⟩
    rw [hflags]
    simp [hne, hxc]
  · intro x hx hxin
    obtain ⟨hxc, hxr⟩ := hI x hx hxin
    have hne : x.id ≠ s.next_observer := by
      have := hA x hx
      omega
    rw [hflags, hregistry]
    exact ⟨by simp [hne, hxc], hxr⟩

theorem payment_orderly_scheduled (s s' : rpc_state) (observers : List payment_observer)
    (to_insert : List Nat) (o : payment_observer) (halloc : allocated s s')
    (hid : o.id = s.next_observer)
    (hfresh : ∀ x ∈ observers, x.account ≠ o.account ∧ x.response ≠ o.response)
    (hsound : payment_sound s observers) (h : payment_orderly s observers to_insert) :
    payment_orderly s' (observers ++ [o]) (to_insert ++ [o.id]) := by
  obtain ⟨hF', hG', hH', hI'⟩ :=
    payment_orderly_allocated s s' observers to_insert halloc hsound h
  obtain ⟨hnext, hflags, hregistry, -⟩ := halloc
  obtain ⟨hA, hB, hC, -, -⟩ := hsound
  obtain ⟨hF, hG, hH, hI⟩ := h
  have hnew : o.id ∉ to_insert := by
    intro hin
    have := hF o.id hin
    omega
  refine ⟨?_, ?_, ?_, ?_⟩
  · intro id hin
    rw [List.mem_append, List.mem_singleton] at hin
    rcases hin with hin | hin
    · exact hF' id hin
    · rw [hin, hid, hnext]
      omega
  · rw [List.nodup_append]
    refine ⟨hG, by simp, ?_⟩
    intro id h1 h2
    rw [List.mem_singleton] at h2
    rw [h2] at h1
    exact hnew h1
  · intro a x hx
    obtain ⟨hxin, hxc⟩ := hH' a x hx
    refine ⟨?_, hxc⟩
    rw [List.mem_append, List.mem_singleton]
    rintro (hin | hin)
    · exact hxin hin
    · rw [hregistry] at hx
      have := hA x (hC a x hx).1
      omega
  · intro x hx hxin
    rw [List.mem_append, List.mem_singleton] at hx
    rcases hx with hx | hx
    · have hne : x.id ≠ o.id := by
        have := hA x hx
        omega
      rw [List.mem_append, List.mem_singleton] at hxin
      rcases hxin with hxin | hxin
      · exact hI' x hx hxin
      · exact absurd hxin hne
    · rw [hx, hflags, hregistry]
      refine ⟨by simp [hid], ?_⟩
      cases hreg : s.payment_observers o.account with
      | none => rfl
      | some y =>
        obtain ⟨hy, hyacc⟩ := hC o.account y hreg
        exact absurd hyacc (hfresh y hy).1

theorem payment_orderly_inserted (s s' : rpc_state) (observers : List payment_observer)
    (to_insert : List Nat) (o : payment_observer) (ho : o ∈ observers)
    (hin : o.id ∈ to_insert) (hins : inserted o s s') (hsound : payment_sound s observers)
    (h : payment_orderly s observers to_insert) :
    payment_orderly s' observers (to_insert.erase o.id) := by
  obtain ⟨hregistry, hflags, hnext, -⟩ := hins
  obtain ⟨hA, hB, hC, -, -⟩ := hsound
  obtain ⟨hF, hG, hH, hI⟩ := h
  refine ⟨?_, hG.erase _, ?_, ?_⟩
  · intro id hid
    rw [hnext]
    exact hF id (List.mem_of_mem_erase hid)
  · intro a x hx
    rw [hregistry] at hx
    rw [hflags]
    by_cases ha : a = o.account
    · simp only [if_pos ha, Option.some.injEq] at hx
      rw [← hx]
      refine ⟨?_, (hI o ho hin).1⟩
      rw [hG.mem_erase_iff]
      exact fun hcontra => hcontra.1 rfl
    · simp only [if_neg ha] at hx
      obtain ⟨hxin, hxc⟩ := hH a x hx
      exact ⟨fun hcontra => hxin (List.mem_of_mem_erase hcontra), hxc⟩
  · intro x hx hxin
    rw [hG.mem_erase_iff] at hxin
    obtain ⟨hxc, hxr⟩ := hI x hx hxin.2
    rw [hflags, hregistry]
    refine ⟨hxc, ?_⟩
    have hne : x.account ≠ o.account := by
      intro hsame
      have hxo : x = o := hB x hx o ho (Or.inr (Or.inr hsame))
      rw [hxo] at hxin
      exact hxin.1 rfl
    simp [hne, hxr]

theorem payment_system_find (system : payment_system) (id : Nat) (o : payment_observer)
    (h : system.find id = some o) : o ∈ system.observers ∧ o.id = id := by
  unfold payment_system.find at h
  exact ⟨List.mem_of_find?_eq_some h, by simpa using List.find?_some h⟩

theorem payment_sound_observer_action (env : environment) (account_a : Nat) (s : rpc_state)
    (observers : List payment_observer) (h : payment_sound s observers) :
    payment_sound (rpc.observer_action env account_a s).state observers := by
  rcases observer_action_effect env account_a s with hsame | ⟨o, hreg, hc⟩
  · exact payment_sound_same _ _ _ hsame h
  · exact payment_sound_completed _ _ _ o (h.2.2.1 account_a o hreg).1 hc h

theorem payment_orderly_observer_action (env : environment) (account_a : Nat)
    (s : rpc_state) (observers : List payment_observer) (to_insert : List Nat)
    (hsound : payment_sound s observers) (h : payment_orderly s observers to_insert) :
    payment_orderly (rpc.observer_action env account_a s).state observers to_insert := by
  rcases observer_action_effect env account_a s with hsame | ⟨o, hreg, hc⟩
  · exact payment_orderly_same _ _ _ _ hsame h
  · exact payment_orderly_completed _ _ _ _ o (hsound.2.2.1 account_a o hreg).1
      (h.2.2.1 account_a o hreg).1 hc hsound h

theorem payment_sound_complete (env : environment) (o : payment_observer)
    (status : payment_status) (s : rpc_state) (observers : List payment_observer)
    (ho : o ∈ observers) (h : payment_sound s observers) :
    payment_sound (payment_observer.complete env o status s).state observers := by
  rcases complete_effect env o status s with hsame | hc
  · rw [hsame]
    exact h
  · exact payment_sound_completed _ _ _ o ho hc h

theorem payment_orderly_complete (env : environment) (o : payment_observer)
    (status : payment_status) (s : rpc_state) (observers : List payment_observer)
    (to_insert : List Nat) (ho : o ∈ observers) (hin : o.id ∉ to_insert)
    (hsound : payment_sound s observers) (h : payment_orderly s observers to_insert) :
    payment_orderly (payment_observer.complete env o status s).state observers to_insert := by
  rcases complete_effect env o status s with hsame | hc
  · rw [hsame]
    exact h
  · exact payment_orderly_completed _ _ _ _ o ho hin hc hsound h

theorem payment_step_sound (env : environment) (system next : payment_system)
    (taken : payment_step) (hstep : system.step env taken = some next)
    (h : payment_sound system.state system.observers) :
    payment_sound next.state next.observers := by
  cases taken with
  | schedule response account amount timeout =>
    simp only [payment_system.step] at hstep
    by_cases hany : system.observers.any
        (fun o => o.account == account || o.response == response) = true
    · simp [hany] at hstep
    · rw [if_neg hany] at hstep
      obtain ⟨halloc, hobserver⟩ := payment_wait_schedule_effect env response account amount
        timeout system.state
      cases hsched : rpc_handler.payment_wait_schedule env response account amount timeout
          system.state with
      | ok observer s1 =>
        rw [hsched] at halloc
        simp only [hsched, Option.some.injEq] at hstep
        subst hstep
        have hobs := hobserver observer s1 hsched
        refine payment_sound_scheduled system.state s1 system.observers observer halloc
          (by rw [hobs]) ?_ h
        intro x hx
        simp only [List.any_eq_true, not_exists, not_and, Bool.or_eq_true, beq_iff_eq,
          not_or] at hany
        rw [hobs]
        exact hany x hx
      | error e s1 =>
        rw [hsched] at halloc
        simp only [hsched, Option.some.injEq] at hstep
        subst hstep
        exact payment_sound_allocated system.state s1 system.observers halloc h
  | insert id =>
    simp only [payment_system.step] at hstep
    by_cases hmem : id ∈ system.to_insert
    · rw [if_pos hmem] at hstep
      cases hfind : system.find id with
      | none => simp [hfind] at hstep
      | some o =>
        simp only [hfind, Option.map_some', Option.some.injEq] at hstep
        subst hstep
        exact payment_sound_inserted _ _ _ o (payment_system_find system id o hfind).1
          (payment_wait_insert_effect o system.state) h
    · simp [hmem] at hstep
  | nudge id =>
    simp only [payment_system.step] at hstep
    by_cases hmem : id ∈ system.to_nudge
    · rw [if_pos hmem] at hstep
      cases hfind : system.find id with
      | none => simp [hfind] at hstep
      | some o =>
        simp only [hfind, Option.map_some', Option.some.injEq] at hstep
        subst hstep
        exact payment_sound_observer_action env o.account system.state system.observers h
    · simp [hmem] at hstep
  | timer id =>
    simp only [payment_system.step] at hstep
    by_cases hmem : id ∈ system.timers
    · rw [if_pos hmem] at hstep
      cases hfind : system.find id with
      | none => simp [hfind] at hstep
      | some o =>
        simp only [hfind, Option.map_some', Option.some.injEq] at hstep
        subst hstep
        exact payment_sound_complete env o payment_status.nothing system.state
          system.observers (payment_system_find system id o hfind).1 h
    · simp [hmem] at hstep
  | block_observed account =>
    simp only [payment_system.step, Option.some.injEq] at hstep
    subst hstep
    exact payment_sound_observer_action env account system.state system.observers h

theorem payment_step_orderly (env : environment) (system next : payment_system)
    (taken : payment_step) (hstep : system.step env taken = some next)
    (horderly : system.orderly taken = true)
    (hsound : payment_sound system.state system.observers)
    (h : payment_orderly system.state system.observers system.to_insert) :
    payment_orderly next.state next.observers next.to_insert := by
  cases taken with
  | schedule response account amount timeout =>
    simp only [payment_system.step] at hstep
    by_cases hany : system.observers.any
        (fun o => o.account == account || o.response == response) = true
    · simp [hany] at hstep
    · rw [if_neg hany] at hstep
      obtain ⟨halloc, hobserver⟩ := payment_wait_schedule_effect env response account amount
        timeout system.state
      cases hsched : rpc_handler.payment_wait_schedule env response account amount timeout
          system.state with
      | ok observer s1 =>
        rw [hsched] at halloc
        simp only [hsched, Option.some.injEq] at hstep
        subst hstep
        have hobs := hobserver observer s1 hsched
        refine payment_orderly_scheduled system.state s1 system.observers system.to_insert
          observer halloc (by rw [hobs]) ?_ hsound h
        intro x hx
        simp only [List.any_eq_true, not_exists, not_and, Bool.or_eq_true, beq_iff_eq,
          not_or] at hany
        rw [hobs]
        exact hany x hx
      | error e s1 =>
        rw [hsched] at halloc
        simp only [hsched, Option.some.injEq] at hstep
        subst hstep
        exact payment_orderly_allocated system.state s1 system.observers system.to_insert
          halloc hsound h
  | insert id =>
    simp only [payment_system.step] at hstep
    by_cases hmem : id ∈ system.to_insert
    · rw [if_pos hmem] at hstep
      cases hfind : system.find id with
      | none => simp [hfind] at hstep
      | some o =>
        simp only [hfind, Option.map_some', Option.some.injEq] at hstep
        subst hstep
        obtain ⟨ho, hid⟩ := payment_system_find system id o hfind
        subst hid
        exact payment_orderly_inserted _ _ _ _ o ho hmem
          (payment_wait_insert_effect o system.state) hsound h
    · simp [hmem] at hstep
  | nudge id =>
    simp only [payment_system.step] at hstep
    by_cases hmem : id ∈ system.to_nudge
    · rw [if_pos hmem] at hstep
      cases hfind : system.find id with
      | none => simp [hfind] at hstep
      | some o =>
        simp only [hfind, Option.map_some', Option.some.injEq] at hstep
        subst hstep
        exact payment_orderly_observer_action env o.account system.state system.observers
          system.to_insert hsound h
    · simp [hmem] at hstep
  | timer id =>
    simp only [payment_system.step] at hstep
    have hlater : id ∉ system.to_insert := by
      simpa [payment_system.orderly] using horderly
    by_cases hmem : id ∈ system.timers
    · rw [if_pos hmem] at hstep
      cases hfind : system.find id with
      | none => simp [hfind] at hstep
      | some o =>
        simp only [hfind, Option.map_some', Option.some.injEq] at hstep
        subst hstep
        obtain ⟨ho, hid⟩ := payment_system_find system id o hfind
        subst hid
        exact payment_orderly_complete env o payment_status.nothing system.state
          system.observers system.to_insert ho hlater hsound h
    · simp [hmem] at hstep
  | block_observed account =>
    simp only [payment_system.step, Option.some.injEq] at hstep
    subst hstep
    exact payment_orderly_observer_action env account system.state system.observers
      system.to_insert hsound h

theorem payment_run_sound (env : environment) :
    ∀ (steps : List payment_step) (system final : payment_system),
      system.run env steps = some final →
      payment_sound system.state system.observers →
      payment_sound final.state final.observers := by
  intro steps
  induction steps with
  | nil =>
    intro system final hrun h
    simp only [payment_system.run, Option.some.injEq] at hrun
    rw [← hrun]
    exact h
  | cons first rest ih =>
    intro system final hrun h
    simp only [payment_system.run] at hrun
    cases hstep : system.step env first with
    | none => simp [hstep] at hrun
    | some next =>
      simp only [hstep, Option.some_bind] at hrun
      exact ih next final hrun (payment_step_sound env system next first hstep h)

theorem payment_orderly_run_run (env : environment) :
    ∀ (steps : List payment_step) (system final : payment_system),
      system.orderly_run env steps = some final → system.run env steps = some final := by
  intro steps
  induction steps with
  | nil =>
    intro system final hrun
    simpa [payment_system.orderly_run, payment_system.run] using hrun
  | cons first rest ih =>
    intro system final hrun
    simp only [payment_system.orderly_run] at hrun
    by_cases horderly : system.orderly first = true
    · rw [if_pos horderly] at hrun
      cases hstep : system.step env first with
      | none => simp [hstep] at hrun
      | some next =>
        simp only [hstep, Option.some_bind] at hrun
        simp only [payment_system.run, hstep, Option.some_bind]
        exact ih next final hrun
    · simp [horderly] at hrun

theorem payment_orderly_run_sound (env : environment) :
    ∀ (steps : List payment_step) (system final : payment_system),
      system.orderly_run env steps = some final →
      payment_sound system.state system.observers →
      payment_orderly system.state system.observers system.to_insert →
      payment_orderly final.state final.observers final.to_insert := by
  intro steps
  induction steps with
  | nil =>
    intro system final hrun _ h
    simp only [payment_system.orderly_run, Option.some.injEq] at hrun
    rw [← hrun]
    exact h
  | cons first rest ih =>
    intro system final hrun hsound h
    simp only [payment_system.orderly_run] at hrun
    by_cases horderly : system.orderly first = true
    · rw [if_pos horderly] at hrun
      cases hstep : system.step env first with
      | none => simp [hstep] at hrun
      | some next =>
        simp only [hstep, Option.some_bind] at hrun
        exact ih next final hrun (payment_step_sound env system next first hstep hsound)
          (payment_step_orderly env system next first hstep horderly hsound h)
    · simp [horderly] at hrun

theorem payment_sound_empty :
    payment_sound payment_system.empty.state payment_system.empty.observers := by
  simp [payment_sound, payment_system.empty]

theorem payment_orderly_empty :
    payment_orderly payment_system.empty.state payment_system.empty.observers
      payment_system.empty.to_insert := by
  simp [payment_orderly, payment_system.empty]

theorem nodup_filter_le_one (responses : List (Nat × ptree)) (callback : Nat)
    (h : (responses.map Prod.fst).Nodup) :
    (responses.filter fun r => r.1 == callback).length ≤ 1 := by
  induction responses with
  | nil => simp
  | cons r rest ih =>
    simp only [List.map_cons, List.nodup_cons] at h
    by_cases hr : r.1 = callback
    · have hnone : rest.filter (fun r => r.1 == callback) = [] := by
        rw [List.filter_eq_nil_iff]
        intro x hx hxc
        apply h.1
        rw [hr, List.mem_map]
        exact ⟨x, hx, by simpa using hxc⟩
      simp [List.filter_cons, hr, hnone]
    · simpa [List.filter_cons, hr] using ih h.2

/-! ## Properties of the dispatcher, the handlers and the observers -/

set_option maxRecDepth 100000

/-- C1, as amended. For each of the fourteen actions whose handler tests the control flag
(`control_gated_actions`) and every request for it, when `config.enable_control` is false the
request is answered with the single response `error: RPC control is disabled` and no
collaborator is called. The handlers of `bootstrap` and `process` do not read the flag: they
are the same function of the state for both of its values. -/
theorem control_disabled_refused (env : environment) (s : rpc_state) (tree : ptree)
    (action : String)
    (hcontrol : env.config.enable_control = false)
    (hbody : env.read_json s.body = some tree)
    (haction : tree.get "action" = some action)
    (hgated : action ∈ control_gated_actions) :
    (rpc_handler.process_request env s).state.responses
        = s.responses ++ [(s.response, error_tree "RPC control is disabled")]
      ∧ (rpc_handler.process_request env s).state.calls = s.calls
      ∧ (∀ flag : Bool,
          rpc_handler.bootstrap { env with config := { env.config with enable_control := flag } }
            = rpc_handler.bootstrap env)
      ∧ (∀ flag : Bool,
          rpc_handler.process { env with config := { env.config with enable_control := flag } }
            = rpc_handler.process env) := by
  have hrefused : (rpc_handler.process_request env s).state.responses
        = s.responses ++ [(s.response, error_tree "RPC control is disabled")]
      ∧ (rpc_handler.process_request env s).state.calls = s.calls := by
    simp only [control_gated_actions, List.mem_cons, List.mem_singleton, List.not_mem_nil,
      or_false] at hgated
    rcases hgated with h | h | h | h | h | h | h | h | h | h | h | h | h | h <;> subst h <;>
      cases hlog : env.log_rpc <;>
      simp [rpc_handler.process_request, rpc_handler.process_request_try, handler.read,
        handler.update, handler.raise, hbody, rpc_handler.request_get, haction,
        rpc_handler.route, rpc_handler.invoke, rpc_handler.scrub_password, log_line, hlog,
        hcontrol, rpc_handler.response_error, error_response, respond, result.state,
        rpc_handler.account_create, rpc_handler.account_move,
        rpc_handler.account_representative_set, rpc_handler.keepalive,
        rpc_handler.password_change, rpc_handler.search_pending, rpc_handler.send,
        rpc_handler.stop, rpc_handler.wallet_add, rpc_handler.wallet_create,
        rpc_handler.wallet_destroy, rpc_handler.wallet_representative_set,
        rpc_handler.work_generate, rpc_handler.work_cancel]
  exact ⟨hrefused.1, hrefused.2, fun _ => rfl, fun _ => rfl⟩

/-- C1, witness: a `stop` request with control disabled. -/
theorem control_disabled_refused_witness :
    demo.env.config.enable_control = false
      ∧ (rpc_handler.process_request demo.env (demo.start demo.request_stop)).state.responses
          = (demo.start demo.request_stop).responses
            ++ [((demo.start demo.request_stop).response, error_tree "RPC control is disabled")]
      ∧ (rpc_handler.process_request demo.env (demo.start demo.request_stop)).state.calls
          = (demo.start demo.request_stop).calls :=
  ⟨rfl,
   (control_disabled_refused demo.env (demo.start demo.request_stop)
      (demo.object demo.request_stop) "stop" rfl rfl rfl (by decide)).1,
   (control_disabled_refused demo.env (demo.start demo.request_stop)
      (demo.object demo.request_stop) "stop" rfl rfl rfl (by decide)).2.1⟩

/-- C1, counterexample. With control disabled a `bootstrap` request starts a bootstrap and is
answered with `success`, and a `process` request hands the block to the node and is answered
with an empty tree: neither is refused, both call collaborators. -/
theorem bootstrap_and_process_not_gated :
    demo.env.config.enable_control = false
      ∧ (rpc_handler.process_request demo.env (demo.start demo.request_bootstrap)).state.responses
          = [(0, ptree.nil.put "success" "")]
      ∧ (rpc_handler.process_request demo.env (demo.start demo.request_bootstrap)).state.calls
          = [call.bootstrap 1 7075]
      ∧ (rpc_handler.process_request demo.env (demo.start demo.request_process)).state.responses
          = [(0, ptree.nil)]
      ∧ (rpc_handler.process_request demo.env (demo.start demo.request_process)).state.calls
          = [call.work_validate demo.send_block,
             call.process_receive_republish demo.send_block]
      ∧ ptree.nil.put "success" "" ≠ error_tree "RPC control is disabled"
      ∧ ptree.nil ≠ error_tree "RPC control is disabled" := by
  refine ⟨rfl, rfl, rfl, rfl, rfl, ?_, ?_⟩
  · exact put_ne_error_tree "success" "" _ (by decide) (by decide)
  · simp [error_tree, ptree.put, ptree.nil, ptree.put_child, ptree.children, ptree.data,
      ptree.leaf]

/-- C2, the code at two failing inputs. A `pending` request whose count does not decode, and
an `account_representative_set` request (control enabled) whose wallet does not decode, are
routed to their handlers and return without any response and without a call that could
answer later. -/
theorem routed_request_without_response :
    (rpc_handler.process_request demo.env
        (demo.start demo.request_pending_bad_count)).state.invoked = ["pending"]
      ∧ (rpc_handler.process_request demo.env
          (demo.start demo.request_pending_bad_count)).state.responses = []
      ∧ (rpc_handler.process_request demo.env
          (demo.start demo.request_pending_bad_count)).state.calls = []
      ∧ (rpc_handler.process_request demo.env_control
          (demo.start demo.request_representative_set_bad_wallet)).state.invoked
            = ["account_representative_set"]
      ∧ (rpc_handler.process_request demo.env_control
          (demo.start demo.request_representative_set_bad_wallet)).state.responses = []
      ∧ (rpc_handler.process_request demo.env_control
          (demo.start demo.request_representative_set_bad_wallet)).state.calls = [] :=
  ⟨rfl, rfl, rfl, rfl, rfl, rfl⟩

/-- C3, the code at two failing inputs, with the upstream ratio `10 ^ 30`. For the amount
340282368 the product exceeds 128 bits and `mrai_to_raw` answers the product reduced modulo
`2 ^ 128`; for the amount 0 the product is 0, which fits, and it answers `Amount too big`. -/
theorem mrai_to_raw_wraps :
    340282368 * demo.env.Mrai_ratio ≥ 2 ^ 128
      ∧ (rpc_handler.process_request demo.env
          (demo.start demo.request_mrai_to_raw)).state.responses
          = [(0, ptree.nil.put "amount" "1079061536536625392568231788544")]
      ∧ (340282368 * demo.env.Mrai_ratio) % 2 ^ 128 = 1079061536536625392568231788544
      ∧ 0 * demo.env.Mrai_ratio < 2 ^ 128
      ∧ (rpc_handler.process_request demo.env
          (demo.start demo.request_mrai_to_raw_zero)).state.responses
          = [(0, error_tree "Amount too big")] := by
  refine ⟨by decide, ?_, by decide, by decide, ?_⟩
  · rfl
  · rfl

/-- C4. For every payment observer whose `completed` flag is clear and every sequence of
`complete` calls on it, the first call invokes the observer's response callback once, with the
tree of its own status (`status: success`, `status: nothing`), and the calls after it change
nothing at all: no response, the same flags, the same registry. -/
theorem complete_only_first_responds (env : environment) (this : payment_observer)
    (s : rpc_state) (first : payment_status) (later : List payment_status)
    (hfresh : s.completed this.id = false) :
    (payment_observer.complete env this first s).state.responses
        = s.responses ++ [(this.response, completion_tree first)]
      ∧ later.foldl (fun st status => (payment_observer.complete env this status st).state)
          (payment_observer.complete env this first s).state
        = (payment_observer.complete env this first s).state := by
  rw [complete_first env this first s hfresh]
  refine ⟨rfl, ?_⟩
  induction later with
  | nil => rfl
  | cons status rest ih =>
    rw [List.foldl_cons, complete_again]
    · exact ih
    · simp [result.state]

/-- C4, witness: the observer registered by a `payment_wait` request for the second example
account succeeds and then its timer fires. -/
theorem complete_only_first_responds_witness :
    (rpc_handler.process_request demo.env
        (demo.start demo.request_payment_wait_2)).state.completed 0 = false
      ∧ ((payment_observer.complete demo.env
            demo.observer_2 payment_status.success
            (rpc_handler.process_request demo.env
              (demo.start demo.request_payment_wait_2)).state).state.responses
          = (rpc_handler.process_request demo.env
              (demo.start demo.request_payment_wait_2)).state.responses
            ++ [(0, completion_tree payment_status.success)]
        ∧ [payment_status.nothing].foldl
            (fun st status => (payment_observer.complete demo.env
              demo.observer_2 status st).state)
            (payment_observer.complete demo.env
              demo.observer_2 payment_status.success
              (rpc_handler.process_request demo.env
                (demo.start demo.request_payment_wait_2)).state).state
          = (payment_observer.complete demo.env
              demo.observer_2 payment_status.success
              (rpc_handler.process_request demo.env
                (demo.start demo.request_payment_wait_2)).state).state) :=
  ⟨rfl, complete_only_first_responds demo.env
    demo.observer_2
    (rpc_handler.process_request demo.env (demo.start demo.request_payment_wait_2)).state
    payment_status.success [payment_status.nothing] rfl⟩

/-- C5. When an observer whose flag is clear is the one registered under its account, its
first `complete` call leaves the registry without an entry for that account and with the
entries of all other accounts as they were, the `assert` that the account is registered
holds, and the status is answered. -/
theorem complete_erases_registration (env : environment) (this : payment_observer)
    (status : payment_status) (s : rpc_state)
    (hregistered : s.payment_observers this.account = some this)
    (hfresh : s.completed this.id = false) :
    (payment_observer.complete env this status s).state.payment_observers this.account = none
      ∧ (∀ a, a ≠ this.account →
          (payment_observer.complete env this status s).state.payment_observers a
            = s.payment_observers a)
      ∧ (payment_observer.complete env this status s).state.assert_failures
          = s.assert_failures
      ∧ (payment_observer.complete env this status s).state.responses
          = s.responses ++ [(this.response, completion_tree status)] := by
  rw [complete_first env this status s hfresh]
  refine ⟨?_, ?_, ?_, rfl⟩
  · simp [result.state]
  · intro a ha
    simp [result.state, ha]
  · simp [result.state, hregistered]

/-- C5, witness: the timer of the observer registered by a `payment_wait` request for the
second example account fires with no block observed; `status: nothing` is answered and the
account is no longer registered. -/
theorem complete_erases_registration_witness :
    (rpc_handler.process_request demo.env
        (demo.start demo.request_payment_wait_2)).state.payment_observers demo.account_2
        = some demo.observer_2
      ∧ (payment_observer.complete demo.env
          demo.observer_2 payment_status.nothing
          (rpc_handler.process_request demo.env
            (demo.start demo.request_payment_wait_2)).state).state.payment_observers demo.account_2 = none
      ∧ (payment_observer.complete demo.env
          demo.observer_2 payment_status.nothing
          (rpc_handler.process_request demo.env
            (demo.start demo.request_payment_wait_2)).state).state.responses
          = [(0, payment_observer.status_tree "nothing")] :=
  ⟨rfl,
   (complete_erases_registration demo.env
      demo.observer_2 payment_status.nothing
      (rpc_handler.process_request demo.env (demo.start demo.request_payment_wait_2)).state
      rfl rfl).1,
   (complete_erases_registration demo.env
      demo.observer_2 payment_status.nothing
      (rpc_handler.process_request demo.env (demo.start demo.request_payment_wait_2)).state
      rfl rfl).2.2.2⟩

/-- C6. A `payment_wait` request whose account, amount and timeout decode, for an account
with no observer registered (the alarm and the balance lookup returning normally): when the
balance has reached the amount the handler has answered `status: success` by the time it
returns and the account is not registered; otherwise it answers nothing and the account is
registered with the new observer, whose flag is clear. -/
theorem payment_wait_registers_or_succeeds (env : environment) (s : rpc_state)
    (account_text amount_text timeout_text : String) (account amount timeout : Nat)
    (haccount_text : s.request.get "account" = some account_text)
    (hamount_text : s.request.get "amount" = some amount_text)
    (htimeout_text : s.request.get "timeout" = some timeout_text)
    (haccount : env.decode_account account_text = some account)
    (hamount : env.decode_dec amount_text = some amount)
    (htimeout : decode_unsigned env timeout_text = some timeout)
    (hfree : s.payment_observers account = none)
    (halarm : env.raises (call.alarm_add timeout s.next_observer) = none)
    (hbalance : env.raises (call.balance account) = none) :
    ∃ s', rpc_handler.payment_wait env s = result.ok () s'
      ∧ (env.balance account ≥ amount →
          s'.responses = s.responses ++ [(s.response, payment_observer.status_tree "success")]
            ∧ s'.payment_observers account = none)
      ∧ (env.balance account < amount →
          s'.responses = s.responses
            ∧ s'.payment_observers account
                = some { id := s.next_observer, account := account, amount := amount,
                         response := s.response }
            ∧ s'.completed s.next_observer = false) := by
  by_cases hreached : env.balance account ≥ amount
  · cases hlog : env.log_rpc <;>
      simp [rpc_handler.payment_wait, rpc_handler.request_get, haccount_text, hamount_text,
        htimeout_text, haccount, hamount, htimeout, handler.read, handler.update,
        payment_observer.make, payment_observer.start, collaborator, halarm, hbalance,
        assertion, hfree, rpc.observer_action, payment_observer.observe, query, hreached,
        payment_observer.complete, hlog, boost_format, log_line, respond]
  · simp [rpc_handler.payment_wait, rpc_handler.request_get, haccount_text, hamount_text,
      htimeout_text, haccount, hamount, htimeout, handler.read, handler.update,
      payment_observer.make, payment_observer.start, collaborator, halarm, hbalance,
      assertion, hfree, rpc.observer_action, payment_observer.observe, query, hreached]


/-- C6, witness: a `payment_wait` request for the first example account, whose balance 1500 has reached the
amount 1000. -/
theorem payment_wait_registers_or_succeeds_witness :
    demo.env.balance demo.account_1 ≥ 1000
      ∧ ∃ s', rpc_handler.payment_wait demo.env
            { demo.start demo.request_payment_wait_1 with
              request := demo.object demo.request_payment_wait_1 } = result.ok () s'
          ∧ s'.responses = [(0, payment_observer.status_tree "success")]
          ∧ s'.payment_observers demo.account_1 = none := by
  obtain ⟨s', hrun, hreached, _⟩ := payment_wait_registers_or_succeeds demo.env
    { demo.start demo.request_payment_wait_1 with
      request := demo.object demo.request_payment_wait_1 }
    demo.account_1_text "1000" "50" demo.account_1 1000 50 rfl rfl rfl rfl rfl rfl rfl rfl rfl
  exact ⟨by decide, s', hrun, hreached (by decide)⟩

/-- C7. With RPC logging enabled, a `password_enter` or `password_change` request that is
handled without an exception adds to the log exactly the serialization of the request with
every top-level `password` child removed; hence two such requests that are equal once their
`password` children are removed, started from equal logs, leave equal logs. -/
theorem password_scrubbed_from_log (env : environment) (s1 s2 s1' s2' : rpc_state)
    (tree1 tree2 : ptree) (action1 action2 : String)
    (hlog : env.log_rpc = true)
    (hbody1 : env.read_json s1.body = some tree1)
    (hbody2 : env.read_json s2.body = some tree2)
    (haction1 : tree1.get "action" = some action1)
    (haction2 : tree2.get "action" = some action2)
    (hpassword1 : action1 = "password_enter" ∨ action1 = "password_change")
    (hpassword2 : action2 = "password_enter" ∨ action2 = "password_change")
    (hreturns1 : rpc_handler.process_request_try env s1 = result.ok () s1')
    (hreturns2 : rpc_handler.process_request_try env s2 = result.ok () s2')
    (hsame : tree1.erase "password" = tree2.erase "password")
    (hbefore : s1.log = s2.log) :
    s1'.log = s1.log ++ [env.write_json (tree1.erase "password")]
      ∧ (∀ kv ∈ (tree1.erase "password").children, kv.1 ≠ "password")
      ∧ s2'.log = s1'.log := by
  have h1 := password_log_line env s1 s1' tree1 action1 hlog hbody1 haction1 hpassword1
    hreturns1
  have h2 := password_log_line env s2 s2' tree2 action2 hlog hbody2 haction2 hpassword2
    hreturns2
  refine ⟨h1, erase_removes tree1 "password", ?_⟩
  rw [h1, h2, hsame, hbefore]

/-- C7, witness: two `password_change` requests for the same wallet, one with the password
`s3cret` and one with `hunter2`, control enabled. -/
theorem password_scrubbed_from_log_witness :
    (rpc_handler.process_request_try demo.env_control
        (demo.start demo.request_password_change)).state.log
        = [demo.write_json
            (demo.object [("action", "password_change"), ("wallet", demo.wallet_text)])]
      ∧ (rpc_handler.process_request_try demo.env_control
          (demo.start demo.request_password_change_other)).state.log
        = (rpc_handler.process_request_try demo.env_control
            (demo.start demo.request_password_change)).state.log :=
  ⟨(password_scrubbed_from_log demo.env_control
      (demo.start demo.request_password_change) (demo.start demo.request_password_change_other)
      (rpc_handler.process_request_try demo.env_control
        (demo.start demo.request_password_change)).state
      (rpc_handler.process_request_try demo.env_control
        (demo.start demo.request_password_change_other)).state
      (demo.object demo.request_password_change)
      (demo.object demo.request_password_change_other)
      "password_change" "password_change" rfl rfl rfl rfl rfl (Or.inr rfl) (Or.inr rfl)
      rfl rfl rfl rfl).1,
   (password_scrubbed_from_log demo.env_control
      (demo.start demo.request_password_change) (demo.start demo.request_password_change_other)
      (rpc_handler.process_request_try demo.env_control
        (demo.start demo.request_password_change)).state
      (rpc_handler.process_request_try demo.env_control
        (demo.start demo.request_password_change_other)).state
      (demo.object demo.request_password_change)
      (demo.object demo.request_password_change_other)
      "password_change" "password_change" rfl rfl rfl rfl rfl (Or.inr rfl) (Or.inr rfl)
      rfl rfl rfl rfl).2.2⟩

/-- C8. For a request whose action is `password_enter` or `password_change`, the `try` block
of `process_request` is one call of that handler, made before anything is logged, followed by
the removal of the password and the log line; the handler is the only one invoked, and the
request gets exactly one response, which is not the unknown-command error. -/
theorem password_handler_invoked_once (env : environment) (s : rpc_state) (tree : ptree)
    (action : String)
    (hbody : env.read_json s.body = some tree)
    (haction : tree.get "action" = some action)
    (hpassword : action = "password_enter" ∨ action = "password_change") :
    (∃ method : handler Unit,
        ((action = "password_enter" ∧ method = rpc_handler.password_enter env)
          ∨ (action = "password_change" ∧ method = rpc_handler.password_change env))
        ∧ rpc_handler.process_request_try env s =
            match method { s with request := tree, invoked := s.invoked ++ [action] } with
            | result.ok _ s1 =>
              result.ok ()
                { s1 with
                  request := s1.request.erase "password"
                  body := env.write_json (s1.request.erase "password")
                  log := if env.log_rpc then
                      s1.log ++ [env.write_json (s1.request.erase "password")]
                    else s1.log }
            | result.error e s1 => result.error e s1)
      ∧ (rpc_handler.process_request env s).state.invoked = s.invoked ++ [action]
      ∧ ∃ t, (rpc_handler.process_request env s).state.responses
            = s.responses ++ [(s.response, t)]
          ∧ t ≠ error_tree "Unknown command" := by
  obtain ⟨method, hmethod, hout⟩ := password_method_outcome env
    { s with request := tree, invoked := s.invoked ++ [action] } action hpassword
  have htry := process_request_try_password env s tree action method hbody haction hmethod
  refine ⟨⟨method, hmethod, htry⟩, ?_⟩
  unfold rpc_handler.process_request
  rw [htry]
  cases hrun : method { s with request := tree, invoked := s.invoked ++ [action] } with
  | ok u s1 =>
    rw [hrun] at hout
    obtain ⟨_, _, hinvoked, _, t, hresponses, hne⟩ := hout
    exact ⟨by simpa [result.state] using hinvoked, t,
      by simpa [result.state] using hresponses, hne⟩
  | error e s1 =>
    rw [hrun] at hout
    obtain ⟨hresponses, hinvoked, hresponse⟩ := hout
    simp only at hresponses hinvoked hresponse
    cases e <;>
      simp [result.state, rpc_handler.response_error, error_response, respond,
        handler.update, hresponses, hinvoked, hresponse, error_tree_ne]

/-- C8, witness: a `password_enter` request for the example wallet. -/
theorem password_handler_invoked_once_witness :
    (rpc_handler.process_request demo.env
        (demo.start demo.request_password_enter)).state.invoked
        = (demo.start demo.request_password_enter).invoked ++ ["password_enter"]
      ∧ ∃ t, (rpc_handler.process_request demo.env
            (demo.start demo.request_password_enter)).state.responses
            = (demo.start demo.request_password_enter).responses
              ++ [((demo.start demo.request_password_enter).response, t)]
          ∧ t ≠ error_tree "Unknown command" :=
  (password_handler_invoked_once demo.env (demo.start demo.request_password_enter)
    (demo.object demo.request_password_enter)
    "password_enter" rfl rfl (Or.inl rfl)).2

/-- C9, as amended. For a request that parses and names an action: whenever its handling
raises a failure that is not caught, the dispatcher adds one response on the callback at
hand, `error: Unable to parse JSON` when the failure is a `std::runtime_error` and
`error: Internal server error in RPC` for every other failure; the failure raised for a
missing `account` of `account_balance`, and the one raised by `process` on a `block` text
that is not JSON, are of the first kind and are answered `error: Unable to parse JSON`. -/
theorem uncaught_failure_answered (env : environment) (s : rpc_state) (tree : ptree)
    (action : String)
    (hbody : env.read_json s.body = some tree)
    (haction : tree.get "action" = some action) :
    (∀ e s', rpc_handler.process_request_try env s = result.error e s' →
        rpc_handler.process_request env s
          = result.ok ()
              { s' with
                responses := s'.responses ++ [(s'.response, error_tree (catch_message e))] })
      ∧ (action = "account_balance" → tree.get "account" = none →
          (rpc_handler.process_request env s).state.responses
            = s.responses ++ [(s.response, error_tree "Unable to parse JSON")])
      ∧ (action = "process" → ∀ block_text, tree.get "block" = some block_text →
          env.read_json block_text = none →
          (rpc_handler.process_request env s).state.responses
            = s.responses ++ [(s.response, error_tree "Unable to parse JSON")]) := by
  refine ⟨?_, ?_, ?_⟩
  · intro e s' hraised
    unfold rpc_handler.process_request
    rw [hraised]
    cases e <;>
      simp [catch_message, rpc_handler.response_error, error_response, respond,
        handler.update]
  · intro ha hmissing
    subst ha
    cases hlog : env.log_rpc <;>
      simp [rpc_handler.process_request, rpc_handler.process_request_try, handler.read,
        handler.update, hbody, rpc_handler.request_get, haction, log_line, hlog,
        rpc_handler.route, rpc_handler.invoke, rpc_handler.account_balance, hmissing,
        rpc_handler.response_error, error_response, respond, result.state]
  · intro ha block_text hblock hmalformed
    subst ha
    cases hlog : env.log_rpc <;>
      simp [rpc_handler.process_request, rpc_handler.process_request_try, handler.read,
        handler.update, handler.raise, hbody, rpc_handler.request_get, haction, log_line,
        hlog, rpc_handler.route, rpc_handler.invoke, rpc_handler.process, hblock,
        hmalformed, rpc_handler.response_error, error_response, respond, result.state]

/-- C9, witness: the ledger lookup of an `account_balance` request throws an exception that
is not a `std::runtime_error`; the answer is `error: Internal server error in RPC`. -/
theorem uncaught_failure_answered_witness :
    (rpc_handler.process_request demo.env_failing
        (demo.start demo.request_account_balance)).state.responses
      = [(0, error_tree "Internal server error in RPC")] :=
  congrArg (fun r => r.state.responses)
    ((uncaught_failure_answered demo.env_failing (demo.start demo.request_account_balance)
      (demo.object demo.request_account_balance)
      "account_balance" rfl rfl).1 (failure.other "std::bad_alloc")
      (rpc_handler.process_request_try demo.env_failing
        (demo.start demo.request_account_balance)).state rfl)

/-- C9, counterexample. An `account_balance` request without `account`, and a `process`
request whose `block` is not JSON, are both answered `error: Unable to parse JSON`, not
`error: Internal server error in RPC`. -/
theorem missing_field_not_internal_error :
    (rpc_handler.process_request demo.env
        (demo.start demo.request_account_balance_no_account)).state.responses
        = [(0, error_tree "Unable to parse JSON")]
      ∧ (rpc_handler.process_request demo.env
          (demo.start demo.request_process_malformed)).state.responses
        = [(0, error_tree "Unable to parse JSON")]
      ∧ error_tree "Unable to parse JSON" ≠ error_tree "Internal server error in RPC" :=
  ⟨rfl, rfl, error_tree_ne _ _ (by decide)⟩

/-- C10. A request whose action is none of the names the dispatcher routes is answered
exactly once, with `error: Unknown command`; no handler is invoked and no collaborator is
called. -/
theorem unknown_action_refused (env : environment) (s : rpc_state) (tree : ptree)
    (action : String)
    (hbody : env.read_json s.body = some tree)
    (haction : tree.get "action" = some action)
    (hunknown : action ∉ rpc_handler.routed_actions) :
    (rpc_handler.process_request env s).state.responses
        = s.responses ++ [(s.response, error_tree "Unknown command")]
      ∧ (rpc_handler.process_request env s).state.invoked = s.invoked
      ∧ (rpc_handler.process_request env s).state.calls = s.calls := by
  simp only [rpc_handler.routed_actions, List.mem_cons, List.mem_singleton, List.not_mem_nil,
    or_false, not_or] at hunknown
  cases hlog : env.log_rpc <;>
    simp [rpc_handler.process_request, rpc_handler.process_request_try, handler.read,
      handler.update, hbody, rpc_handler.request_get, haction, hunknown, log_line, hlog,
      rpc_handler.route, rpc_handler.response_error, error_response, respond, result.state]

/-- C10, witness: the request with action `nope`. -/
theorem unknown_action_refused_witness :
    (rpc_handler.process_request demo.env (demo.start demo.request_unknown)).state.responses
        = (demo.start demo.request_unknown).responses
          ++ [((demo.start demo.request_unknown).response, error_tree "Unknown command")]
      ∧ (rpc_handler.process_request demo.env (demo.start demo.request_unknown)).state.invoked
          = (demo.start demo.request_unknown).invoked
      ∧ (rpc_handler.process_request demo.env (demo.start demo.request_unknown)).state.calls
          = (demo.start demo.request_unknown).calls :=
  unknown_action_refused demo.env (demo.start demo.request_unknown)
    (demo.object demo.request_unknown) "nope" rfl rfl (by decide)

/-- C11. For each of `rai_to_raw`, `krai_to_raw` and `mrai_to_raw` and every decoded amount:
when the 128-bit product of the amount and the ratio is less than the amount, the handler
answers `error: Amount too big`, once, and does nothing else. -/
theorem to_raw_refuses_smaller_product (env : environment) (unit : denomination)
    (s : rpc_state) (amount_text : String) (a : Nat)
    (htext : s.request.get "amount" = some amount_text)
    (hamount : env.decode_dec amount_text = some a)
    (hsmaller : (a * unit.ratio env) % 2 ^ 128 < a) :
    unit.to_raw env s = result.ok () (answered s (error_tree "Amount too big")) := by
  rw [denomination_to_raw, to_raw_run env _ s amount_text a htext hamount,
    if_neg (by omega)]

/-- C11, witness: `mrai_to_raw` of `2 ^ 128 - 1`. -/
theorem to_raw_refuses_smaller_product_witness :
    ((2 ^ 128 - 1) * demo.env.Mrai_ratio) % 2 ^ 128 < 2 ^ 128 - 1
      ∧ rpc_handler.mrai_to_raw demo.env (demo.parsed demo.request_mrai_to_raw_max)
          = result.ok ()
              (answered (demo.parsed demo.request_mrai_to_raw_max)
                (error_tree "Amount too big")) :=
  ⟨by decide,
   to_raw_refuses_smaller_product demo.env denomination.Mrai
     (demo.parsed demo.request_mrai_to_raw_max) "340282366920938463463374607431768211455"
     (2 ^ 128 - 1) rfl (by rfl) (by decide)⟩

/-- C12, as amended. For each unit and every raw amount `n` at least the ratio and below
`2 ^ 128` (the ratio being greater than one): `from_raw` answers the quotient, and `to_raw`
fed that answer answers `n - n % ratio`, the largest multiple of the ratio not above `n`;
this is `n` exactly when the ratio divides `n`. -/
theorem raw_round_trip_truncates (env : environment) (unit : denomination)
    (s_from s_to : rpc_state) (raw_text : String) (n : Nat)
    (hratio : 1 < unit.ratio env)
    (hlarge : unit.ratio env ≤ n)
    (hfits : n < 2 ^ 128)
    (hraw_text : s_from.request.get "amount" = some raw_text)
    (hraw : env.decode_dec raw_text = some n)
    (hfed : s_to.request.get "amount" = some (dec (n / unit.ratio env)))
    (hcodec : env.decode_dec (dec (n / unit.ratio env)) = some (n / unit.ratio env)) :
    unit.from_raw env s_from
        = result.ok () (answered s_from (ptree.nil.put "amount" (dec (n / unit.ratio env))))
      ∧ unit.to_raw env s_to
        = result.ok ()
            (answered s_to (ptree.nil.put "amount" (dec (n - n % unit.ratio env))))
      ∧ (n - n % unit.ratio env = n ↔ unit.ratio env ∣ n) := by
  have hpos : 0 < unit.ratio env := by omega
  have hq : 1 ≤ n / unit.ratio env := (Nat.one_le_div_iff hpos).mpr hlarge
  have hmul : n / unit.ratio env * unit.ratio env = n - n % unit.ratio env := by
    have := Nat.div_add_mod n (unit.ratio env)
    have hcomm : n / unit.ratio env * unit.ratio env = unit.ratio env * (n / unit.ratio env) :=
      Nat.mul_comm _ _
    omega
  have hle : n - n % unit.ratio env ≤ n := Nat.sub_le _ _
  have hgt : n / unit.ratio env < n / unit.ratio env * unit.ratio env := by
    nlinarith
  refine ⟨?_, ?_, ?_⟩
  · rw [denomination_from_raw, from_raw_run env _ s_from raw_text n hraw_text hraw]
  · rw [denomination_to_raw, to_raw_run env _ s_to _ _ hfed hcodec, hmul,
      Nat.mod_eq_of_lt (by omega), if_pos (by omega)]
  · constructor
    · intro h
      have hzero : n % unit.ratio env = 0 := by
        have := Nat.mod_lt n hpos
        omega
      exact Nat.dvd_of_mod_eq_zero hzero
    · intro h
      rw [Nat.mod_eq_zero_of_dvd h, Nat.sub_zero]

/-- C12, witness: the raw amount of one and a half Mrai. -/
theorem raw_round_trip_truncates_witness :
    rpc_handler.mrai_from_raw demo.env (demo.parsed demo.request_mrai_from_raw)
        = result.ok ()
            (answered (demo.parsed demo.request_mrai_from_raw) (ptree.nil.put "amount" "1"))
      ∧ rpc_handler.mrai_to_raw demo.env (demo.parsed demo.request_mrai_to_raw_one)
        = result.ok ()
            (answered (demo.parsed demo.request_mrai_to_raw_one)
              (ptree.nil.put "amount" "1000000000000000000000000000000")) :=
  ⟨(raw_round_trip_truncates demo.env denomination.Mrai
      (demo.parsed demo.request_mrai_from_raw) (demo.parsed demo.request_mrai_to_raw_one)
      "1500000000000000000000000000000" 1500000000000000000000000000000
      (by decide) (by decide) (by decide) rfl (by rfl) (by rfl) (by rfl)).1,
   (raw_round_trip_truncates demo.env denomination.Mrai
      (demo.parsed demo.request_mrai_from_raw) (demo.parsed demo.request_mrai_to_raw_one)
      "1500000000000000000000000000000" 1500000000000000000000000000000
      (by decide) (by decide) (by decide) rfl (by rfl) (by rfl) (by rfl)).2.1⟩

/-- C12, counterexample. With the ratio `10 ^ 30`, `mrai_from_raw` of the raw amount
1500000000000000000000000000000 answers 1, and `mrai_to_raw` of 1 answers
1000000000000000000000000000000, which is not the raw amount started from. -/
theorem raw_round_trip_loses_remainder :
    (rpc_handler.process_request demo.env
        (demo.start demo.request_mrai_from_raw)).state.responses
        = [(0, ptree.nil.put "amount" "1")]
      ∧ (rpc_handler.process_request demo.env
          (demo.start demo.request_mrai_to_raw_one)).state.responses
        = [(0, ptree.nil.put "amount" "1000000000000000000000000000000")]
      ∧ ptree.nil.put "amount" "1000000000000000000000000000000"
          ≠ ptree.nil.put "amount" "1500000000000000000000000000000" := by
  refine ⟨rfl, rfl, ?_⟩
  simp [ptree.put, ptree.nil, ptree.put_child, ptree.children, ptree.data, ptree.leaf]

/-- C13. For each unit with ratio greater than one and every `k ≥ 1` with
`R = k * ratio < 2 ^ 128`: `from_raw` of `R` answers `k`, and `to_raw` of `k` answers `R`. -/
theorem unit_round_trip (env : environment) (unit : denomination)
    (s_from s_to : rpc_state) (raw_text unit_text : String) (k : Nat)
    (hratio : 1 < unit.ratio env)
    (hk : 1 ≤ k)
    (hfits : k * unit.ratio env < 2 ^ 128)
    (hraw_text : s_from.request.get "amount" = some raw_text)
    (hraw : env.decode_dec raw_text = some (k * unit.ratio env))
    (hunit_text : s_to.request.get "amount" = some unit_text)
    (hunit : env.decode_dec unit_text = some k) :
    unit.from_raw env s_from
        = result.ok () (answered s_from (ptree.nil.put "amount" (dec k)))
      ∧ unit.to_raw env s_to
        = result.ok () (answered s_to (ptree.nil.put "amount" (dec (k * unit.ratio env)))) := by
  have hpos : 0 < unit.ratio env := by omega
  have hgt : k < k * unit.ratio env := by
    nlinarith
  refine ⟨?_, ?_⟩
  · rw [denomination_from_raw, from_raw_run env _ s_from raw_text _ hraw_text hraw,
      Nat.mul_div_cancel _ hpos]
  · rw [denomination_to_raw, to_raw_run env _ s_to unit_text k hunit_text hunit,
      Nat.mod_eq_of_lt hfits, if_pos hgt]

/-- C13, witness: three Mrai. -/
theorem unit_round_trip_witness :
    rpc_handler.mrai_from_raw demo.env (demo.parsed demo.request_mrai_from_raw_three)
        = result.ok ()
            (answered (demo.parsed demo.request_mrai_from_raw_three)
              (ptree.nil.put "amount" "3"))
      ∧ rpc_handler.mrai_to_raw demo.env (demo.parsed demo.request_mrai_to_raw_three)
        = result.ok ()
            (answered (demo.parsed demo.request_mrai_to_raw_three)
              (ptree.nil.put "amount" "3000000000000000000000000000000")) :=
  unit_round_trip demo.env denomination.Mrai
    (demo.parsed demo.request_mrai_from_raw_three)
    (demo.parsed demo.request_mrai_to_raw_three)
    "3000000000000000000000000000000" "3" 3 (by decide) (by decide) (by decide)
    rfl (by rfl) rfl (by rfl)

/-- C14, the code at the failing input. A configuration tree with port text `65535` is
accepted with port 65535; one with port text `65536`, all other fields valid, is accepted as
well, with port 0. Whatever the value parsed for the port, the inner block does not reject
on its account: the comparison reads the 16-bit member after the assignment. -/
theorem port_65536_accepted :
    (rpc_config.deserialize_json demo.env (demo.object (demo.config_members "65535"))
        demo.default_config).1 = false
      ∧ (rpc_config.deserialize_json demo.env (demo.object (demo.config_members "65535"))
          demo.default_config).2.port = 65535
      ∧ (rpc_config.deserialize_json demo.env (demo.object (demo.config_members "65536"))
          demo.default_config).1 = false
      ∧ (rpc_config.deserialize_json demo.env (demo.object (demo.config_members "65536"))
          demo.default_config).2.port = 0
      ∧ ∀ (env : environment) (port_l frontier_l chain_l : String) (this : rpc_config)
          (port_v : Nat) (frontier_v chain_v : Nat × Nat),
          env.stoul port_l = some port_v → env.stoull frontier_l = some frontier_v →
          env.stoull chain_l = some chain_v →
          (rpc_config.deserialize_numbers env port_l frontier_l chain_l this).1 = false := by
  refine ⟨by rfl, by rfl, by rfl, by rfl, ?_⟩
  intro env port_l frontier_l chain_l this port_v frontier_v chain_v hport hfrontier hchain
  have hlt : port_v % 2 ^ 16 < 2 ^ 16 := Nat.mod_lt _ (by decide)
  simp only [rpc_config.deserialize_numbers, hport, hfrontier, hchain]
  simp only [decide_eq_false_iff_not, not_lt, gt_iff_lt]
  omega

/-- C15, as amended. For every `chain` request the number of hashes returned is at most the
requested count, and for every `frontiers` request the number of pairs returned is at most
the requested count (collaborators returning normally); the limits of the configuration do
not enter the bound. -/
theorem returned_at_most_count (env : environment) (s_chain s_frontiers : rpc_state)
    (block_text chain_count_text account_text frontiers_count_text : String)
    (hash chain_count start frontiers_count : Nat)
    (hquiet : quiet env)
    (hblock_text : s_chain.request.get "block" = some block_text)
    (hchain_count_text : s_chain.request.get "count" = some chain_count_text)
    (hblock : env.decode_hex block_text = some hash)
    (hchain_count : decode_unsigned env chain_count_text = some chain_count)
    (haccount_text : s_frontiers.request.get "account" = some account_text)
    (hfrontiers_count_text : s_frontiers.request.get "count" = some frontiers_count_text)
    (hstart : env.decode_account account_text = some start)
    (hfrontiers_count : decode_unsigned env frontiers_count_text = some frontiers_count) :
    (∃ calls blocks, rpc_handler.chain env s_chain
        = result.ok () (answered (called s_chain calls) (ptree.nil.add_child "blocks" blocks))
        ∧ blocks.size ≤ chain_count)
      ∧ (∃ calls frontiers, rpc_handler.frontiers env s_frontiers
        = result.ok ()
            (answered (called s_frontiers calls) (ptree.nil.add_child "frontiers" frontiers))
        ∧ frontiers.size ≤ frontiers_count) := by
  constructor
  · obtain ⟨calls, hrun⟩ := chain_run env hquiet s_chain block_text chain_count_text hash
      chain_count hblock_text hchain_count_text hblock hchain_count
    refine ⟨calls, _, hrun, ?_⟩
    simpa [text_list, ptree.size, ptree.children] using
      chain_walk_length env.block_get chain_count hash
  · refine ⟨_, _, frontiers_run env hquiet s_frontiers account_text frontiers_count_text
      start frontiers_count haccount_text hfrontiers_count_text hstart hfrontiers_count, ?_⟩
    exact frontiers_loop_size env frontiers_count _ ptree.nil
      (by simp [ptree.size, ptree.nil, ptree.children])

/-- C15, witness: two hashes and two pairs asked of a store that holds them. -/
theorem returned_at_most_count_witness :
    (∃ calls blocks, rpc_handler.chain demo.env_capped (demo.parsed demo.request_chain)
        = result.ok ()
            (answered (called (demo.parsed demo.request_chain) calls)
              (ptree.nil.add_child "blocks" blocks))
        ∧ blocks.size ≤ 2)
      ∧ (∃ calls frontiers,
          rpc_handler.frontiers demo.env_capped (demo.parsed demo.request_frontiers)
            = result.ok ()
                (answered (called (demo.parsed demo.request_frontiers) calls)
                  (ptree.nil.add_child "frontiers" frontiers))
          ∧ frontiers.size ≤ 2) :=
  returned_at_most_count demo.env_capped (demo.parsed demo.request_chain)
    (demo.parsed demo.request_frontiers) demo.block_hash_text "2" demo.account_1_text "2"
    demo.block_hash 2 demo.account_1 2 (fun _ => rfl) rfl rfl (by rfl) (by rfl) rfl rfl
    (by rfl) (by rfl)

/-- C15, counterexample. With both limits of the configuration set to 1, a `chain` request
for two hashes is answered with two hashes and a `frontiers` request for two pairs with two
pairs. -/
theorem limits_not_applied :
    demo.env_capped.config.chain_request_limit = 1
      ∧ demo.env_capped.config.frontier_request_limit = 1
      ∧ (rpc_handler.process_request demo.env_capped
          (demo.start demo.request_chain)).state.responses
        = [(0, ptree.nil.add_child "blocks" (text_list [demo.block_hash_text, "76"]))]
      ∧ (text_list [demo.block_hash_text, "76"]).size = 2
      ∧ (rpc_handler.process_request demo.env_capped
          (demo.start demo.request_frontiers)).state.responses
        = [(0, ptree.nil.add_child "frontiers"
            (fields [(demo.account_1_text, demo.block_hash_text),
                     (demo.account_2_text, "77")]))]
      ∧ (fields [(demo.account_1_text, demo.block_hash_text),
                 (demo.account_2_text, "77")]).size = 2 :=
  ⟨rfl, rfl, rfl, rfl, rfl, rfl⟩

/-- C16. For every block store, start hash and count (collaborators returning normally),
`chain` returns and answers the list `walked` of hashes, where: the list has at most `count`
elements; its first element, if any, is the start hash; each next element is the `previous`
of the block stored under the element before it; every element is non-zero and in the store;
and the walk stopped only because `count` hashes were collected, the next hash is zero, or
the next hash is not in the store. From the zero hash the list is empty. -/
theorem chain_follows_previous (env : environment) (s : rpc_state)
    (block_text count_text : String) (hash count : Nat)
    (hquiet : quiet env)
    (hblock_text : s.request.get "block" = some block_text)
    (hcount_text : s.request.get "count" = some count_text)
    (hblock : env.decode_hex block_text = some hash)
    (hcount : decode_unsigned env count_text = some count) :
    ∃ walked calls,
      rpc_handler.chain env s
          = result.ok ()
              (answered (called s calls)
                (ptree.nil.add_child "blocks" (text_list (walked.map env.to_string))))
        ∧ walked.length ≤ count
        ∧ (∀ a, walked.head? = some a → a = hash)
        ∧ walked.Chain' (fun a b => ∃ found, env.block_get a = some found ∧ found.previous = b)
        ∧ (∀ a ∈ walked, a ≠ 0 ∧ (env.block_get a).isSome = true)
        ∧ (walked.length = count
            ∨ next_hash env.block_get hash walked = 0
            ∨ env.block_get (next_hash env.block_get hash walked) = none)
        ∧ (hash = 0 → walked = []) := by
  obtain ⟨calls, hrun⟩ := chain_run env hquiet s block_text count_text hash count
    hblock_text hcount_text hblock hcount
  exact ⟨chain_walk env.block_get count hash, calls, hrun,
    chain_walk_length env.block_get count hash,
    fun a ha => chain_walk_head env.block_get count hash a ha,
    chain_walk_linked env.block_get count hash,
    chain_walk_present env.block_get count hash,
    chain_walk_maximal env.block_get count hash,
    fun hzero => by rw [hzero, chain_walk_zero]⟩

/-- C16, witness: two hashes asked from the example block, whose predecessor is an open
block. -/
theorem chain_follows_previous_witness :
    ∃ walked calls,
      rpc_handler.chain demo.env_capped (demo.parsed demo.request_chain)
          = result.ok ()
              (answered (called (demo.parsed demo.request_chain) calls)
                (ptree.nil.add_child "blocks"
                  (text_list (walked.map demo.env_capped.to_string))))
        ∧ walked.length ≤ 2
        ∧ (∀ a, walked.head? = some a → a = demo.block_hash)
        ∧ walked.Chain'
            (fun a b => ∃ found, demo.env_capped.block_get a = some found ∧ found.previous = b)
        ∧ (∀ a ∈ walked, a ≠ 0 ∧ (demo.env_capped.block_get a).isSome = true)
        ∧ (walked.length = 2
            ∨ next_hash demo.env_capped.block_get demo.block_hash walked = 0
            ∨ demo.env_capped.block_get
                (next_hash demo.env_capped.block_get demo.block_hash walked) = none)
        ∧ (demo.block_hash = 0 → walked = []) :=
  chain_follows_previous demo.env_capped (demo.parsed demo.request_chain)
    demo.block_hash_text "2" demo.block_hash 2 (fun _ => rfl) rfl rfl (by rfl) (by rfl)

/-- C17. For every block found at hash `H` (the ledger returning normally) the history
visitor writes into an empty entry: for a send block, type `send`, the destination as
account and `ledger.amount (H)`; for a receive block, type `receive`, the account of the
source and `ledger.amount (H)`; for an open block, type `receive` with the genesis account
and the genesis amount when the source is the genesis account, and as for a receive block
otherwise; for a change block, nothing. -/
theorem history_visitor_entry (env : environment) (hash : Nat) (block_a : block)
    (s : rpc_state) (hquiet : quiet env) :
    ∃ calls, rpc_handler.history_visitor env hash block_a ptree.nil s
      = result.ok (history_entry env hash block_a.type) (called s calls) := by
  cases htype : block_a.type with
  | send_block destination =>
    refine ⟨[call.ledger_amount hash], ?_⟩
    simp [rpc_handler.history_visitor, htype, query_quiet env hquiet, history_entry, fields,
      ptree.put, ptree.nil, ptree.put_child, ptree.children, ptree.data, ptree.leaf]
  | receive_block source =>
    refine ⟨[call.ledger_account source, call.ledger_amount hash], ?_⟩
    simp [rpc_handler.history_visitor, htype, query_quiet env hquiet, history_entry, fields,
      ptree.put, ptree.nil, ptree.put_child, ptree.children, ptree.data, ptree.leaf,
      called_called]
  | open_block source =>
    by_cases hgenesis : source = env.genesis_account
    · refine ⟨[], ?_⟩
      simp [rpc_handler.history_visitor, htype, hgenesis, history_entry, fields,
        ptree.put, ptree.nil, ptree.put_child, ptree.children, ptree.data, ptree.leaf,
        called_nil]
    · refine ⟨[call.ledger_account source, call.ledger_amount hash], ?_⟩
      simp [rpc_handler.history_visitor, htype, hgenesis, query_quiet env hquiet,
        history_entry, fields, ptree.put, ptree.nil, ptree.put_child, ptree.children,
        ptree.data, ptree.leaf, called_called]
  | change_block =>
    refine ⟨[], ?_⟩
    simp [rpc_handler.history_visitor, htype, history_entry, fields, ptree.nil, called_nil]

/-- C17, witness: the example send block. -/
theorem history_visitor_entry_witness :
    ∃ calls, rpc_handler.history_visitor demo.env demo.block_hash demo.send_block ptree.nil
        (demo.parsed demo.request_chain)
      = result.ok
          (fields [("type", "send"), ("account", demo.account_2_text), ("amount", "0")])
          (called (demo.parsed demo.request_chain) calls) :=
  history_visitor_entry demo.env demo.block_hash demo.send_block
    (demo.parsed demo.request_chain) (fun _ => rfl)

/-- C18. With a count text that decodes to 0 (collaborators returning normally), each of
`chain`, `frontiers`, `history` and `pending`, given a starting point that decodes, answers
once with its list field (`blocks`, `frontiers`, `history`, `blocks`) empty; the answer has
no `error` field. -/
theorem count_zero_lists_empty (env : environment) (s : rpc_state) (count_text : String)
    (hquiet : quiet env)
    (hcount_text : s.request.get "count" = some count_text)
    (hzero : decode_unsigned env count_text = some 0) :
    (∀ block_text hash, s.request.get "block" = some block_text →
        env.decode_hex block_text = some hash →
        rpc_handler.chain env s
          = result.ok ()
              (answered (called s [call.transaction false])
                (ptree.nil.add_child "blocks" ptree.nil)))
      ∧ (∀ account_text start, s.request.get "account" = some account_text →
          env.decode_account account_text = some start →
          rpc_handler.frontiers env s
            = result.ok ()
                (answered (called s [call.transaction false, call.latest_begin start])
                  (ptree.nil.add_child "frontiers" ptree.nil)))
      ∧ (∀ hash_text hash, s.request.get "hash" = some hash_text →
          env.decode_hex hash_text = some hash →
          rpc_handler.history env s
            = result.ok ()
                (answered (called s [call.transaction false, call.block_get hash])
                  (ptree.nil.add_child "history" ptree.nil)))
      ∧ (∀ account_text account, s.request.get "account" = some account_text →
          env.decode_account account_text = some account →
          rpc_handler.pending env s
            = result.ok ()
                (answered
                  (called s [call.transaction false, call.pending_begin account 0,
                    call.pending_begin ((account + 1) % 2 ^ 256) 0])
                  (ptree.nil.add_child "blocks" ptree.nil)))
      ∧ (∀ key, key ≠ "error" → key ≠ "" →
          (ptree.nil.add_child key ptree.nil).get "error" = none
            ∧ (ptree.nil.add_child key ptree.nil).get_child key = some ptree.nil) := by
  refine ⟨?_, ?_, ?_, ?_, ?_⟩
  · intro block_text hash hblock_text hblock
    simp only [rpc_handler.chain, handler_bind_apply, rpc_handler.request_get, hblock_text,
      hcount_text, hblock, hzero, collaborator_quiet env hquiet, rpc_handler.chain_loop,
      handler_pure_apply]
    simp [rpc_handler.response, respond, handler.update, answered, called]
  · intro account_text start haccount_text hstart
    rw [frontiers_run env hquiet s account_text count_text start 0 haccount_text hcount_text
      hstart hzero]
    have hloop : rpc_handler.frontiers_loop env 0 (env.latest_range start) ptree.nil
        = ptree.nil := by
      cases env.latest_range start <;> simp [rpc_handler.frontiers_loop, ptree.size]
    rw [hloop]
  · intro hash_text hash hhash_text hhash
    simp only [rpc_handler.history, handler_bind_apply, rpc_handler.request_get, hhash_text,
      hcount_text, hhash, hzero, collaborator_quiet env hquiet, query_quiet env hquiet,
      rpc_handler.history_loop, handler_pure_apply, called_called]
    simp [rpc_handler.response, respond, handler.update, answered, called]
  · intro account_text account haccount_text haccount
    have hloop : ∀ range, rpc_handler.pending_loop env 0 range ptree.nil = ptree.nil := by
      intro range
      cases range <;> simp [rpc_handler.pending_loop, ptree.size]
    simp only [rpc_handler.pending, handler_bind_apply, rpc_handler.request_get,
      haccount_text, hcount_text, haccount, hzero, collaborator_quiet env hquiet,
      query_quiet env hquiet, called_called, hloop]
    simp [rpc_handler.response, respond, handler.update, answered, called]
  · intro key hkey hempty
    simp [ptree.add_child, ptree.get, ptree.get_child, ptree.nil, ptree.children,
      ptree.data, hkey, hempty]

/-- C18, witness: a request with count 0 handled as a `chain` request. -/
theorem count_zero_lists_empty_witness :
    rpc_handler.chain demo.env (demo.parsed demo.request_count_zero)
      = result.ok ()
          (answered (called (demo.parsed demo.request_count_zero) [call.transaction false])
            (ptree.nil.add_child "blocks" ptree.nil)) :=
  (count_zero_lists_empty demo.env (demo.parsed demo.request_count_zero) "0"
    (fun _ => rfl) rfl (by rfl)).1 demo.block_hash_text demo.block_hash rfl (by rfl)

/-- C19, as amended. For every `payment_begin` on a found, unlocked wallet with free pool
`P` (collaborators returning normally): when `P` is `skipped`, then `a`, then `rest`, where
every account of `skipped` is in the wallet store and has a balance or is the zero account,
and `a` is not the zero account, is in the wallet store and has balance zero, the handler
examines `skipped` and `a` in that order, answers `account: a` without calling
`deterministic_insert`, and leaves the pool `rest`; when every account of `P` is in the
wallet store and has a balance or is the zero account, it examines them all, calls
`deterministic_insert` once, leaves the pool empty and answers the derived account, or
`error: Unable to create transaction account` when that is zero. -/
theorem payment_begin_picks_first_eligible (env : environment) (s : rpc_state)
    (id_text : String) (id : Nat)
    (hquiet : quiet env)
    (hid_text : s.request.get "wallet" = some id_text)
    (hid : env.decode_hex id_text = some id)
    (hfound : env.wallets_items id = true)
    (hunlocked : env.valid_password id = true) :
    (∀ skipped a rest, s.free_accounts id = skipped ++ a :: rest →
        (∀ x ∈ skipped, passed_over env id x) → eligible env id a →
        ∃ s', rpc_handler.payment_begin env s = result.ok () s'
          ∧ s'.responses
              = s.responses ++ [(s.response, ptree.nil.put "account" (env.to_account a))]
          ∧ s'.free_accounts id = rest
          ∧ s'.calls
              = s.calls ++ [call.wallets_find id, call.transaction true, call.valid_password id]
                ++ skipped.flatMap (examination id) ++ examination id a)
      ∧ ((∀ x ∈ s.free_accounts id, passed_over env id x) →
        ∃ s', rpc_handler.payment_begin env s = result.ok () s'
          ∧ s'.responses
              = s.responses ++ [(s.response,
                  if env.deterministic_insert id ≠ 0 then
                    ptree.nil.put "account" (env.to_account (env.deterministic_insert id))
                  else error_tree "Unable to create transaction account")]
          ∧ s'.free_accounts id = []
          ∧ s'.calls
              = s.calls ++ [call.wallets_find id, call.transaction true, call.valid_password id]
                ++ (s.free_accounts id).flatMap (examination id)
                ++ [call.deterministic_insert id]) := by
  constructor
  · intro skipped a rest hpool hskipped ha
    obtain ⟨s', hrun, h1, h2, h3, h4⟩ := payment_begin_loop_found env hquiet id a rest ha
      skipped
      (called s [call.wallets_find id, call.transaction true, call.valid_password id])
      hskipped
    refine ⟨answered s' (ptree.nil.put "account" (env.to_account a)), ?_, ?_, ?_, ?_⟩
    · simp only [rpc_handler.payment_begin, handler_bind_apply, rpc_handler.request_get,
        hid_text, hid, query_quiet env hquiet, collaborator_quiet env hquiet, hfound,
        hunlocked, called_called, handler.read, if_true, called_free_accounts, hpool,
        List.cons_append, List.nil_append, hrun]
      simp [ha.1, rpc_handler.response, respond, handler.update, answered]
    · simp [answered, h3, h4, called_responses, called_response]
    · simpa [answered] using h1
    · simpa [answered, called_calls, List.append_assoc] using h2
  · intro hpassed
    obtain ⟨s', hrun, h1, h1', h2, h3, h4⟩ := payment_begin_loop_derived env hquiet id
      (s.free_accounts id)
      (called s [call.wallets_find id, call.transaction true, call.valid_password id])
      hpassed
    have hempty : s'.free_accounts id = [] := by
      by_cases hnil : s.free_accounts id = []
      · rw [h1' hnil, called_free_accounts]
        exact hnil
      · exact h1 hnil
    by_cases hderived : env.deterministic_insert id = 0
    · refine ⟨answered s' (error_tree "Unable to create transaction account"), ?_, ?_, ?_, ?_⟩
      · simp only [rpc_handler.payment_begin, handler_bind_apply, rpc_handler.request_get,
          hid_text, hid, query_quiet env hquiet, collaborator_quiet env hquiet, hfound,
          hunlocked, called_called, handler.read, if_true, called_free_accounts,
          List.cons_append, List.nil_append, hrun]
        simp [hderived, rpc_handler.response_error, error_response, respond,
          handler.update, answered]
      · simp [answered, h3, h4, hderived, called_responses, called_response]
      · simpa [answered] using hempty
      · simpa [answered, called_calls, List.append_assoc] using h2
    · refine ⟨answered s'
        (ptree.nil.put "account" (env.to_account (env.deterministic_insert id))), ?_, ?_, ?_, ?_⟩
      · simp only [rpc_handler.payment_begin, handler_bind_apply, rpc_handler.request_get,
          hid_text, hid, query_quiet env hquiet, collaborator_quiet env hquiet, hfound,
          hunlocked, called_called, handler.read, if_true, called_free_accounts,
          List.cons_append, List.nil_append, hrun]
        simp [hderived, rpc_handler.response, respond, handler.update, answered]
      · simp [answered, h3, h4, hderived, called_responses, called_response]
      · simpa [answered] using hempty
      · simpa [answered, called_calls, List.append_assoc] using h2

/-- C19, witness: the pool holds the first account, which has a balance, and then the
second account, which has none. -/
theorem payment_begin_picks_first_eligible_witness :
    ∃ s', rpc_handler.payment_begin demo.env
          (demo.with_pool (demo.parsed demo.request_payment_begin)
            [demo.account_1, demo.account_2])
        = result.ok () s'
      ∧ s'.responses = [(0, ptree.nil.put "account" demo.account_2_text)]
      ∧ s'.free_accounts 1 = []
      ∧ s'.calls
          = [call.wallets_find 1, call.transaction true, call.valid_password 1,
             call.wallet_store_find 1 demo.account_1,
             call.ledger_account_balance demo.account_1,
             call.wallet_store_find 1 demo.account_2,
             call.ledger_account_balance demo.account_2] :=
  (payment_begin_picks_first_eligible demo.env
    (demo.with_pool (demo.parsed demo.request_payment_begin) [demo.account_1, demo.account_2])
    demo.wallet_text 1 (fun _ => rfl) rfl (by rfl) rfl rfl).1
    [demo.account_1] demo.account_2 [] rfl
    (by
      intro x hx
      rw [List.mem_singleton] at hx
      subst hx
      exact ⟨rfl, Or.inl (by decide)⟩)
    ⟨by decide, rfl, rfl⟩

/-- C19, counterexample. With the zero account in the wallet store and first in the pool,
before the second account, both with balance zero, `payment_begin` passes over the zero
account, answers the second account and leaves the pool empty. With an account that is not
in the wallet store first in the pool, the request is answered
`error: Internal server error in RPC` although the second account is in the wallet store
and has balance zero. -/
theorem payment_begin_skips_zero_account :
    demo.env_zero_key.wallet_store_find 1 0 = true
      ∧ demo.env_zero_key.ledger_account_balance 0 = 0
      ∧ (rpc_handler.payment_begin demo.env_zero_key
          (demo.with_pool (demo.parsed demo.request_payment_begin)
            [0, demo.account_2])).state.responses
        = [(0, ptree.nil.put "account" demo.account_2_text)]
      ∧ (rpc_handler.payment_begin demo.env_zero_key
          (demo.with_pool (demo.parsed demo.request_payment_begin)
            [0, demo.account_2])).state.free_accounts 1 = []
      ∧ ptree.nil.put "account" demo.account_2_text
          ≠ ptree.nil.put "account" (demo.env_zero_key.to_account 0)
      ∧ demo.env.wallet_store_find 1 5 = false
      ∧ (rpc_handler.process_request demo.env
          (demo.with_pool (demo.start demo.request_payment_begin)
            [5, demo.account_2])).state.responses
        = [(0, error_tree "Internal server error in RPC")]
      ∧ (rpc_handler.process_request demo.env
          (demo.with_pool (demo.start demo.request_payment_begin)
            [5, demo.account_2])).state.free_accounts 1 = [demo.account_2] := by
  refine ⟨rfl, rfl, rfl, rfl, ?_, rfl, rfl, rfl⟩
  have h : demo.env_zero_key.to_account 0 = "xrb_0" := rfl
  rw [h]
  simp [ptree.put, ptree.nil, ptree.put_child, ptree.children, ptree.data, ptree.leaf,
    demo.account_2_text]

/-- C20. For every `payment_end` request whose wallet is found and whose account decodes
(collaborators returning normally): when the account is in the wallet store and its ledger
balance is zero, the answer is an empty tree and the pool of the wallet holds the account
and, besides it, what it held before, the pools of other wallets being as they were; when
the account is not in the wallet store the answer is `error: Account not in wallet`, and
when it is there with a balance the answer is `error: Account has non-zero balance`, the
pools being as they were in both cases. -/
theorem payment_end_returns_account (env : environment) (s : rpc_state)
    (id_text account_text : String) (id account : Nat)
    (hquiet : quiet env)
    (hid_text : s.request.get "wallet" = some id_text)
    (haccount_text : s.request.get "account" = some account_text)
    (hid : env.decode_hex id_text = some id)
    (hfound : env.wallets_items id = true)
    (haccount : env.decode_account account_text = some account) :
    (env.wallet_store_find id account = true → env.ledger_account_balance account = 0 →
        ∃ s', rpc_handler.payment_end env s = result.ok () s'
          ∧ s'.responses = s.responses ++ [(s.response, ptree.nil)]
          ∧ (∀ x, x ∈ s'.free_accounts id ↔ x = account ∨ x ∈ s.free_accounts id)
          ∧ (∀ wallet, wallet ≠ id → s'.free_accounts wallet = s.free_accounts wallet))
      ∧ (env.wallet_store_find id account = false →
          rpc_handler.payment_end env s
            = result.ok ()
                (answered
                  (called s [call.transaction false, call.wallets_find id,
                    call.wallet_store_find id account])
                  (error_tree "Account not in wallet")))
      ∧ (env.wallet_store_find id account = true → env.ledger_account_balance account ≠ 0 →
          rpc_handler.payment_end env s
            = result.ok ()
                (answered
                  (called s [call.transaction false, call.wallets_find id,
                    call.wallet_store_find id account, call.ledger_account_balance account])
                  (error_tree "Account has non-zero balance")))
      ∧ ptree.nil ≠ error_tree "Account not in wallet"
      ∧ ptree.nil ≠ error_tree "Account has non-zero balance" := by
  refine ⟨?_, ?_, ?_, ?_, ?_⟩
  · intro hstore hbalance
    refine ⟨answered
      { called s [call.transaction false, call.wallets_find id,
          call.wallet_store_find id account, call.ledger_account_balance account] with
        free_accounts := fun w =>
          if w = id then
            (if account ∈ s.free_accounts id then s.free_accounts id
             else s.free_accounts id ++ [account])
          else s.free_accounts w } ptree.nil, ?_, ?_, ?_, ?_⟩
    · simp only [rpc_handler.payment_end, handler_bind_apply, rpc_handler.request_get,
        hid_text, haccount_text, hid, haccount, query_quiet env hquiet,
        collaborator_quiet env hquiet, hfound, hstore, hbalance, called_called, if_true]
      simp [handler.update, rpc_handler.response, respond, answered, called,
        query_quiet env hquiet]
    · simp [answered, called]
    · intro x
      by_cases hin : account ∈ s.free_accounts id
      · simp only [answered, if_true, if_pos hin]
        constructor
        · intro h; exact Or.inr h
        · rintro (h | h)
          · rw [h]; exact hin
          · exact h
      · simp only [answered, if_true, if_neg hin, List.mem_append, List.mem_singleton]
        exact or_comm
    · intro wallet hwallet
      simp [answered, hwallet]
  · intro hstore
    simp only [rpc_handler.payment_end, handler_bind_apply, rpc_handler.request_get,
      hid_text, haccount_text, hid, haccount, query_quiet env hquiet,
      collaborator_quiet env hquiet, hfound, hstore, called_called]
    simp [rpc_handler.response_error, error_response, respond, handler.update, answered,
      called, query_quiet env hquiet]
  · intro hstore hbalance
    simp only [rpc_handler.payment_end, handler_bind_apply, rpc_handler.request_get,
      hid_text, haccount_text, hid, haccount, query_quiet env hquiet,
      collaborator_quiet env hquiet, hfound, hstore, called_called]
    simp [hbalance, rpc_handler.response_error, error_response, respond, handler.update,
      answered, called, query_quiet env hquiet]
  · simp [error_tree, ptree.put, ptree.nil, ptree.put_child, ptree.children, ptree.data,
      ptree.leaf]
  · simp [error_tree, ptree.put, ptree.nil, ptree.put_child, ptree.children, ptree.data,
      ptree.leaf]

/-- C20, witness: the second account, which is in the wallet store and has no balance, is
returned to an empty pool. -/
theorem payment_end_returns_account_witness :
    ∃ s', rpc_handler.payment_end demo.env (demo.parsed demo.request_payment_end)
        = result.ok () s'
      ∧ s'.responses = [(0, ptree.nil)]
      ∧ (∀ x, x ∈ s'.free_accounts 1 ↔ x = demo.account_2 ∨ x ∈ ([] : List Nat))
      ∧ (∀ wallet, wallet ≠ 1 → s'.free_accounts wallet = []) :=
  (payment_end_returns_account demo.env (demo.parsed demo.request_payment_end)
    demo.wallet_text demo.account_2_text 1 demo.account_2 (fun _ => rfl) rfl rfl (by rfl)
    rfl (by rfl)).1 rfl rfl

/-- C21. For each of the fourteen handlers of the control-gated actions and every state of
the handler object, whatever its request tree holds, when `config.enable_control` is false
the handler returns having answered once, `error: RPC control is disabled`, on its own
callback, with nothing else changed: no collaborator call is recorded and no exception for
a missing field is thrown, also for the empty request tree. -/
theorem gated_handler_refuses (env : environment) (method : handler Unit) (s : rpc_state)
    (hcontrol : env.config.enable_control = false)
    (hmethod : method ∈ control_gated_handlers env) :
    method s = result.ok () (answered s (error_tree "RPC control is disabled"))
      ∧ (answered s (error_tree "RPC control is disabled")).calls = s.calls
      ∧ method { s with request := ptree.nil }
          = result.ok ()
              (answered { s with request := ptree.nil }
                (error_tree "RPC control is disabled")) := by
  have hall : ∀ s : rpc_state,
      method s = result.ok () (answered s (error_tree "RPC control is disabled")) := by
    intro s
    simp only [control_gated_handlers, List.mem_cons, List.mem_singleton, List.not_mem_nil,
      or_false] at hmethod
    rcases hmethod with h | h | h | h | h | h | h | h | h | h | h | h | h | h <;> subst h <;>
      simp [hcontrol, rpc_handler.response_error, error_response, respond, handler.update,
        answered,
        rpc_handler.account_create, rpc_handler.account_move,
        rpc_handler.account_representative_set, rpc_handler.keepalive,
        rpc_handler.password_change, rpc_handler.search_pending, rpc_handler.send,
        rpc_handler.stop, rpc_handler.wallet_add, rpc_handler.wallet_create,
        rpc_handler.wallet_destroy, rpc_handler.wallet_representative_set,
        rpc_handler.work_generate, rpc_handler.work_cancel]
  exact ⟨hall s, rfl, hall _⟩

/-- C21, witness: the `send` request of the disabled-control scenario. -/
theorem gated_handler_refuses_witness :
    demo.env.config.enable_control = false
      ∧ rpc_handler.send demo.env (demo.parsed demo.request_send)
          = result.ok ()
              (answered (demo.parsed demo.request_send)
                (error_tree "RPC control is disabled")) :=
  ⟨rfl,
   (gated_handler_refuses demo.env (rpc_handler.send demo.env)
      (demo.parsed demo.request_send) rfl (by simp [control_gated_handlers])).1⟩

/-- C22. For every observer registered under its account whose `completed` flag is clear
(the balance lookup returning normally): when the balance of the account has reached the
amount of the observer, equality included, `observer_action` on the account answers
`status: success` on the callback of the observer, sets its flag and erases its
registration; when the balance is below the amount it returns with only the balance lookup
recorded, so with no response and with the flags and the registry as they were. On an
account with no observer registered, `observer_action` returns with the state as it was. -/
theorem observer_action_completes_when_reached (env : environment) (s : rpc_state)
    (this : payment_observer)
    (hregistered : s.payment_observers this.account = some this)
    (hfresh : s.completed this.id = false)
    (hbalance : env.raises (call.balance this.account) = none) :
    (env.balance this.account ≥ this.amount →
        ∃ s', rpc.observer_action env this.account s = result.ok () s'
          ∧ s'.responses
              = s.responses ++ [(this.response, payment_observer.status_tree "success")]
          ∧ s'.completed this.id = true
          ∧ s'.payment_observers this.account = none)
      ∧ (env.balance this.account < this.amount →
          rpc.observer_action env this.account s
            = result.ok () (called s [call.balance this.account]))
      ∧ (∀ (other : Nat) (idle : rpc_state), idle.payment_observers other = none →
          rpc.observer_action env other idle = result.ok () idle) := by
  refine ⟨?_, ?_, ?_⟩
  · intro hreached
    rw [observer_action_run env s this this.account hregistered hbalance, if_pos hreached,
      complete_first env this payment_status.success
        (called s [call.balance this.account]) hfresh]
    exact ⟨_, rfl, rfl, by simp, by simp⟩
  · intro hbelow
    rw [observer_action_run env s this this.account hregistered hbalance,
      if_neg (by omega)]
  · intro other idle hfree
    exact observer_action_idle env idle other hfree

/-- C22, witness: the observer registered by a `payment_wait` request for the second
example account, whose balance 0 is below the amount 1000, when a block is observed. -/
theorem observer_action_completes_when_reached_witness :
    demo.env.balance demo.account_2 < 1000
      ∧ rpc.observer_action demo.env demo.account_2
          (rpc_handler.process_request demo.env
            (demo.start demo.request_payment_wait_2)).state
        = result.ok ()
            (called
              (rpc_handler.process_request demo.env
                (demo.start demo.request_payment_wait_2)).state
              [call.balance demo.account_2]) :=
  ⟨by decide,
   (observer_action_completes_when_reached demo.env
      (rpc_handler.process_request demo.env (demo.start demo.request_payment_wait_2)).state
      demo.observer_2 rfl rfl rfl).2.1 (by decide)⟩

/-- C23. For every block store, start hash and count (collaborators returning normally),
`history` returns and answers, in the order of the walk, one entry for each block of
`visited` that is a send, receive or open block, carrying the hash of that block, and no
entry for a change block; where `visited` are the blocks found by following `previous` from
the start hash: it holds at most `count` blocks, its first block, if any, is the one stored
under the start hash, each block is the one stored under its hash, each next block is the
one stored under the `previous` of the block before it, and the walk stopped only because
`count` blocks were visited or the next hash is not in the store. Hence there are at most
`count` entries, and none when every visited block is a change block. -/
theorem history_lists_visited_blocks (env : environment) (s : rpc_state)
    (hash_text count_text : String) (hash count : Nat)
    (hquiet : quiet env)
    (hhash_text : s.request.get "hash" = some hash_text)
    (hcount_text : s.request.get "count" = some count_text)
    (hhash : env.decode_hex hash_text = some hash)
    (hcount : decode_unsigned env count_text = some count) :
    ∃ visited calls,
      rpc_handler.history env s
          = result.ok ()
              (answered (called s calls)
                (ptree.nil.add_child "history" (tree_list (history_entries env visited))))
        ∧ visited.length ≤ count
        ∧ (∀ v, visited.head? = some v → v.1 = hash)
        ∧ (∀ v ∈ visited, env.block_get v.1 = some v.2)
        ∧ visited.Chain' (fun a b => a.2.previous = b.1)
        ∧ (visited.length = count
            ∨ env.block_get (next_hash env.block_get hash (visited.map Prod.fst)) = none)
        ∧ (∀ entry ∈ history_entries env visited,
            ∃ v ∈ visited, reported v.2.type = true
              ∧ entry = (history_entry env v.1 v.2.type).put "hash" (env.to_string v.1)
              ∧ entry.get "hash" = some (env.to_string v.1))
        ∧ (history_entries env visited).length
            = (visited.filter fun v => reported v.2.type).length
        ∧ (history_entries env visited).length ≤ count
        ∧ ((∀ v ∈ visited, v.2.type = block_type.change_block) →
            history_entries env visited = []) := by
  obtain ⟨calls, hrun⟩ := history_run env hquiet s hash_text count_text hash count
    hhash_text hcount_text hhash hcount
  have hlength := history_walk_length env.block_get count hash
  have hcounted : (history_entries env (history_walk env.block_get count hash)).length
      = ((history_walk env.block_get count hash).filter fun v => reported v.2.type).length := by
    generalize history_walk env.block_get count hash = visited
    induction visited with
    | nil => simp [history_entries]
    | cons v rest ih =>
      by_cases hreported : reported v.2.type = true
      · simpa [history_entries, hreported] using ih
      · simpa [history_entries, hreported] using ih
  refine ⟨history_walk env.block_get count hash, calls, hrun, hlength,
    fun v hv => history_walk_head env.block_get count hash v hv,
    history_walk_present env.block_get count hash,
    history_walk_linked env.block_get count hash,
    history_walk_maximal env.block_get count hash, ?_, hcounted, ?_, ?_⟩
  · intro entry hentry
    simp only [history_entries, List.mem_filterMap] at hentry
    obtain ⟨v, hv, hsome⟩ := hentry
    by_cases hreported : reported v.2.type = true
    · simp only [hreported, if_true, Option.some.injEq] at hsome
      refine ⟨v, hv, hreported, hsome.symm, ?_⟩
      rw [← hsome]
      exact get_put _ "hash" _ (by decide)
    · simp [hreported] at hsome
  · rw [hcounted]
    exact le_trans (List.length_filter_le _ _) hlength
  · intro hchange
    simp only [history_entries, List.filterMap_eq_nil_iff]
    intro v hv
    simp [hchange v hv, reported]

/-- C23, witness: two entries asked from the example block, a send block whose predecessor
is an open block. -/
theorem history_lists_visited_blocks_witness :
    ∃ visited calls,
      rpc_handler.history demo.env_capped (demo.parsed demo.request_history)
          = result.ok ()
              (answered (called (demo.parsed demo.request_history) calls)
                (ptree.nil.add_child "history"
                  (tree_list (history_entries demo.env_capped visited))))
        ∧ visited.length ≤ 2
        ∧ (∀ v, visited.head? = some v → v.1 = demo.block_hash)
        ∧ (∀ v ∈ visited, demo.env_capped.block_get v.1 = some v.2)
        ∧ visited.Chain' (fun a b => a.2.previous = b.1)
        ∧ (visited.length = 2
            ∨ demo.env_capped.block_get
                (next_hash demo.env_capped.block_get demo.block_hash
                  (visited.map Prod.fst)) = none)
        ∧ (∀ entry ∈ history_entries demo.env_capped visited,
            ∃ v ∈ visited, reported v.2.type = true
              ∧ entry = (history_entry demo.env_capped v.1 v.2.type).put "hash"
                  (demo.env_capped.to_string v.1)
              ∧ entry.get "hash" = some (demo.env_capped.to_string v.1))
        ∧ (history_entries demo.env_capped visited).length
            = (visited.filter fun v => reported v.2.type).length
        ∧ (history_entries demo.env_capped visited).length ≤ 2
        ∧ ((∀ v ∈ visited, v.2.type = block_type.change_block) →
            history_entries demo.env_capped visited = []) :=
  history_lists_visited_blocks demo.env_capped (demo.parsed demo.request_history)
    demo.block_hash_text "2" demo.block_hash 2 (fun _ => rfl) rfl rfl (by rfl) (by rfl)

/-- C24, the code at the failing input. Take the run in which a `payment_wait` call on the
second example account schedules its timer with timeout 0, the timer fires, and only then
the call puts its observer in the registry and calls `observer_action`. The timer answers
`status: nothing` and sets the flag while the account is not registered, so the `assert` of
`complete` fails and nothing is erased; at the end of the run, with every part of the call
done and the timer spent, the observer is in the registry with its flag set, and stays
there. The run is not one of those in which every timer fires after its observer is put in
the registry. What holds in general: after every run from no call at all, each observer has
answered at most once; after every run in which no timer fires before its observer is in
the registry, no registered observer has its flag set, and the registry is empty once every
observer that was put in it has its flag set. The three kinds of step of a call are the
parts of `payment_wait`, in that order. -/
theorem early_timer_leaves_completed_observer :
    (payment_system.empty.run demo.env demo.early_timer).map
        (fun system => system.state.payment_observers demo.account_2)
        = some (some demo.observer_2)
      ∧ (payment_system.empty.run demo.env demo.early_timer).map
          (fun system => system.state.completed demo.observer_2.id) = some true
      ∧ (payment_system.empty.run demo.env demo.early_timer).map
          (fun system => system.state.responses)
          = some [(0, payment_observer.status_tree "nothing")]
      ∧ (payment_system.empty.run demo.env demo.early_timer).map
          (fun system => system.state.assert_failures) = some 1
      ∧ (payment_system.empty.run demo.env demo.early_timer).map
          (fun system => (system.to_insert, system.to_nudge, system.timers))
          = some ([], [], [])
      ∧ (payment_system.empty.orderly_run demo.env demo.early_timer).isSome = false
      ∧ (∀ (env : environment) (steps : List payment_step) (final : payment_system),
          payment_system.empty.run env steps = some final →
          ∀ o ∈ final.observers,
            (final.state.responses.filter fun r => r.1 == o.response).length ≤ 1)
      ∧ (∀ (env : environment) (steps : List payment_step) (final : payment_system),
          payment_system.empty.orderly_run env steps = some final →
          payment_system.empty.run env steps = some final
            ∧ (∀ a o, final.state.payment_observers a = some o →
                final.state.completed o.id = false)
            ∧ ((∀ o ∈ final.observers, o.id ∉ final.to_insert →
                  final.state.completed o.id = true) →
                ∀ a, final.state.payment_observers a = none))
      ∧ (∀ (env : environment) (s : rpc_state) (account_text amount_text timeout_text : String)
          (account amount timeout : Nat),
          s.request.get "account" = some account_text →
          s.request.get "amount" = some amount_text →
          s.request.get "timeout" = some timeout_text →
          env.decode_account account_text = some account →
          env.decode_dec amount_text = some amount →
          decode_unsigned env timeout_text = some timeout →
          rpc_handler.payment_wait env s
            = match rpc_handler.payment_wait_schedule env s.response account amount timeout
                s with
              | result.ok observer s1 =>
                rpc.observer_action env account
                  (rpc_handler.payment_wait_insert observer s1).state
              | result.error e s1 => result.error e s1) := by
  refine ⟨rfl, rfl, rfl, rfl, rfl, rfl, ?_, ?_, ?_⟩
  · intro env steps final hrun o _
    exact nodup_filter_le_one _ _
      (payment_run_sound env steps payment_system.empty final hrun payment_sound_empty).2.2.2.2
  · intro env steps final hrun
    have hplain := payment_orderly_run_run env steps payment_system.empty final hrun
    have hsound := payment_run_sound env steps payment_system.empty final hplain
      payment_sound_empty
    have horderly := payment_orderly_run_sound env steps payment_system.empty final hrun
      payment_sound_empty payment_orderly_empty
    refine ⟨hplain, fun a o hreg => (horderly.2.2.1 a o hreg).2, ?_⟩
    intro hall a
    cases hreg : final.state.payment_observers a with
    | none => rfl
    | some o =>
      obtain ⟨hin, hclear⟩ := horderly.2.2.1 a o hreg
      have hset := hall o (hsound.2.2.1 a o hreg).1 hin
      rw [hclear] at hset
      cases hset
  · intro env s account_text amount_text timeout_text account amount timeout haccount_text
      hamount_text htimeout_text haccount hamount htimeout
    exact payment_wait_steps env s account_text amount_text timeout_text account amount
      timeout haccount_text hamount_text htimeout_text haccount hamount htimeout

/-- C25. For every state of the handler object and every wallet, `pool` being the free
pool of the wallet in that state: the do-while loop of `payment_begin`, allowed
`pool.length + 1` runs of its body or more, ends within them, by returning or by an
exception, with the outcome of the loop as `payment_begin` runs it. A run of the body on a
pool that is not empty takes the first account out of the pool, looks it up, does not call
`deterministic_insert` and does not leave by `break`; a run of the body on the empty pool
calls `deterministic_insert`, once, leaves the pool empty and leaves the loop by `break`.
The accounts the loop examines are, in order, a prefix of the pool: so none is examined
twice when the pool holds every account once. -/
theorem payment_begin_loop_terminates (env : environment) (id : Nat) (s : rpc_state)
    (pool : List Nat) (hpool : s.free_accounts id = pool) :
    (∀ fuel, pool.length + 1 ≤ fuel →
        rpc_handler.payment_begin_do_while env id fuel s
          = within_bound (rpc_handler.payment_begin_loop env id pool s))
      ∧ (∀ fuel s', pool.length + 1 ≤ fuel →
          rpc_handler.payment_begin_do_while env id fuel s ≠ result.ok none s')
      ∧ (∀ existing rest, pool = existing :: rest →
          ∃ added,
            (added = [call.wallet_store_find id existing] ∨ added = examination id existing)
              ∧ (rpc_handler.payment_begin_body env id s).state.calls = s.calls ++ added
              ∧ (rpc_handler.payment_begin_body env id s).state.free_accounts id = rest
              ∧ ∀ after s', rpc_handler.payment_begin_body env id s = result.ok after s' →
                  after.2 = false)
      ∧ (pool = [] →
          (rpc_handler.payment_begin_body env id s).state.calls
              = s.calls ++ [call.deterministic_insert id]
            ∧ (rpc_handler.payment_begin_body env id s).state.free_accounts id = []
            ∧ ∀ after s', rpc_handler.payment_begin_body env id s = result.ok after s' →
                after.2 = true)
      ∧ ∃ added,
          (rpc_handler.payment_begin_do_while env id (pool.length + 1) s).state.calls
              = s.calls ++ added
            ∧ examined_accounts id added <+: pool
            ∧ (pool.Nodup → (examined_accounts id added).Nodup) := by
  refine ⟨?_, ?_, ?_, ?_, ?_⟩
  · intro fuel hfuel
    exact (payment_begin_do_while_run env id pool s fuel hpool hfuel).1
  · intro fuel s' hfuel hnone
    rw [(payment_begin_do_while_run env id pool s fuel hpool hfuel).1] at hnone
    cases hloop : rpc_handler.payment_begin_loop env id pool s <;>
      simp [hloop, within_bound] at hnone
  · intro existing rest hcons
    obtain ⟨added, hadded, hcalls, hfree, _⟩ :=
      payment_begin_examine_run env id existing rest s
    rw [payment_begin_body_cons env id existing rest s (hpool.trans hcons)]
    refine ⟨added, hadded, ?_, ?_, ?_⟩
    · cases hexamine : rpc_handler.payment_begin_examine env id existing rest s <;>
        simpa [hexamine, result.state] using hcalls
    · have := congrFun hfree id
      cases hexamine : rpc_handler.payment_begin_examine env id existing rest s <;>
        simpa [hexamine, result.state] using this
    · intro after s' hafter
      cases hexamine : rpc_handler.payment_begin_examine env id existing rest s <;>
        simp [hexamine] at hafter
      rw [← hafter.1]
  · intro hempty
    rw [payment_begin_body_empty env id s (hpool.trans hempty)]
    cases hraise : env.raises (call.deterministic_insert id) <;>
      simp [result.state, called, hpool, hempty]
  · obtain ⟨_, added, hcalls, hprefix⟩ :=
      payment_begin_do_while_run env id pool s (pool.length + 1) hpool (le_refl _)
    exact ⟨added, hcalls, hprefix, fun hnodup => hnodup.sublist hprefix.sublist⟩

/-- C25, witness: the pool of the example wallet holds the two example accounts. -/
theorem payment_begin_loop_terminates_witness :
    rpc_handler.payment_begin_do_while demo.env 1 3
        (demo.with_pool (demo.parsed demo.request_payment_begin)
          [demo.account_1, demo.account_2])
      = within_bound
          (rpc_handler.payment_begin_loop demo.env 1 [demo.account_1, demo.account_2]
            (demo.with_pool (demo.parsed demo.request_payment_begin)
              [demo.account_1, demo.account_2])) :=
  (payment_begin_loop_terminates demo.env 1
    (demo.with_pool (demo.parsed demo.request_payment_begin)
      [demo.account_1, demo.account_2])
    [demo.account_1, demo.account_2] rfl).1 3 (by decide)

/-- C26. For each of `rai_to_raw`, `krai_to_raw` and `mrai_to_raw`: a request with amount
`0` is answered `error: Amount too big`, although the product, 0, fits 128 bits; and, the
ratio being greater than one, for every amount `a ≥ 1` with `a * ratio < 2 ^ 128` the
handler answers the exact product. -/
theorem to_raw_zero_refused (env : environment) (unit : denomination)
    (s_zero s : rpc_state) (amount_text : String) (a : Nat)
    (hratio : 1 < unit.ratio env)
    (hzero_text : s_zero.request.get "amount" = some "0")
    (hzero : env.decode_dec "0" = some 0)
    (htext : s.request.get "amount" = some amount_text)
    (hamount : env.decode_dec amount_text = some a)
    (hpositive : 1 ≤ a)
    (hfits : a * unit.ratio env < 2 ^ 128) :
    unit.to_raw env s_zero = result.ok () (answered s_zero (error_tree "Amount too big"))
      ∧ 0 * unit.ratio env < 2 ^ 128
      ∧ unit.to_raw env s
          = result.ok () (answered s (ptree.nil.put "amount" (dec (a * unit.ratio env)))) := by
  have hgt : a < a * unit.ratio env := by
    nlinarith
  refine ⟨?_, by simp, ?_⟩
  · rw [denomination_to_raw, to_raw_run env _ s_zero "0" 0 hzero_text hzero]
    simp
  · rw [denomination_to_raw, to_raw_run env _ s amount_text a htext hamount,
      Nat.mod_eq_of_lt hfits, if_pos hgt]

/-- C26, witness: `mrai_to_raw` of 0 and of 3. -/
theorem to_raw_zero_refused_witness :
    rpc_handler.mrai_to_raw demo.env (demo.parsed demo.request_mrai_to_raw_zero)
        = result.ok ()
            (answered (demo.parsed demo.request_mrai_to_raw_zero)
              (error_tree "Amount too big"))
      ∧ 0 * demo.env.Mrai_ratio < 2 ^ 128
      ∧ rpc_handler.mrai_to_raw demo.env (demo.parsed demo.request_mrai_to_raw_three)
        = result.ok ()
            (answered (demo.parsed demo.request_mrai_to_raw_three)
              (ptree.nil.put "amount" "3000000000000000000000000000000")) :=
  to_raw_zero_refused demo.env denomination.Mrai
    (demo.parsed demo.request_mrai_to_raw_zero) (demo.parsed demo.request_mrai_to_raw_three)
    "3" 3 (by decide) rfl (by rfl) rfl (by rfl) (by decide) (by decide)

end rai
